import Mathlib

/-!
# Birth-order research dashboard: request handlers

A shallow embedding of the request handlers of the three server variants
(`server.js`, `server-sqlite.js`, `server-mongodb.js` with its route split
`src/routes/submissions.js`), followed by theorems about them.

Conventions of the embedding:

* a JavaScript Number is `JsNum`; its finite values are rationals, the exact
  values of the doubles among them. A handler that computes with Numbers takes
  the rounding of every result as its argument `round`: `roundToDouble` (IEEE
  754 binary64, to nearest, a tie to the even significand) is the arithmetic
  of the engine, `JsNum.fin` is exact arithmetic. The sign of zero is not kept:
  no answer of a handler depends on it;
* a plain object is `JsObj`, the list of its own enumerable properties in
  enumeration order; reads go through `getProp`, which also sees the
  properties every plain object inherits from `Object.prototype`;
* the text the engine prints for a finite Number (`Number::toString`) is a
  parameter, `numberToString`, wherever a handler needs it;
* clock readings, the database driver's answers and the request context are
  arguments of the handler that uses them.
-/

namespace BirthOrder

/-! ## Values -/

/-- A JavaScript Number: `NaN`, a finite value, or an infinity with its sign. -/
inductive JsNum where
  | nan
  | fin (q : ℚ)
  | inf (negative : Bool)
  deriving DecidableEq

namespace JsNum

/-- Unary minus. -/
def neg : JsNum → JsNum
  | nan => nan
  | fin q => fin (-q)
  | inf s => inf (!s)

/-- The `+` of two Numbers. -/
def add : JsNum → JsNum → JsNum
  | nan, _ => nan
  | _, nan => nan
  | fin a, fin b => fin (a + b)
  | fin _, inf s => inf s
  | inf s, fin _ => inf s
  | inf s, inf t => if s = t then inf s else nan

/-- The `-` of two Numbers. -/
def sub (a b : JsNum) : JsNum := add a (neg b)

/-- The `*` of two Numbers. -/
def mul : JsNum → JsNum → JsNum
  | nan, _ => nan
  | _, nan => nan
  | fin a, fin b => fin (a * b)
  | fin a, inf s => if a = 0 then nan else inf (if a < 0 then !s else s)
  | inf s, fin b => if b = 0 then nan else inf (if b < 0 then !s else s)
  | inf s, inf t => inf (s != t)

/-- The `/` of two Numbers (a zero divisor counts as `+0`). -/
def div : JsNum → JsNum → JsNum
  | nan, _ => nan
  | _, nan => nan
  | fin a, fin b =>
    if b = 0 then (if a = 0 then nan else inf (decide (a < 0))) else fin (a / b)
  | fin _, inf _ => fin 0
  | inf s, fin b => inf (if b < 0 then !s else s)
  | inf _, inf _ => nan

/-- ToBoolean on a Number: `NaN` and zero are falsy. -/
def truthy : JsNum → Bool
  | nan => false
  | fin q => decide (q ≠ 0)
  | inf _ => true

/-- The result of an operation as the arithmetic `round` keeps it: a finite
exact result is rounded, `NaN` and the infinities stay. -/
def rounded (round : ℚ → JsNum) : JsNum → JsNum
  | fin q => round q
  | x => x

/-- The function `Math.ceil`. -/
def ceil : JsNum → JsNum
  | fin q => fin ⌈q⌉
  | x => x

/-- The finite value of a Number (zero for the others). -/
def value : JsNum → ℚ
  | fin q => q
  | _ => 0

end JsNum

/-- The number of binary digits of a natural number, none for zero (`fuel`
bounds the number of halvings). -/
def binaryDigits : Nat → Nat → Nat
  | 0, _ => 0
  | fuel + 1, n => if n = 0 then 0 else binaryDigits fuel (n / 2) + 1

/-- The exponent `e` of the binade of a positive rational: `2^e ≤ a < 2^(e+1)`. -/
def floorLog2 (a : ℚ) : ℤ :=
  let c : ℤ := (binaryDigits a.num.natAbs a.num.natAbs : ℤ) - (binaryDigits a.den a.den : ℤ)
  if (2 : ℚ) ^ c ≤ a then c else c - 1

/-- Rounding to the nearest integer, a tie to the even one. -/
def roundHalfEven (s : ℚ) : ℤ :=
  let f := ⌊s⌋
  if s - f < 1 / 2 then f
  else if 1 / 2 < s - f then f + 1
  else if f % 2 = 0 then f else f + 1

/-- The double that an exact result becomes (IEEE 754 binary64, rounding to
nearest, a tie to the even significand): the significand has 53 bits, the unit
in the last place is `2^u` with `u` at least `-1074`, and a result that rounds
to `2^1024` or more is an infinity. -/
def roundToDouble (q : ℚ) : JsNum :=
  if q = 0 then JsNum.fin 0
  else
    let a := |q|
    let u := max (floorLog2 a - 52) (-1074)
    let r := (roundHalfEven (a / 2 ^ u) : ℚ) * 2 ^ u
    if (2 : ℚ) ^ 1024 ≤ r then JsNum.inf (decide (q < 0))
    else JsNum.fin (if q < 0 then -r else r)

/-- A value that can occur in a request body, a query string or a stored
record. `object text` is an array or an object, carried by the string that
ToString gives for it (for example `[object Object]`). `noPrimitive` is an
object that has no primitive value: converting it to a string or to a number
throws a `TypeError`. A parsed body or query string can hold one (an object
with an own property `toString` that is not a function); the rows and
documents read from a database and the properties of `Object.prototype` hold
none. -/
inductive JsVal where
  | undefined
  | null
  | bool (b : Bool)
  | num (n : JsNum)
  | str (s : String)
  | object (text : String)
  | noPrimitive
  deriving DecidableEq

/-- ToBoolean: what `!value` negates. -/
def truthy : JsVal → Bool
  | .undefined => false
  | .null => false
  | .bool b => b
  | .num n => n.truthy
  | .str s => decide (s ≠ "")
  | .object _ => true
  | .noPrimitive => true

/-- Whether ToString (and ToPropertyKey, `parseInt`, `parseFloat`) returns for
a value; it throws a `TypeError` for the others. -/
def hasPrimitive : JsVal → Bool
  | .noPrimitive => false
  | _ => true

/-- ToString on a Number, given the engine's text for finite values. -/
def JsNum.toStr (numberToString : ℚ → String) : JsNum → String
  | .nan => "NaN"
  | .fin q => numberToString q
  | .inf s => if s then "-Infinity" else "Infinity"

/-- ToString on a value (also ToPropertyKey for the values of this model). On
a value without a primitive value the conversion throws: a handler that may
meet one tests `hasPrimitive` and takes its `catch` branch, and the text given
here (the empty string) is never used by it. -/
def toStr (numberToString : ℚ → String) : JsVal → String
  | .undefined => "undefined"
  | .null => "null"
  | .bool b => if b then "true" else "false"
  | .num n => n.toStr numberToString
  | .str s => s
  | .object text => text
  | .noPrimitive => ""

/-! ## Plain objects -/

/-- The own enumerable properties of a plain object, in enumeration order. -/
abbrev JsObj := List (String × JsVal)

/-- Own-property lookup. -/
def getOwn {β : Type} : List (String × β) → String → Option β
  | [], _ => none
  | p :: rest, k => if p.1 = k then some p.2 else getOwn rest k

/-- The properties of `Object.prototype`, each with the text ToString gives
for its value in V8 (a built-in function, or the prototype object itself for
the `__proto__` accessor). -/
def objectPrototype : List (String × String) :=
  [("constructor", "function Object() \x7b [native code] \x7d"),
   ("__defineGetter__", "function __defineGetter__() \x7b [native code] \x7d"),
   ("__defineSetter__", "function __defineSetter__() \x7b [native code] \x7d"),
   ("hasOwnProperty", "function hasOwnProperty() \x7b [native code] \x7d"),
   ("__lookupGetter__", "function __lookupGetter__() \x7b [native code] \x7d"),
   ("__lookupSetter__", "function __lookupSetter__() \x7b [native code] \x7d"),
   ("isPrototypeOf", "function isPrototypeOf() \x7b [native code] \x7d"),
   ("propertyIsEnumerable", "function propertyIsEnumerable() \x7b [native code] \x7d"),
   ("toString", "function toString() \x7b [native code] \x7d"),
   ("valueOf", "function valueOf() \x7b [native code] \x7d"),
   ("__proto__", "[object Object]"),
   ("toLocaleString", "function toLocaleString() \x7b [native code] \x7d")]

/-- The names a plain object inherits from `Object.prototype`. -/
def objectPrototypeKeys : List String := objectPrototype.map Prod.fst

/-- Lookup of an inherited property: an object value, or nothing. -/
def getInherited : List (String × String) → String → Option JsVal
  | [], _ => none
  | p :: rest, k => if p.1 = k then some (JsVal.object p.2) else getInherited rest k

/-- The read `o[k]`: the own property, else the inherited one, else
`undefined`. -/
def getProp (o : JsObj) (k : String) : JsVal :=
  match getOwn o k with
  | some v => v
  | none =>
    match getInherited objectPrototype k with
    | some v => v
    | none => JsVal.undefined

/-- The value of a run of decimal digits. -/
def decimalValue (cs : List Char) : Nat :=
  cs.foldl (fun n c => 10 * n + (c.toNat - 48)) 0

/-- An array index: a canonical decimal numeral below `2^32 - 1`. Such keys
are enumerated first, in ascending order. -/
def arrayIndex (k : String) : Option Nat :=
  let cs := k.data
  if cs ≠ [] ∧ cs.all Char.isDigit = true ∧ (cs = ['0'] ∨ cs.head? ≠ some '0')
      ∧ decimalValue cs < 4294967295 then
    some (decimalValue cs)
  else none

/-- Adds a property that is not yet an own property, at its place in the
enumeration order: array indices ascending, then the other keys in creation
order. -/
def insertNew {β : Type} (k : String) (v : β) : List (String × β) → List (String × β)
  | [] => [(k, v)]
  | p :: rest =>
    match arrayIndex k, arrayIndex p.1 with
    | some i, some j => if i < j then (k, v) :: p :: rest else p :: insertNew k v rest
    | some _, none => (k, v) :: p :: rest
    | none, _ => p :: insertNew k v rest

/-- Overwrites the value of an existing own property, keeping its place. -/
def replaceOwn {β : Type} (k : String) (v : β) (o : List (String × β)) : List (String × β) :=
  o.map (fun p => if p.1 = k then (k, v) else p)

/-- CreateDataProperty, as done by an object literal and by spread. -/
def defineProp (k : String) (v : JsVal) (o : JsObj) : JsObj :=
  match getOwn o k with
  | some _ => replaceOwn k v o
  | none => insertNew k v o

/-- The assignment `o[k] = v` of a primitive `v` on a plain object: it
overwrites or creates an own property, except that `__proto__` without an own
property reaches the inherited setter, which ignores a primitive. -/
def assignProp {β : Type} (k : String) (v : β) (o : List (String × β)) : List (String × β) :=
  match getOwn o k with
  | some _ => replaceOwn k v o
  | none => if k = "__proto__" then o else insertNew k v o

/-- The spread `...source` inside an object literal (CopyDataProperties): every
own key of the source, in order, is defined on the target with the value read
from the source. -/
def spread (target source : JsObj) : JsObj :=
  source.foldl (fun t p => defineProp p.1 (getProp source p.1) t) target

/-! ## `parseInt`, `parseFloat` and `toFixed` -/

/-- The white space and line terminators that `parseInt` and `parseFloat`
skip at the start of their input. -/
def isStrWhiteSpace (c : Char) : Bool :=
  let n := c.toNat
  n = 0x09 || n = 0x0A || n = 0x0B || n = 0x0C || n = 0x0D || n = 0x20 || n = 0xA0
    || n = 0x1680 || (0x2000 ≤ n && n ≤ 0x200A) || n = 0x2028 || n = 0x2029
    || n = 0x202F || n = 0x205F || n = 0x3000 || n = 0xFEFF

/-- The value of a digit in the given radix, if the character is one. -/
def digitValue (radix : Nat) (c : Char) : Option Nat :=
  let n := c.toNat
  let d : Option Nat :=
    if 48 ≤ n ∧ n ≤ 57 then some (n - 48)
    else if 97 ≤ n ∧ n ≤ 122 then some (n - 87)
    else if 65 ≤ n ∧ n ≤ 90 then some (n - 55)
    else none
  match d with
  | some v => if v < radix then some v else none
  | none => none

/-- The longest run of digits at the start of the input, and the rest. -/
def takeDigits (radix : Nat) : List Char → List Nat × List Char
  | [] => ([], [])
  | c :: cs =>
    match digitValue radix c with
    | some d => ((takeDigits radix cs).1.cons d, (takeDigits radix cs).2)
    | none => ([], c :: cs)

/-- The number written by a run of digits. -/
def digitsValue (radix : Nat) (ds : List Nat) : Nat :=
  ds.foldl (fun n d => radix * n + d) 0

/-- An optional sign at the start of the input: whether it is a minus, and
the rest. -/
def takeSign : List Char → Bool × List Char
  | '-' :: cs => (true, cs)
  | '+' :: cs => (false, cs)
  | cs => (false, cs)

/-- The integer `parseInt(text)` reads, `none` standing for `NaN`: leading
white space is skipped, then an optional sign, an optional `0x` (radix 16),
and the longest run of digits; no digit gives `NaN`. -/
def parseIntChars (text : List Char) : Option Int :=
  let s := takeSign (text.dropWhile isStrWhiteSpace)
  let r : Nat × List Char :=
    match s.2 with
    | '0' :: 'x' :: cs => (16, cs)
    | '0' :: 'X' :: cs => (16, cs)
    | cs => (10, cs)
  let ds := (takeDigits r.1 r.2).1
  if ds = [] then none
  else some (if s.1 then -(digitsValue r.1 ds : Int) else (digitsValue r.1 ds : Int))

/-- The global `parseInt(value)` with no radix argument: the integer the text
writes. A handler that computes with it holds it as a double (`JsNum.rounded`). -/
def parseInt (numberToString : ℚ → String) (v : JsVal) : JsNum :=
  match parseIntChars (toStr numberToString v).data with
  | some z => JsNum.fin z
  | none => JsNum.nan

/-- The exponent part `e`, sign, digits at the start of the input, if there
is a complete one; else exponent zero. -/
def takeExponent : List Char → Int
  | c :: cs =>
    if c = 'e' ∨ c = 'E' then
      let s := takeSign cs
      let ds := (takeDigits 10 s.2).1
      if ds = [] then 0
      else if s.1 then -(digitsValue 10 ds : Int) else (digitsValue 10 ds : Int)
    else 0
  | [] => 0

/-- The finite value `mantissa * 10 ^ exponent`. -/
def scaleByTen (mantissa : Nat) (exponent : Int) : ℚ :=
  if 0 ≤ exponent then ((mantissa * 10 ^ exponent.toNat : Nat) : ℚ)
  else mkRat (mantissa : Int) (10 ^ (-exponent).toNat)

/-- The Number `parseFloat(text)` reads: leading white space is skipped, then
the longest prefix that is a decimal literal (optional sign; `Infinity`, or
digits with an optional fraction and an optional exponent) is evaluated; no
such prefix gives `NaN`. -/
def parseFloatChars (text : List Char) : JsNum :=
  let s := takeSign (text.dropWhile isStrWhiteSpace)
  if s.2.take 8 = "Infinity".data then JsNum.inf s.1
  else
    let ip := takeDigits 10 s.2
    let fp : List Nat × List Char :=
      match ip.2 with
      | '.' :: cs => takeDigits 10 cs
      | cs => ([], cs)
    if ip.1 = [] ∧ fp.1 = [] then JsNum.nan
    else
      let q := scaleByTen (digitsValue 10 (ip.1 ++ fp.1)) (takeExponent fp.2 - fp.1.length)
      JsNum.fin (if s.1 then -q else q)

/-- The global `parseFloat(value)`: the number the text writes. A handler that
computes with it holds it as a double (`JsNum.rounded`). -/
def parseFloat (numberToString : ℚ → String) (v : JsVal) : JsNum :=
  parseFloatChars (toStr numberToString v).data

/-- The integer `n` for which `n / 10^f - x` is as close to zero as possible,
the larger one if there are two (`x` not negative). -/
def roundHalfUp (x : ℚ) (f : Nat) : Nat := ⌊x * 10 ^ f + 1 / 2⌋.toNat

/-- The digits of `n` with a decimal point before the last `f` of them,
padded with zeros on the left to at least `f + 1` digits. -/
def fixedDigits (n f : Nat) : String :=
  let m := (Nat.toDigits 10 n)
  if f = 0 then String.mk m
  else
    let padded := List.replicate (f + 1 - m.length) '0' ++ m
    String.mk (padded.take (padded.length - f) ++ '.' :: padded.drop (padded.length - f))

/-- The method `x.toFixed(f)` on the exact value `x` of a double. -/
def toFixed (numberToString : ℚ → String) (x : JsNum) (f : Nat) : String :=
  match x with
  | .nan => "NaN"
  | .inf s => if s then "-Infinity" else "Infinity"
  | .fin q =>
    let sign := if q < 0 then "-" else ""
    let a := if q < 0 then -q else q
    if (10 : ℚ) ^ 21 ≤ a then sign ++ numberToString a
    else sign ++ fixedDigits (roundHalfUp a f) f

/-! ## Required-field check (the same lines in every variant) -/

/-- The array `requiredFields` of the submit handlers. -/
def requiredFields : List String :=
  ["region", "family-size", "firstborn-gender", "attitude-score",
   "firstborn-education", "laterborn-education", "age-range"]

/-- The array `missingFields`: `requiredFields.filter(field => !data[field])`. -/
def missingFields (data : JsObj) : List String :=
  requiredFields.filter (fun field => !truthy (getProp data field))

/-- The array method `join` on an array of strings. -/
def join (sep : String) (xs : List String) : String := sep.intercalate xs

/-- The keys of the body that the SQLite and MongoDB submit handlers hand to
`parseInt` and `parseFloat`. -/
def numericFields : List String :=
  ["family-size", "attitude-score", "firstborn-education", "laterborn-education"]

/-- Whether `parseInt` and `parseFloat` return for the numeric fields of a
body; they throw on a value without a primitive value. -/
def parses (data : JsObj) : Bool :=
  numericFields.all (fun field => hasPrimitive (getProp data field))

/-- The JSON answer of a submit handler: HTTP status and the body's fields
(an absent field is `none`). -/
structure SubmitResponse where
  status : Nat
  success : Bool
  error : Option String
  message : Option String
  submissionId : Option JsVal
  details : Option (List String)
  deriving DecidableEq

/-- The 400 answer for missing fields. -/
def missingFieldsResponse (missing : List String) : SubmitResponse :=
  { status := 400, success := false,
    error := some ("Missing required fields: " ++ join ", " missing),
    message := none, submissionId := none, details := none }

/-- The 200 answer of a stored submission. -/
def submittedResponse (id : JsVal) : SubmitResponse :=
  { status := 200, success := true, error := none,
    message := some "Data submitted successfully",
    submissionId := some id, details := none }

/-- A 500 answer with a fixed text. -/
def serverErrorResponse (text : String) : SubmitResponse :=
  { status := 500, success := false, error := some text,
    message := none, submissionId := none, details := none }

/-! ## In-memory variant (`server.js`) -/

namespace InMemory

/-- The record built from the request body: `id` from `Date.now()`, `timestamp`
from `new Date().toISOString()`, then the body spread over them. -/
def makeSubmission (nowMs : Nat) (isoNow : String) (data : JsObj) : JsObj :=
  spread [("id", JsVal.str (toString nowMs)), ("timestamp", JsVal.str isoNow)] data

/-- The handler of `POST /api/submit-data`: the answer and the new value of
the array `submissions`. -/
def submitData (nowMs : Nat) (isoNow : String) (data : JsObj) (submissions : List JsObj) :
    SubmitResponse × List JsObj :=
  let missing := missingFields data
  if missing.length > 0 then
    (missingFieldsResponse missing, submissions)
  else
    let submission := makeSubmission nowMs isoNow data
    (submittedResponse (getProp submission "id"), submissions ++ [submission])

/-- The JSON answer of `GET /api/submissions`. -/
structure ListResponse where
  success : Bool
  count : Nat
  submissions : List JsObj
  deriving DecidableEq

/-- The handler of `GET /api/submissions`. -/
def listSubmissions (submissions : List JsObj) : ListResponse :=
  { success := true, count := submissions.length, submissions := submissions }

end InMemory

/-! ## Statistics objects -/

/-- The `+` of a value and a count `n` (a non-negative integer Number, whose
text is its decimal numeral): string concatenation when the value is a string
or an object, whose primitive is its text; addition of Numbers otherwise. The
sum of two counts is exact in doubles (the counts of records stay below
`2^53`). The values of an object of counts are Numbers and strings and the
inherited ones are objects with a text, so the last case does not occur. -/
def addCount (v : JsVal) (n : Nat) : JsVal :=
  match v with
  | .str s => JsVal.str (s ++ toString n)
  | .object text => JsVal.str (text ++ toString n)
  | .num x => JsVal.num (x.add (JsNum.fin n))
  | .undefined => JsVal.num JsNum.nan
  | .null => JsVal.num (JsNum.fin n)
  | .bool b => JsVal.num (JsNum.fin ((if b then 1 else 0) + n))
  | .noPrimitive => JsVal.num JsNum.nan

/-- The statistics object of the in-memory and SQLite variants. The values
of `genderDistribution` are Numbers; the averages are the strings `toFixed`
returns. -/
structure Statistics where
  totalSubmissions : Nat
  regions : JsObj
  averageFamilySize : String
  genderDistribution : List (String × JsNum)
  averageAttitudeScore : String
  averageEducationDifference : String
  deriving DecidableEq

/-- The answer of `GET /api/statistics` in the in-memory and SQLite variants:
the no-data answer `message: No submissions yet, statistics: (empty)`, the
answer with a statistics object, or the 500 answer with its fixed text. -/
inductive StatisticsResponse where
  | noSubmissions
  | statistics (stats : Statistics)
  | failure (error : String)
  deriving DecidableEq

/-- The statement `genderDistribution[key]++`: an own value is incremented
(exactly, a count being below `2^53`); a key that is not an own property reads
as `undefined` or as an inherited object, whose increment is `NaN`, stored as
a new own property (the setter of `__proto__` ignores it). -/
def incrementProp (key : String) (g : List (String × JsNum)) : List (String × JsNum) :=
  match getOwn g key with
  | some n => replaceOwn key (n.add (JsNum.fin 1)) g
  | none => assignProp key JsNum.nan g

/-! ## In-memory statistics -/

namespace InMemory

/-- The local variables the `forEach` loop of the statistics handler updates. -/
structure Totals where
  regions : JsObj
  genderDistribution : List (String × JsNum)
  totalFamilySize : JsNum
  totalAttitudeScore : JsNum
  totalEducationDifference : JsNum
  deriving DecidableEq

/-- The state before the loop. -/
def initialTotals : Totals :=
  { regions := [],
    genderDistribution := [("male", JsNum.fin 0), ("female", JsNum.fin 0)],
    totalFamilySize := JsNum.fin 0,
    totalAttitudeScore := JsNum.fin 0,
    totalEducationDifference := JsNum.fin 0 }

/-- The family size the loop body reads from a stored record, as a double. -/
def familySize (round : ℚ → JsNum) (numberToString : ℚ → String) (sub : JsObj) : JsNum :=
  (parseInt numberToString (getProp sub "family-size")).rounded round

/-- The attitude score the loop body reads from a stored record, as a double. -/
def attitudeScore (round : ℚ → JsNum) (numberToString : ℚ → String) (sub : JsObj) : JsNum :=
  (parseFloat numberToString (getProp sub "attitude-score")).rounded round

/-- The difference `parseFloat(sub['firstborn-education']) -
parseFloat(sub['laterborn-education'])` of two doubles. -/
def educationDifference (round : ℚ → JsNum) (numberToString : ℚ → String) (sub : JsObj) :
    JsNum :=
  (((parseFloat numberToString (getProp sub "firstborn-education")).rounded round).sub
    ((parseFloat numberToString (getProp sub "laterborn-education")).rounded round)).rounded round

/-- One pass of the loop body over a stored record whose values can be
converted. -/
def accumulate (round : ℚ → JsNum) (numberToString : ℚ → String) (t : Totals) (sub : JsObj) :
    Totals :=
  let region := toStr numberToString (getProp sub "region")
  let current := getProp t.regions region
  { regions := assignProp region (addCount (if truthy current then current else JsVal.num (JsNum.fin 0)) 1) t.regions,
    totalFamilySize := (t.totalFamilySize.add (familySize round numberToString sub)).rounded round,
    genderDistribution :=
      incrementProp (toStr numberToString (getProp sub "firstborn-gender")) t.genderDistribution,
    totalAttitudeScore :=
      (t.totalAttitudeScore.add (attitudeScore round numberToString sub)).rounded round,
    totalEducationDifference :=
      (t.totalEducationDifference.add (educationDifference round numberToString sub)).rounded
        round }

/-- The state after `submissions.forEach`. -/
def totals (round : ℚ → JsNum) (numberToString : ℚ → String) (submissions : List JsObj) :
    Totals :=
  submissions.foldl (accumulate round numberToString) initialTotals

/-- The three quotients `total / submissions.length`, before `toFixed`. -/
def means (round : ℚ → JsNum) (numberToString : ℚ → String) (submissions : List JsObj) :
    JsNum × JsNum × JsNum :=
  let t := totals round numberToString submissions
  ((t.totalFamilySize.div (JsNum.fin submissions.length)).rounded round,
   (t.totalAttitudeScore.div (JsNum.fin submissions.length)).rounded round,
   (t.totalEducationDifference.div (JsNum.fin submissions.length)).rounded round)

/-- Whether the loop body runs through on a stored record: it converts the
region and the gender to property keys and hands the four numeric fields to
`parseInt` and `parseFloat`, and each of these conversions throws on a value
without a primitive value. -/
def converts (sub : JsObj) : Bool :=
  hasPrimitive (getProp sub "region") && hasPrimitive (getProp sub "family-size")
    && hasPrimitive (getProp sub "firstborn-gender")
    && hasPrimitive (getProp sub "attitude-score")
    && hasPrimitive (getProp sub "firstborn-education")
    && hasPrimitive (getProp sub "laterborn-education")

/-- The handler of `GET /api/statistics`. An exception thrown in the loop is
caught by the `catch` of the handler, which answers 500. -/
def statistics (round : ℚ → JsNum) (numberToString : ℚ → String) (submissions : List JsObj) :
    StatisticsResponse :=
  if submissions.length = 0 then StatisticsResponse.noSubmissions
  else if submissions.all converts then
    let t := totals round numberToString submissions
    let m := means round numberToString submissions
    StatisticsResponse.statistics
      { totalSubmissions := submissions.length,
        regions := t.regions,
        averageFamilySize := toFixed numberToString m.1 2,
        genderDistribution := t.genderDistribution,
        averageAttitudeScore := toFixed numberToString m.2.1 3,
        averageEducationDifference := toFixed numberToString m.2.2 2 }
  else StatisticsResponse.failure "Internal server error"

end InMemory

/-! ## SQLite variant (`server-sqlite.js`) -/

namespace Sqlite

/-- The array `params` bound to the INSERT statement, built from the body; the
Numbers among them are doubles. -/
def insertParams (round : ℚ → JsNum) (numberToString : ℚ → String) (data : JsObj) :
    List JsVal :=
  [getProp data "region",
   JsVal.num ((parseInt numberToString (getProp data "family-size")).rounded round),
   getProp data "firstborn-gender",
   JsVal.num ((parseFloat numberToString (getProp data "attitude-score")).rounded round),
   JsVal.num ((parseFloat numberToString (getProp data "firstborn-education")).rounded round),
   JsVal.num ((parseFloat numberToString (getProp data "laterborn-education")).rounded round),
   getProp data "age-range",
   (if truthy (getProp data "notes") then getProp data "notes" else JsVal.str ""),
   (if truthy (getProp data "contact-email") then getProp data "contact-email"
    else JsVal.str "")]

/-- The keys of the body whose values become parameters of the INSERT. -/
def insertFields : List String :=
  ["region", "family-size", "firstborn-gender", "attitude-score", "firstborn-education",
   "laterborn-education", "age-range", "notes", "contact-email"]

/-- Whether the handler gets as far as the callback of `db.run`: `parseInt`
and `parseFloat` throw on a numeric field without a primitive value, and the
driver binds an object among the parameters by its ToString, which throws
likewise. -/
def binds (data : JsObj) : Bool :=
  insertFields.all (fun field => hasPrimitive (getProp data field))

/-- The handler of `POST /api/submit-data`. `run` is the database's answer to
the INSERT with the given parameters: the new row id, or the message of its
error. An exception thrown before the callback is caught by the `catch` of
the handler. -/
def submitData (round : ℚ → JsNum) (numberToString : ℚ → String)
    (run : List JsVal → Except String Nat) (data : JsObj) : SubmitResponse :=
  let missing := missingFields data
  if missing.length > 0 then missingFieldsResponse missing
  else if binds data then
    match run (insertParams round numberToString data) with
    | .error _ => serverErrorResponse "Database error"
    | .ok lastID => submittedResponse (JsVal.num (JsNum.fin lastID))
  else serverErrorResponse "Internal server error"

/-- A row of the table `submissions` (the columns of `CREATE TABLE`). -/
structure Row where
  id : Nat
  region : String
  family_size : ℚ
  firstborn_gender : String
  attitude_score : ℚ
  firstborn_education : ℚ
  laterborn_education : ℚ
  age_range : String
  notes : String
  contact_email : String
  timestamp : String
  deriving DecidableEq

/-- A row of the statistics query: `COUNT(*)`, the three `AVG`s and the two
grouping columns. -/
structure GroupRow where
  total : Nat
  avg_family_size : JsNum
  avg_attitude_score : JsNum
  avg_education_diff : JsNum
  region : String
  firstborn_gender : String
  deriving DecidableEq

/-- The `AVG` of an expression over the rows of a non-empty group (the exact
average; the database's own rounding of it is not part of the handler). -/
def avg (f : Row → ℚ) (group : List Row) : JsNum :=
  JsNum.fin ((group.map f).sum / group.length)

/-- The statistics query, `SELECT COUNT(*), AVG(..), .. FROM submissions GROUP
BY region, firstborn_gender`: one row per pair of values that occurs (the
order of the groups is the engine's choice; here each pair stands at its last
occurrence in the table). -/
def groupRows (table : List Row) : List GroupRow :=
  (table.map (fun r => (r.region, r.firstborn_gender))).dedup.map (fun key =>
    let group := table.filter (fun r => (r.region, r.firstborn_gender) = key)
    { total := group.length,
      avg_family_size := avg (fun r => r.family_size) group,
      avg_attitude_score := avg (fun r => r.attitude_score) group,
      avg_education_diff := avg (fun r => r.firstborn_education - r.laterborn_education) group,
      region := key.1,
      firstborn_gender := key.2 })

/-- The local variables the `forEach` loop over the group rows updates. -/
structure Totals where
  regions : JsObj
  genderDistribution : List (String × JsNum)
  totalFamilySize : JsNum
  totalAttitudeScore : JsNum
  totalEducationDifference : JsNum
  totalCount : Nat
  deriving DecidableEq

/-- The state before the loop. -/
def initialTotals : Totals :=
  { regions := [],
    genderDistribution := [("male", JsNum.fin 0), ("female", JsNum.fin 0)],
    totalFamilySize := JsNum.fin 0,
    totalAttitudeScore := JsNum.fin 0,
    totalEducationDifference := JsNum.fin 0,
    totalCount := 0 }

/-- The statement `genderDistribution.male += n` (or `.female`): the own value
grows by `n`, exactly, a count being below `2^53` (both are own properties
from the start; a missing one would read as `undefined` and become `NaN`). -/
def addToProp (key : String) (n : Nat) (g : List (String × JsNum)) : List (String × JsNum) :=
  match getOwn g key with
  | some x => replaceOwn key (x.add (JsNum.fin n)) g
  | none => assignProp key JsNum.nan g

/-- The statement `total += row.avg * row.total` on doubles. -/
def addWeighted (round : ℚ → JsNum) (total average : JsNum) (count : Nat) : JsNum :=
  (total.add ((average.mul (JsNum.fin count)).rounded round)).rounded round

/-- One pass of the loop body over a group row. -/
def accumulate (round : ℚ → JsNum) (t : Totals) (row : GroupRow) : Totals :=
  let regions₀ :=
    if !truthy (getProp t.regions row.region) then
      assignProp row.region (JsVal.num (JsNum.fin 0)) t.regions
    else t.regions
  { totalCount := t.totalCount + row.total,
    totalFamilySize := addWeighted round t.totalFamilySize row.avg_family_size row.total,
    totalAttitudeScore := addWeighted round t.totalAttitudeScore row.avg_attitude_score row.total,
    totalEducationDifference :=
      addWeighted round t.totalEducationDifference row.avg_education_diff row.total,
    regions := assignProp row.region (addCount (getProp regions₀ row.region) row.total) regions₀,
    genderDistribution :=
      if row.firstborn_gender = "male" then addToProp "male" row.total t.genderDistribution
      else addToProp "female" row.total t.genderDistribution }

/-- The state after `rows.forEach`. -/
def totals (round : ℚ → JsNum) (rows : List GroupRow) : Totals :=
  rows.foldl (accumulate round) initialTotals

/-- The three quotients `total / totalCount`, before `toFixed`. -/
def means (round : ℚ → JsNum) (rows : List GroupRow) : JsNum × JsNum × JsNum :=
  let t := totals round rows
  ((t.totalFamilySize.div (JsNum.fin t.totalCount)).rounded round,
   (t.totalAttitudeScore.div (JsNum.fin t.totalCount)).rounded round,
   (t.totalEducationDifference.div (JsNum.fin t.totalCount)).rounded round)

/-- The handler of `GET /api/statistics`, given what `db.all` hands to the
callback: an error message or the rows of the statistics query. -/
def statistics (round : ℚ → JsNum) (numberToString : ℚ → String)
    (result : Except String (List GroupRow)) : StatisticsResponse :=
  match result with
  | .error _ => StatisticsResponse.failure "Database error"
  | .ok rows =>
    if rows.length = 0 then StatisticsResponse.noSubmissions
    else
      let t := totals round rows
      let m := means round rows
      StatisticsResponse.statistics
        { totalSubmissions := rows.foldl (fun sum row => sum + row.total) 0,
          regions := t.regions,
          averageFamilySize := toFixed numberToString m.1 2,
          genderDistribution := t.genderDistribution,
          averageAttitudeScore := toFixed numberToString m.2.1 3,
          averageEducationDifference := toFixed numberToString m.2.2 2 }

end Sqlite

/-! ## MongoDB variant (`server-mongodb.js`, `src/routes/submissions.js`) -/

namespace Mongo

/-- The `enum` of the schema path `region`. -/
def regionEnum : List String :=
  ["Canadian", "Pacific Islander", "Western European", "British", "Central American",
   "South American", "Caribbean", "Eastern European", "Northern European", "East Asian",
   "African", "South Asian", "Middle Eastern", "Other"]

/-- The `enum` of the schema path `firstbornGender`. -/
def genderEnum : List String := ["male", "female"]

/-- The `enum` of the schema path `ageRange`. -/
def ageRangeEnum : List String := ["18-25", "26-30", "31-35", "35+"]

/-- The object handed to `new Submission(..)` by the submit handler. -/
structure Submission where
  region : JsVal
  familySize : JsNum
  firstbornGender : JsVal
  attitudeScore : JsNum
  firstbornEducation : JsNum
  laterbornEducation : JsNum
  ageRange : JsVal
  notes : JsVal
  contactEmail : JsVal
  ipAddress : JsVal
  userAgent : JsVal
  deriving DecidableEq

/-- The document the handler builds from the body and the request context
(`req.ip`, `req.get('User-Agent')`); the Numbers in it are doubles. -/
def makeSubmission (round : ℚ → JsNum) (numberToString : ℚ → String) (ip userAgent : JsVal)
    (data : JsObj) : Submission :=
  { region := getProp data "region",
    familySize := (parseInt numberToString (getProp data "family-size")).rounded round,
    firstbornGender := getProp data "firstborn-gender",
    attitudeScore := (parseFloat numberToString (getProp data "attitude-score")).rounded round,
    firstbornEducation :=
      (parseFloat numberToString (getProp data "firstborn-education")).rounded round,
    laterbornEducation :=
      (parseFloat numberToString (getProp data "laterborn-education")).rounded round,
    ageRange := getProp data "age-range",
    notes := if truthy (getProp data "notes") then getProp data "notes" else JsVal.str "",
    contactEmail :=
      if truthy (getProp data "contact-email") then getProp data "contact-email"
      else JsVal.str "",
    ipAddress := ip,
    userAgent := userAgent }

/-- A required String path with an `enum`: a string must be a member; a Number
or Boolean is cast to its text, which is no member; an array or object fails
the cast (an object holding a string `_id`, which is cast to that string, is
not among the values of this model); `null`, `undefined` fail `required`. -/
def enumValid (allowed : List String) : JsVal → Bool
  | .str s => decide (s ∈ allowed)
  | _ => false

/-- A required Number path with `min` and `max`: `NaN` fails the cast, and a
Number must lie within the bounds. -/
def rangeValid (min max : ℚ) : JsNum → Bool
  | .fin q => decide (min ≤ q ∧ q ≤ max)
  | _ => false

/-- The length of a string in UTF-16 code units (the `length` of a JavaScript
string). -/
def utf16Length (s : String) : Nat :=
  (s.data.map (fun c => if c.toNat < 65536 then 1 else 2)).sum

/-- The path `notes`, a String with `maxlength: 1000`: a Number or Boolean is
cast to its short text; an array or object fails the cast. -/
def notesValid : JsVal → Bool
  | .str s => decide (utf16Length s ≤ 1000)
  | .object _ => false
  | .noPrimitive => false
  | _ => true

/-- The path `contactEmail`, a String with a `match` pattern, which the empty
string passes; the text of a Number or Boolean has no `@` and fails it; an
array or object fails the cast. `emailMatches` is the test of the pattern. -/
def contactEmailValid (emailMatches : String → Bool) : JsVal → Bool
  | .str s => s = "" || emailMatches s
  | .undefined => true
  | .null => true
  | _ => false

/-- The paths whose validators (or casts) fail when the document is saved, in
schema order; each stands for the message of its error. The bounds are the
doubles the schema writes: 1 and 20 are doubles, `0.1` and `0.7` are rounded
to doubles. -/
def schemaErrors (round : ℚ → JsNum) (emailMatches : String → Bool) (d : Submission) :
    List String :=
  (if enumValid regionEnum d.region then [] else ["region"])
  ++ (if rangeValid 1 20 d.familySize then [] else ["familySize"])
  ++ (if enumValid genderEnum d.firstbornGender then [] else ["firstbornGender"])
  ++ (if rangeValid (round (1 / 10)).value (round (7 / 10)).value d.attitudeScore then []
      else ["attitudeScore"])
  ++ (if rangeValid 1 20 d.firstbornEducation then [] else ["firstbornEducation"])
  ++ (if rangeValid 1 20 d.laterbornEducation then [] else ["laterbornEducation"])
  ++ (if enumValid ageRangeEnum d.ageRange then [] else ["ageRange"])
  ++ (if notesValid d.notes then [] else ["notes"])
  ++ (if contactEmailValid emailMatches d.contactEmail then [] else ["contactEmail"])

/-- The 400 answer of the `ValidationError` branch. -/
def validationErrorResponse (details : List String) : SubmitResponse :=
  { status := 400, success := false, error := some "Validation error",
    message := none, submissionId := none, details := some details }

/-- The handler of `POST /api/submit-data`. `submission.save()` validates the
document against the schema and, if it is valid, asks the database to insert
it: `insert` is the database's answer, the `_id` of the saved document or the
message of its error. A `TypeError` thrown by `parseInt` or `parseFloat` is no
`ValidationError`, so the `catch` answers it with 500. -/
def submitData (round : ℚ → JsNum) (numberToString : ℚ → String)
    (emailMatches : String → Bool) (insert : Submission → Except String JsVal)
    (ip userAgent : JsVal) (data : JsObj) : SubmitResponse :=
  let missing := missingFields data
  if missing.length > 0 then missingFieldsResponse missing
  else if parses data then
    let submission := makeSubmission round numberToString ip userAgent data
    let errors := schemaErrors round emailMatches submission
    if errors.length > 0 then validationErrorResponse errors
    else
      match insert submission with
      | .ok id => submittedResponse id
      | .error _ => serverErrorResponse "Internal server error"
  else serverErrorResponse "Internal server error"

/-- The answer of the paginated `GET /api/submissions`: the 200 body, or the
500 answer with its fixed text. -/
inductive ListResponse where
  | ok (count total : Nat) (page totalPages : JsNum) (submissions : List JsObj)
  | failure (error : String)
  deriving DecidableEq

/-- The expression `parseInt(value) || fallback`, a double; `none` when
`parseInt` throws. -/
def parseIntOr (round : ℚ → JsNum) (numberToString : ℚ → String) (v : JsVal)
    (fallback : JsNum) : Option JsNum :=
  if hasPrimitive v then
    let parsed := (parseInt numberToString v).rounded round
    some (if parsed.truthy then parsed else fallback)
  else none

/-- The constant `page` of the list handler. -/
def pageOf (round : ℚ → JsNum) (numberToString : ℚ → String) (query : JsObj) : Option JsNum :=
  parseIntOr round numberToString (getProp query "page") (JsNum.fin 1)

/-- The constant `limit` of the list handler. -/
def limitOf (round : ℚ → JsNum) (numberToString : ℚ → String) (query : JsObj) :
    Option JsNum :=
  parseIntOr round numberToString (getProp query "limit") (JsNum.fin 50)

/-- The constant `skip` of the list handler, `(page - 1) * limit` on doubles. -/
def skipOf (round : ℚ → JsNum) (page limit : JsNum) : JsNum :=
  (((page.sub (JsNum.fin 1)).rounded round).mul limit).rounded round

/-- The projection `.select('-__v')`. -/
def selectWithoutVersion (doc : JsObj) : JsObj := doc.filter (fun p => p.1 ≠ "__v")

/-- A finite value that is an integer a signed 64-bit integer holds. -/
def isInt64 (q : ℚ) : Bool := decide (q.den = 1 ∧ -(2 : ℚ) ^ 63 ≤ q ∧ q < (2 : ℚ) ^ 63)

/-- The query `find().sort(timestamp: -1).skip(skip).limit(limit).select('-__v')`
on a collection given in descending timestamp order, for a `skip` and a
`limit` that are integers: a negative `skip` is refused by the database,
`limit` zero means no limit and a negative `limit` counts as its absolute
value. What the driver and the database make of a `skip` or `limit` that is
`NaN`, an infinity or beyond 64 bits is the argument `unusual` (an error, or
the documents they return). -/
def findPage (unusual : JsNum → JsNum → Except String (List JsObj)) (sorted : List JsObj)
    (skip limit : JsNum) : Except String (List JsObj) :=
  match skip, limit with
  | .fin s, .fin l =>
    if isInt64 s && isInt64 l then
      if s < 0 then Except.error "Skip value must be non-negative"
      else
        let rest := sorted.drop s.num.toNat
        Except.ok ((if l = 0 then rest else rest.take l.num.natAbs).map selectWithoutVersion)
    else unusual skip limit
  | _, _ => unusual skip limit

/-- The handler of `GET /api/submissions`. `dbFailure` is the error of a
database that cannot answer, if any; `sorted` is the collection in descending
timestamp order, whose length is what `countDocuments` returns. An exception
thrown by `parseInt` is caught like an error of the database. -/
def listSubmissions (round : ℚ → JsNum) (numberToString : ℚ → String)
    (dbFailure : Option String) (unusual : JsNum → JsNum → Except String (List JsObj))
    (query : JsObj) (sorted : List JsObj) : ListResponse :=
  match pageOf round numberToString query, limitOf round numberToString query with
  | some page, some limit =>
    match dbFailure with
    | some _ => ListResponse.failure "Database error"
    | none =>
      match findPage unusual sorted (skipOf round page limit) limit with
      | .error _ => ListResponse.failure "Database error"
      | .ok submissions =>
        ListResponse.ok submissions.length sorted.length page
          (((JsNum.fin sorted.length).div limit).rounded round).ceil submissions
  | _, _ => ListResponse.failure "Database error"

/-- The stage `$group: (_id: '$field', count: ($sum: 1))` of an aggregation
pipeline: one entry per value of the field, with the number of documents
holding it. -/
def groupCount (field : String) (collection : List JsObj) : List (JsVal × Nat) :=
  let values := collection.map (fun doc => getProp doc field)
  values.dedup.map (fun v => (v, values.count v))

/-- The order of `$sort: (count: -1)`: a group may stand before another when
its count is not smaller. -/
def countDescending (a b : JsVal × Nat) : Prop := b.2 ≤ a.2

instance : DecidableRel countDescending := fun a b => inferInstanceAs (Decidable (b.2 ≤ a.2))

instance : IsTotal (JsVal × Nat) countDescending := ⟨fun a b => Nat.le_total b.2 a.2⟩

instance : IsTrans (JsVal × Nat) countDescending :=
  ⟨fun _ _ _ hab hbc => Nat.le_trans hbc hab⟩

/-- The stage `$sort: (count: -1)` (the order among equal counts is the
database's choice; here it is that of an insertion sort). -/
def sortByCountDescending (groups : List (JsVal × Nat)) : List (JsVal × Nat) :=
  groups.insertionSort countDescending

/-- The pipeline `regionStats` of the statistics handler. -/
def regionStats (collection : List JsObj) : List (JsVal × Nat) :=
  sortByCountDescending (groupCount "region" collection)

/-- The pipeline `genderStats` of the statistics handler. -/
def genderStats (collection : List JsObj) : List (JsVal × Nat) :=
  groupCount "firstbornGender" collection

end Mongo

/-! ## CSV conversion (the same lines in the SQLite and MongoDB variants) -/

/-- The array `Object.keys(record)`. -/
def objectKeys (record : JsObj) : List String := record.map Prod.fst

/-- The array `Object.values(record)`. -/
def objectValues (record : JsObj) : List JsVal := record.map Prod.snd

/-- The test `value.includes(',')` on a string. -/
def includesComma (s : String) : Bool := s.data.contains ','

/-- The mapping of a value to its cell:
`typeof value === 'string' && value.includes(',')` gives the value between two
double quotes, anything else the value itself. -/
def csvCell (value : JsVal) : JsVal :=
  match value with
  | .str s => if includesComma s then JsVal.str ("\"" ++ s ++ "\"") else JsVal.str s
  | v => v

/-- The text `join` writes for an element of an array: nothing for `undefined`
and `null`, else its ToString (the rows and documents the export reads come
from a database and hold no value without a primitive value). -/
def joinText (numberToString : ℚ → String) : JsVal → String
  | .undefined => ""
  | .null => ""
  | v => toStr numberToString v

/-- The array method `join` on an array of values. -/
def joinValues (numberToString : ℚ → String) (sep : String) (xs : List JsVal) : String :=
  join sep (xs.map (joinText numberToString))

/-- One element of `csvData`: the cells of a record, joined by commas. -/
def csvLine (numberToString : ℚ → String) (record : JsObj) : String :=
  joinValues numberToString "," ((objectValues record).map csvCell)

/-- The constant `headers`: the keys of the first record, joined by commas
(the conversion is only reached with a first record). -/
def csvHeaders (records : List JsObj) : String :=
  join "," (objectKeys (records.headD []))

/-- The constant `csv`: the headers, a line feed, and the lines of the records
joined by line feeds. -/
def csvText (numberToString : ℚ → String) (records : List JsObj) : String :=
  csvHeaders records ++ "\n" ++ join "\n" (records.map (csvLine numberToString))

/-- The answer of `GET /api/export-csv`: the CSV text with status 200 and its
two headers, the 404 answer `success: false, error`, or the 500 answer
`success: false, error`. -/
inductive ExportResponse where
  | csv (contentType contentDisposition body : String)
  | noData (error : String)
  | failure (error : String)
  deriving DecidableEq

/-- The HTTP status of an export answer. -/
def ExportResponse.status : ExportResponse → Nat
  | .csv _ _ _ => 200
  | .noData _ => 404
  | .failure _ => 500

/-- The answer of a health check. -/
structure HealthResponse where
  status : String
  database : Option String
  error : Option String
  timestamp : String
  uptime : Option JsNum
  deriving DecidableEq

namespace Sqlite

/-- The object the driver builds for a row of `SELECT *`: one property per
column, in the order of the columns. -/
def rowObject (r : Row) : JsObj :=
  [("id", JsVal.num (JsNum.fin r.id)),
   ("region", JsVal.str r.region),
   ("family_size", JsVal.num (JsNum.fin r.family_size)),
   ("firstborn_gender", JsVal.str r.firstborn_gender),
   ("attitude_score", JsVal.num (JsNum.fin r.attitude_score)),
   ("firstborn_education", JsVal.num (JsNum.fin r.firstborn_education)),
   ("laterborn_education", JsVal.num (JsNum.fin r.laterborn_education)),
   ("age_range", JsVal.str r.age_range),
   ("notes", JsVal.str r.notes),
   ("contact_email", JsVal.str r.contact_email),
   ("timestamp", JsVal.str r.timestamp)]

/-- The order of `ORDER BY timestamp DESC`: a row may stand before another
when its timestamp is not smaller. -/
def timestampDescending (a b : Row) : Prop := b.timestamp ≤ a.timestamp

instance : DecidableRel timestampDescending :=
  fun a b => inferInstanceAs (Decidable (b.timestamp ≤ a.timestamp))

instance : IsTotal Row timestampDescending := ⟨fun a b => le_total b.timestamp a.timestamp⟩

instance : IsTrans Row timestampDescending := ⟨fun _ _ _ hab hbc => le_trans hbc hab⟩

/-- The query `SELECT * FROM submissions ORDER BY timestamp DESC` (the order
among equal timestamps is the engine's choice; here it is that of an insertion
sort). -/
def selectAllOrdered (table : List Row) : List JsObj :=
  (table.insertionSort timestampDescending).map rowObject

/-- The answer of `GET /api/submissions`: the 200 body, or the 500 answer with
its fixed text. -/
inductive ListResponse where
  | ok (count : Nat) (submissions : List JsObj)
  | failure (error : String)
  deriving DecidableEq

/-- The handler of `GET /api/submissions`, given what `db.all` hands to the
callback. -/
def listSubmissions (result : Except String (List JsObj)) : ListResponse :=
  match result with
  | .error _ => ListResponse.failure "Database error"
  | .ok rows => ListResponse.ok rows.length rows

/-- The handler of `GET /api/export-csv`, given what `db.all` hands to the
callback. -/
def exportCsv (numberToString : ℚ → String) (result : Except String (List JsObj)) :
    ExportResponse :=
  match result with
  | .error _ => ExportResponse.failure "Database error"
  | .ok rows =>
    if rows.length = 0 then ExportResponse.noData "No data to export"
    else ExportResponse.csv "text/csv" "attachment; filename=\"submissions.csv\""
      (csvText numberToString rows)

/-- The handler of `GET /api/health`: `err` is the error of `SELECT 1`, if
any. -/
def health (isoNow : String) (uptime : JsNum) (err : Option String) : HealthResponse :=
  match err with
  | some message =>
    { status := "unhealthy", database := none, error := some message,
      timestamp := isoNow, uptime := none }
  | none =>
    { status := "healthy", database := none, error := none,
      timestamp := isoNow, uptime := some uptime }

end Sqlite

namespace Mongo

/-- The handler of `GET /api/export-csv`, given the outcome of the query
`find().sort(timestamp: -1).select('-__v -_id')`: its error, or the documents
as the objects whose keys and values the conversion reads. -/
def exportCsv (numberToString : ℚ → String) (result : Except String (List JsObj)) :
    ExportResponse :=
  match result with
  | .error _ => ExportResponse.failure "Export error"
  | .ok submissions =>
    if submissions.length = 0 then ExportResponse.noData "No data to export"
    else ExportResponse.csv "text/csv" "attachment; filename=\"submissions.csv\""
      (csvText numberToString submissions)

/-- The one document of the first aggregation of the statistics handler
(`$group` with `_id: null`); an average is a Number, or `null` when no document
holds a number there. -/
structure Summary where
  totalSubmissions : Nat
  averageFamilySize : Option JsNum
  averageAttitudeScore : Option JsNum
  averageEducationDifference : Option JsNum
  deriving DecidableEq

/-- The statistics object of the MongoDB variant: `regions` is the array of
the documents `_id, count` of `regionStats`, `genderDistribution` an object. -/
structure Statistics where
  totalSubmissions : Nat
  averageFamilySize : String
  averageAttitudeScore : String
  averageEducationDifference : String
  regions : List (JsVal × Nat)
  genderDistribution : JsObj
  deriving DecidableEq

/-- The answer of `GET /api/statistics` in the MongoDB variant. -/
inductive StatisticsResponse where
  | noSubmissions
  | statistics (stats : Statistics)
  | failure (error : String)
  deriving DecidableEq

/-- The object `genderDistribution` built by `genderStats.forEach`: each
document assigns its count under its `_id` as property key. -/
def genderDistributionOf (numberToString : ℚ → String) (genderStats : List (JsVal × Nat)) :
    JsObj :=
  genderStats.foldl
    (fun o stat => assignProp (toStr numberToString stat.1) (JsVal.num (JsNum.fin stat.2)) o) []

/-- The handler of `GET /api/statistics`, given the outcomes of its three
aggregations (an error, or the documents of the result). Calling `toFixed` on
a `null` average throws, which the `catch` answers like a database error. -/
def statistics (numberToString : ℚ → String)
    (summary : Except String (List Summary))
    (regionStats genderStats : Except String (List (JsVal × Nat))) : StatisticsResponse :=
  match summary with
  | .error _ => StatisticsResponse.failure "Database error"
  | .ok [] => StatisticsResponse.noSubmissions
  | .ok (result :: _) =>
    match regionStats with
    | .error _ => StatisticsResponse.failure "Database error"
    | .ok regions =>
      match genderStats with
      | .error _ => StatisticsResponse.failure "Database error"
      | .ok genders =>
        match result.averageFamilySize, result.averageAttitudeScore,
            result.averageEducationDifference with
        | some family, some attitude, some education =>
          StatisticsResponse.statistics
            { totalSubmissions := result.totalSubmissions,
              averageFamilySize := toFixed numberToString family 2,
              averageAttitudeScore := toFixed numberToString attitude 3,
              averageEducationDifference := toFixed numberToString education 2,
              regions := regions,
              genderDistribution := genderDistributionOf numberToString genders }
        | _, _, _ => StatisticsResponse.failure "Database error"

/-- The answer of `GET /api/submissions/region/:region`. -/
inductive RegionResponse where
  | ok (region : String) (count : Nat) (submissions : List JsObj)
  | failure (error : String)
  deriving DecidableEq

/-- The handler of `GET /api/submissions/region/:region`, given the outcome of
the query `find(region).sort(timestamp: -1).select('-__v')`. -/
def submissionsByRegion (region : String) (result : Except String (List JsObj)) :
    RegionResponse :=
  match result with
  | .error _ => RegionResponse.failure "Database error"
  | .ok submissions => RegionResponse.ok region submissions.length submissions

/-- The handler of `GET /api/health`: `pingError` is the message of the error
thrown by the `ping` of the database, if any. -/
def health (isoNow : String) (uptime : JsNum) (pingError : Option String) : HealthResponse :=
  match pingError with
  | some message =>
    { status := "unhealthy", database := some "disconnected", error := some message,
      timestamp := isoNow, uptime := none }
  | none =>
    { status := "healthy", database := some "connected", error := none,
      timestamp := isoNow, uptime := some uptime }

end Mongo

/-! ## Specification-side notions -/

/-- A key is absent from the input map or has a falsy value. -/
def absentOrFalsy (data : JsObj) (k : String) : Bool :=
  match getOwn data k with
  | none => true
  | some v => !truthy v

/-- The store states of the in-memory variant that some sequence of
`submit-data` requests produces from the empty array. -/
inductive InMemory.Reachable : List JsObj → Prop where
  | initial : InMemory.Reachable []
  | submit (nowMs : Nat) (isoNow : String) (data : JsObj) (submissions : List JsObj) :
      InMemory.Reachable submissions →
      InMemory.Reachable (InMemory.submitData nowMs isoNow data submissions).2

/-- A Number is finite. -/
def JsNum.isFinite : JsNum → Bool
  | .fin _ => true
  | _ => false

/-- The unweighted arithmetic mean of a list of numbers. -/
def mean (xs : List ℚ) : ℚ := xs.sum / xs.length

/-- The sum of a list of Numbers in the arithmetic `round`: each one is added,
from the left, to a total that starts at zero. -/
def sumIn (round : ℚ → JsNum) (xs : List JsNum) : JsNum :=
  xs.foldl (fun total x => (total.add x).rounded round) (JsNum.fin 0)

/-- The mean of a list of Numbers in the arithmetic `round`: the sum in that
arithmetic, divided by the number of elements. -/
def meanIn (round : ℚ → JsNum) (xs : List JsNum) : JsNum :=
  ((sumIn round xs).div (JsNum.fin xs.length)).rounded round

/-- The family size of a stored record, as the in-memory handler reads it. -/
def familySizeOf (numberToString : ℚ → String) (sub : JsObj) : JsNum :=
  parseInt numberToString (getProp sub "family-size")

/-- The attitude score of a stored record, as the in-memory handler reads
it. -/
def attitudeScoreOf (numberToString : ℚ → String) (sub : JsObj) : JsNum :=
  parseFloat numberToString (getProp sub "attitude-score")

/-- The education of the firstborn, as the in-memory handler reads it. -/
def firstbornEducationOf (numberToString : ℚ → String) (sub : JsObj) : JsNum :=
  parseFloat numberToString (getProp sub "firstborn-education")

/-- The education of the laterborn, as the in-memory handler reads it. -/
def laterbornEducationOf (numberToString : ℚ → String) (sub : JsObj) : JsNum :=
  parseFloat numberToString (getProp sub "laterborn-education")

/-- The numeric fields of a stored record parse as (finite) numbers. -/
def ParsesAsNumbers (numberToString : ℚ → String) (sub : JsObj) : Prop :=
  (familySizeOf numberToString sub).isFinite = true ∧
  (attitudeScoreOf numberToString sub).isFinite = true ∧
  (firstbornEducationOf numberToString sub).isFinite = true ∧
  (laterbornEducationOf numberToString sub).isFinite = true

/-- The education difference of a stored record. -/
def educationDifferenceOf (numberToString : ℚ → String) (sub : JsObj) : ℚ :=
  (firstbornEducationOf numberToString sub).value - (laterbornEducationOf numberToString sub).value

/-- A stored record of the in-memory variant and a row of the SQLite table
hold the same numbers: the row's columns are what the SQLite submit handler
computes (`parseInt`, `parseFloat`) from the fields of the record. -/
def SameNumbers (numberToString : ℚ → String) (sub : JsObj) (row : Sqlite.Row) : Prop :=
  familySizeOf numberToString sub = JsNum.fin row.family_size ∧
  attitudeScoreOf numberToString sub = JsNum.fin row.attitude_score ∧
  firstbornEducationOf numberToString sub = JsNum.fin row.firstborn_education ∧
  laterbornEducationOf numberToString sub = JsNum.fin row.laterborn_education

/-- The property key under which the in-memory handler counts the region of a
stored record. -/
def regionKeyOf (numberToString : ℚ → String) (sub : JsObj) : String :=
  toStr numberToString (getProp sub "region")

/-- The property key under which the in-memory handler counts the gender of a
stored record. -/
def genderKeyOf (numberToString : ℚ → String) (sub : JsObj) : String :=
  toStr numberToString (getProp sub "firstborn-gender")

/-- How an object of counts holds the count `n` of a key: no property when
nothing was counted, else the Number `n`. -/
def countEntry (n : Nat) : Option JsVal :=
  if n = 0 then none else some (JsVal.num (JsNum.fin n))

/-- The number that the digits of `x.toFixed(f)` denote. -/
def fixedValue (x : ℚ) (f : Nat) : ℚ :=
  (if x < 0 then -1 else 1) * ((roundHalfUp |x| f : ℚ) / 10 ^ f)

/-- A request to `POST /api/submit-data` of the in-memory variant: the body,
and what the two readings of the clock give while it is handled. -/
structure InMemory.Request where
  nowMs : Nat
  isoNow : String
  data : JsObj
  deriving DecidableEq

/-- The array `submissions` after a sequence of requests, handled in order. -/
def InMemory.submitAll (requests : List InMemory.Request) (submissions : List JsObj) :
    List JsObj :=
  requests.foldl (fun s r => (InMemory.submitData r.nowMs r.isoNow r.data s).2) submissions

/-- The query string `?page=p&limit=l` as the object `req.query`. -/
def Mongo.pageQuery (page limit : Nat) : JsObj :=
  [("page", JsVal.str (toString page)), ("limit", JsVal.str (toString limit))]

/-- The array `submissions` of the answer of the paginated list handler (empty
for the 500 answer). -/
def Mongo.ListResponse.items : Mongo.ListResponse → List JsObj
  | .ok _ _ _ _ submissions => submissions
  | .failure _ => []

/-- Reading a CSV line back, first step: the line is split at every comma that
lies outside double quotes (`inQuotes` tells whether an odd number of double
quotes has been read; `current` is the cell read so far). -/
def splitCells : List Char → Bool → List Char → List (List Char)
  | [], _, current => [current]
  | c :: rest, inQuotes, current =>
    if c = '"' then splitCells rest (!inQuotes) (current ++ [c])
    else if c = ',' ∧ inQuotes = false then current :: splitCells rest false []
    else splitCells rest inQuotes (current ++ [c])

/-- Reading a CSV line back, second step: a cell that starts and ends with a
double quote loses these two. -/
def unquoteCell (cell : List Char) : List Char :=
  match cell with
  | '"' :: rest =>
    if rest.getLast? = some '"' then rest.dropLast else cell
  | _ => cell

/-- Reading a CSV line back: the cells between the commas outside double
quotes, without their wrapping quotes. -/
def readLine (line : String) : List String :=
  (splitCells line.data false []).map (fun cell => String.mk (unquoteCell cell))

/-- The characters of `parts.join(sep)`, for the characters of the parts. -/
def joinChars (sep : List Char) : List (List Char) → List Char
  | [] => []
  | [a] => a
  | a :: b :: rest => a ++ sep ++ joinChars sep (b :: rest)

/-- Splitting a text at every occurrence of a character (`current` is the
piece read so far). -/
def splitAtChar (a : Char) : List Char → List Char → List (List Char)
  | [], current => [current]
  | c :: rest, current =>
    if c = a then current :: splitAtChar a rest [] else splitAtChar a rest (current ++ [c])

/-- Reading a CSV text back: the text is split at the line feeds, the header
line is dropped and every data line is read back. -/
def readCsv (text : String) : List (List String) :=
  (splitAtChar '\n' text.data []).tail.map (fun line => readLine (String.mk line))

/-- The string forms of the values of a record, in key order. -/
def valueTexts (numberToString : ℚ → String) (record : JsObj) : List String :=
  (objectValues record).map (joinText numberToString)

/-- A text holds no double quote and no line feed. -/
def PlainText (s : String) : Prop := '"' ∉ s.data ∧ '\n' ∉ s.data

/-- A value of an exported record whose string form holds no double quote and
no line feed; only a string may hold a comma (the string form of a Number, of
a Boolean or of a date holds none). -/
def PlainValue (numberToString : ℚ → String) (v : JsVal) : Prop :=
  PlainText (joinText numberToString v) ∧
  ((∀ s, v ≠ JsVal.str s) → ',' ∉ (joinText numberToString v).data)

/-! ## Example inputs -/

/-- The body of the concrete scenario of the specification. -/
def scenarioBody : JsObj :=
  [("region", JsVal.str "British"), ("family-size", JsVal.str "3"),
   ("firstborn-gender", JsVal.str "male"), ("attitude-score", JsVal.str "0.45"),
   ("firstborn-education", JsVal.str "16"), ("laterborn-education", JsVal.str "14"),
   ("age-range", JsVal.str "26-30")]

/-- The scenario body with another value under one key. -/
def scenarioWith (k : String) (v : JsVal) : JsObj := defineProp k v scenarioBody

/-- A body that lacks `region` and has an empty `age-range`. -/
def incompleteBody : JsObj :=
  [("family-size", JsVal.str "3"), ("firstborn-gender", JsVal.str "male"),
   ("attitude-score", JsVal.str "0.45"), ("firstborn-education", JsVal.str "16"),
   ("laterborn-education", JsVal.str "14"), ("age-range", JsVal.str "")]

/-- Three stored records of the in-memory variant: the scenario body, then
two records from the region `Other`. -/
def exampleStore : List JsObj :=
  [InMemory.makeSubmission 1700000000000 "2023-11-14T22:13:20.000Z" scenarioBody,
   InMemory.makeSubmission 1700000000001 "2023-11-14T22:13:20.001Z"
     [("region", JsVal.str "Other"), ("family-size", JsVal.str "5"),
      ("firstborn-gender", JsVal.str "female"), ("attitude-score", JsVal.str "0.3"),
      ("firstborn-education", JsVal.str "12"), ("laterborn-education", JsVal.str "15"),
      ("age-range", JsVal.str "31-35")],
   InMemory.makeSubmission 1700000000002 "2023-11-14T22:13:20.002Z"
     [("region", JsVal.str "Other"), ("family-size", JsVal.str "2"),
      ("firstborn-gender", JsVal.str "female"), ("attitude-score", JsVal.str "0.6"),
      ("firstborn-education", JsVal.str "18"), ("laterborn-education", JsVal.str "18"),
      ("age-range", JsVal.str "18-25")]]

/-- The same three records as rows of the SQLite table. -/
def exampleTable : List Sqlite.Row :=
  [{ id := 1, region := "British", family_size := 3, firstborn_gender := "male",
     attitude_score := 45 / 100, firstborn_education := 16, laterborn_education := 14,
     age_range := "26-30", notes := "", contact_email := "",
     timestamp := "2023-11-14 22:13:20" },
   { id := 2, region := "Other", family_size := 5, firstborn_gender := "female",
     attitude_score := 3 / 10, firstborn_education := 12, laterborn_education := 15,
     age_range := "31-35", notes := "", contact_email := "",
     timestamp := "2023-11-14 22:13:21" },
   { id := 3, region := "Other", family_size := 2, firstborn_gender := "female",
     attitude_score := 6 / 10, firstborn_education := 18, laterborn_education := 18,
     age_range := "18-25", notes := "", contact_email := "",
     timestamp := "2023-11-14 22:13:22" }]

/-- Two stored records of the in-memory variant whose attitude scores are
`0.125` and `-1e-30`. -/
def attitudeStore : List JsObj :=
  [InMemory.makeSubmission 1700000000000 "2023-11-14T22:13:20.000Z"
     (scenarioWith "attitude-score" (JsVal.str "0.125")),
   InMemory.makeSubmission 1700000000001 "2023-11-14T22:13:20.001Z"
     (scenarioWith "attitude-score" (JsVal.str "-1e-30"))]

/-- The scenario body whose region is an object without a primitive value. -/
def noPrimitiveRegionBody : JsObj := scenarioWith "region" JsVal.noPrimitive

/-- A table of one row whose gender is neither `male` nor `female`. -/
def otherGenderTable : List Sqlite.Row :=
  [{ id := 1, region := "British", family_size := 3, firstborn_gender := "other",
     attitude_score := 45 / 100, firstborn_education := 16, laterborn_education := 14,
     age_range := "26-30", notes := "", contact_email := "",
     timestamp := "2023-11-14 22:13:20" }]

/-- A collection of three documents, one from `British` and two from `Other`,
in descending timestamp order. -/
def exampleCollection : List JsObj :=
  [[("_id", JsVal.str "a3"), ("region", JsVal.str "British"), ("__v", JsVal.str "0")],
   [("_id", JsVal.str "a2"), ("region", JsVal.str "Other"), ("__v", JsVal.str "0")],
   [("_id", JsVal.str "a1"), ("region", JsVal.str "Other"), ("__v", JsVal.str "0")]]

/-- The document of the paged example with the given number, numbered in
descending timestamp order. -/
def pagedDocument (n : Nat) : JsObj :=
  [("_id", JsVal.str (toString n)), ("region", JsVal.str "Other"), ("__v", JsVal.str "0")]

/-- A collection of 25 documents, numbered 1 to 25 in descending timestamp
order. -/
def pagedCollection : List JsObj := (List.range 25).map (fun i => pagedDocument (i + 1))

/-- A database that refuses a `skip` or `limit` that is no integer of 64
bits. -/
def refusingDatabase : JsNum → JsNum → Except String (List JsObj) :=
  fun _ _ => Except.error "Failed to parse"

/-- A database that serves such a query with the whole collection (reading
`NaN` as zero and an infinity as no limit). -/
def lenientDatabase (sorted : List JsObj) : JsNum → JsNum → Except String (List JsObj) :=
  fun _ _ => Except.ok (sorted.map Mongo.selectWithoutVersion)

/-- Two requests with the scenario body, the second one millisecond after the
first and from the region `Other`. -/
def exampleRequests : List InMemory.Request :=
  [{ nowMs := 1700000000000, isoNow := "2023-11-14T22:13:20.000Z", data := scenarioBody },
   { nowMs := 1700000000001, isoNow := "2023-11-14T22:13:20.001Z",
     data := scenarioWith "region" (JsVal.str "Other") }]

/-- Two records with the same keys; the notes of the first hold a comma, those
of the second a double quote. -/
def exampleRecords : List JsObj :=
  [[("region", JsVal.str "British"), ("notes", JsVal.str "twins, both girls"),
    ("contact_email", JsVal.null)],
   [("region", JsVal.str "Other"), ("notes", JsVal.str "said \"none\""),
    ("contact_email", JsVal.str "a@b.org")]]

/-- A valid body that brings its own `id` and `timestamp`. -/
def bodyWithId : JsObj :=
  scenarioBody ++ [("id", JsVal.str "chosen-by-client"), ("timestamp", JsVal.str "1999-01-01")]

/-- Two records with the same keys and plain values; one value holds commas,
one is empty. -/
def plainRecords : List JsObj :=
  [[("region", JsVal.str "British"), ("notes", JsVal.str "twins, both girls, born 2010"),
    ("age_range", JsVal.str "26-30")],
   [("region", JsVal.str "Other"), ("notes", JsVal.str ""), ("age_range", JsVal.str "35+")]]

/-- A text for finite Numbers, for examples in which no Number is printed. -/
def noNumberText : ℚ → String := fun _ => ""

/-- A database that accepts every insert. -/
def insertAccepted : Mongo.Submission → Except String JsVal :=
  fun _ => Except.ok (JsVal.str "652f1c0e9d3b2a0012345678")

/-! ## Lemmas on plain objects -/

theorem getOwn_replaceOwn {β : Type} (k : String) (v : β) (o : List (String × β)) (k' : String) :
    getOwn (replaceOwn k v o) k' = if k' = k then (getOwn o k).map (fun _ => v) else getOwn o k' := by
  induction o with
  | nil => simp [replaceOwn, getOwn]
  | cons p rest ih =>
    simp only [replaceOwn, List.map_cons] at ih ⊢
    by_cases hp : p.1 = k
    · by_cases hk : k' = k
      · simp [getOwn, hp, hk]
      · have hk2 : ¬ k = k' := fun h => hk h.symm
        have hk3 : ¬ p.1 = k' := fun h => hk (hp ▸ h.symm)
        simp only [hp, if_true, getOwn, hk2, hk, if_false, hk3] at ih ⊢
        exact ih
    · by_cases hk : k' = k
      · subst hk
        simp only [hp, if_false, getOwn, if_true] at ih ⊢
        exact ih
      · simp only [hp, if_false, getOwn, hk] at ih ⊢
        rw [ih]

theorem getOwn_insertNew {β : Type} (k : String) (v : β) (o : List (String × β)) (k' : String)
    (h : getOwn o k = none) :
    getOwn (insertNew k v o) k' = if k' = k then some v else getOwn o k' := by
  induction o with
  | nil =>
    by_cases hk : k' = k
    · simp [insertNew, getOwn, hk]
    · have hk2 : ¬ k = k' := fun h => hk h.symm
      simp [insertNew, getOwn, hk, hk2]
  | cons p rest ih =>
    have hp : ¬ p.1 = k := by
      intro hp
      simp [getOwn, hp] at h
    have hrest : getOwn rest k = none := by
      simpa [getOwn, hp] using h
    have ih' := ih hrest
    have key : ∀ o' : List (String × β), o' = (k, v) :: p :: rest ∨ o' = p :: insertNew k v rest →
        getOwn o' k' = if k' = k then some v else getOwn (p :: rest) k' := by
      intro o' ho
      rcases ho with ho | ho
      · subst ho
        by_cases hk : k' = k
        · simp [getOwn, hk]
        · have hk2 : ¬ k = k' := fun h => hk h.symm
          simp [getOwn, hk, hk2]
      · subst ho
        by_cases hk : k' = k
        · subst hk
          simp only [getOwn, hp, if_false, if_true] at ih' ⊢
          exact ih'
        · by_cases hpk : p.1 = k'
          · simp [getOwn, hpk, hk]
          · simp only [getOwn, hpk, if_false, hk] at ih' ⊢
            exact ih'
    apply key
    rw [insertNew]
    split
    · split
      · exact Or.inl rfl
      · exact Or.inr rfl
    · exact Or.inl rfl
    · exact Or.inr rfl

theorem getOwn_defineProp (k : String) (v : JsVal) (o : JsObj) (k' : String) :
    getOwn (defineProp k v o) k' = if k' = k then some v else getOwn o k' := by
  unfold defineProp
  cases h : getOwn o k with
  | none => simpa using getOwn_insertNew k v o k' h
  | some w => simp [getOwn_replaceOwn, h]

theorem getOwn_assignProp {β : Type} (k : String) (v : β) (o : List (String × β)) (k' : String)
    (hk : k ≠ "__proto__") :
    getOwn (assignProp k v o) k' = if k' = k then some v else getOwn o k' := by
  unfold assignProp
  cases h : getOwn o k with
  | none => simpa [hk] using getOwn_insertNew k v o k' h
  | some w => simp [getOwn_replaceOwn, h]

theorem getOwn_isSome_iff {β : Type} (o : List (String × β)) (k : String) :
    (getOwn o k).isSome = true ↔ k ∈ o.map Prod.fst := by
  induction o with
  | nil => simp [getOwn]
  | cons p rest ih =>
    by_cases hp : p.1 = k
    · simp [getOwn, hp]
    · have hp2 : ¬ k = p.1 := fun h => hp h.symm
      simp only [getOwn, hp, if_false, List.map_cons, List.mem_cons, hp2, false_or]
      exact ih

theorem getProp_of_getOwn (o : JsObj) (k : String) (v : JsVal) (h : getOwn o k = some v) :
    getProp o k = v := by
  simp [getProp, h]

theorem getOwn_spread_aux (source : JsObj) (k : String) (part target : JsObj) :
    getOwn (part.foldl (fun t p => defineProp p.1 (getProp source p.1) t) target) k =
      if k ∈ part.map Prod.fst then some (getProp source k) else getOwn target k := by
  induction part generalizing target with
  | nil => simp
  | cons p rest ih =>
    simp only [List.foldl_cons, List.map_cons, List.mem_cons]
    rw [ih, getOwn_defineProp]
    by_cases h1 : k ∈ rest.map Prod.fst
    · simp [h1]
    · by_cases h2 : k = p.1
      · simp [h2]
      · simp [h1, h2]

/-- What a spread object holds under each key: the source's value for the
source's own keys, the target's own property otherwise. -/
theorem getOwn_spread (target source : JsObj) (k : String) :
    getOwn (spread target source) k =
      match getOwn source k with
      | some v => some v
      | none => getOwn target k := by
  unfold spread
  rw [getOwn_spread_aux]
  cases h : getOwn source k with
  | none =>
    have : ¬ k ∈ source.map Prod.fst := by
      rw [← getOwn_isSome_iff, h]; simp
    simp [this]
  | some v =>
    have : k ∈ source.map Prod.fst := by
      rw [← getOwn_isSome_iff, h]; simp
    simp [this, getProp_of_getOwn source k v h]

/-- On a required field the read `data[field]` sees the own property only:
no required field is a name of `Object.prototype`. -/
theorem truthy_getProp_required (data : JsObj) (k : String) (hk : k ∈ requiredFields) :
    (!truthy (getProp data k)) = absentOrFalsy data k := by
  have hinh : getInherited objectPrototype k = none := by
    simp only [requiredFields, List.mem_cons, List.mem_singleton, List.not_mem_nil, or_false] at hk
    rcases hk with h | h | h | h | h | h | h <;> subst h <;> decide
  unfold absentOrFalsy getProp
  cases h : getOwn data k with
  | none => simp [hinh, truthy]
  | some v => simp

theorem missingFields_eq (data : JsObj) :
    missingFields data = requiredFields.filter (absentOrFalsy data) := by
  unfold missingFields
  apply List.filter_congr
  intro k hk
  exact truthy_getProp_required data k hk

/-! ## Submitting data -/

theorem missingFields_ne_nil_iff (data : JsObj) :
    missingFields data ≠ [] ↔ ∃ k ∈ requiredFields, absentOrFalsy data k = true := by
  rw [missingFields_eq]
  constructor
  · intro h
    obtain ⟨k, hk⟩ := List.exists_mem_of_ne_nil _ h
    rw [List.mem_filter] at hk
    exact ⟨k, hk.1, hk.2⟩
  · rintro ⟨k, hk, hk'⟩ h
    have : k ∈ requiredFields.filter (absentOrFalsy data) := List.mem_filter.mpr ⟨hk, hk'⟩
    rw [h] at this
    exact List.not_mem_nil _ this

theorem length_pos_iff_ne_nil {α : Type} (l : List α) : l.length > 0 ↔ l ≠ [] := by
  cases l <;> simp

theorem missingFieldsResponse_status (l : List String) : (missingFieldsResponse l).status = 400 := rfl

/-- C1, as stated, fails on the MongoDB variant: the body of the scenario with
the region `Mars` has every required key with a truthy value, and the handler
answers 400 (`Validation error`, for the path `region`). -/
theorem submitData_status_400_without_missing_field :
    (∀ k ∈ requiredFields, absentOrFalsy (scenarioWith "region" (JsVal.str "Mars")) k = false) ∧
    Mongo.submitData roundToDouble noNumberText (fun _ => true) insertAccepted (JsVal.str "::1")
        (JsVal.str "curl/8.4.0") (scenarioWith "region" (JsVal.str "Mars"))
      = Mongo.validationErrorResponse ["region"] ∧
    (Mongo.validationErrorResponse ["region"]).status = 400 := by
  refine ⟨by decide, by decide!, rfl⟩

/-- C1 (amended): in every variant the submit handler gives the 400 answer
whose error is `Missing required fields: ` followed by the missing keys exactly
when a required key is absent or falsy; the keys listed are all of those, each
once, in the order of `requiredFields`, joined by `, `. In the in-memory and
SQLite variants no other answer has status 400. -/
theorem submitData_missing_fields (data : JsObj) :
    (∀ nowMs isoNow submissions,
      (InMemory.submitData nowMs isoNow data submissions).1.status = 400 ↔
        ∃ k ∈ requiredFields, absentOrFalsy data k = true) ∧
    (∀ round numberToString run,
      (Sqlite.submitData round numberToString run data).status = 400 ↔
        ∃ k ∈ requiredFields, absentOrFalsy data k = true) ∧
    (∀ round numberToString emailMatches insert ip userAgent,
      Mongo.submitData round numberToString emailMatches insert ip userAgent data
          = missingFieldsResponse (requiredFields.filter (absentOrFalsy data)) ↔
        ∃ k ∈ requiredFields, absentOrFalsy data k = true) ∧
    ((∃ k ∈ requiredFields, absentOrFalsy data k = true) →
      (∀ nowMs isoNow submissions,
        (InMemory.submitData nowMs isoNow data submissions).1
          = missingFieldsResponse (requiredFields.filter (absentOrFalsy data))) ∧
      (∀ round numberToString run,
        Sqlite.submitData round numberToString run data
          = missingFieldsResponse (requiredFields.filter (absentOrFalsy data)))) ∧
    missingFieldsResponse (requiredFields.filter (absentOrFalsy data))
      = { status := 400, success := false,
          error := some ("Missing required fields: "
            ++ ", ".intercalate (requiredFields.filter (absentOrFalsy data))),
          message := none, submissionId := none, details := none } ∧
    (requiredFields.filter (absentOrFalsy data)).Nodup ∧
    (requiredFields.filter (absentOrFalsy data)).Sublist requiredFields ∧
    (∀ k, k ∈ requiredFields.filter (absentOrFalsy data) ↔
      k ∈ requiredFields ∧ (getOwn data k = none ∨ ∃ v, getOwn data k = some v ∧ truthy v = false)) := by
  have hiff := missingFields_ne_nil_iff data
  have heq := missingFields_eq data
  refine ⟨?_, ?_, ?_, ?_, rfl, ?_, List.filter_sublist _, ?_⟩
  · intro nowMs isoNow submissions
    rw [← hiff]
    unfold InMemory.submitData
    by_cases h : missingFields data = []
    · simp [h, submittedResponse]
    · simp [(length_pos_iff_ne_nil _).mpr h, h, missingFieldsResponse]
  · intro round numberToString run
    rw [← hiff]
    unfold Sqlite.submitData
    by_cases h : missingFields data = []
    · simp only [h, List.length_nil, gt_iff_lt, lt_self_iff_false, if_false]
      split
      · cases run (Sqlite.insertParams round numberToString data) <;>
          simp [serverErrorResponse, submittedResponse]
      · simp [serverErrorResponse]
    · simp [(length_pos_iff_ne_nil _).mpr h, h, missingFieldsResponse]
  · intro round numberToString emailMatches insert ip userAgent
    rw [← hiff, ← heq]
    unfold Mongo.submitData
    by_cases h : missingFields data = []
    · simp only [h, List.length_nil, gt_iff_lt, lt_self_iff_false, if_false, ne_eq,
        not_true_eq_false, iff_false]
      have hne : (missingFieldsResponse []).error ≠ some "Validation error" := by decide
      split
      · split
        · intro hc
          exact hne (congrArg SubmitResponse.error hc).symm
        · cases insert (Mongo.makeSubmission round numberToString ip userAgent data) with
          | error e =>
            intro hc
            have := congrArg SubmitResponse.status hc
            simp [serverErrorResponse, missingFieldsResponse] at this
          | ok id =>
            intro hc
            have := congrArg SubmitResponse.status hc
            simp [submittedResponse, missingFieldsResponse] at this
      · intro hc
        have := congrArg SubmitResponse.status hc
        simp [serverErrorResponse, missingFieldsResponse] at this
    · simp [(length_pos_iff_ne_nil _).mpr h, h]
  · intro hex
    have h : missingFields data ≠ [] := hiff.mpr hex
    rw [← heq]
    refine ⟨?_, ?_⟩
    · intro nowMs isoNow submissions
      simp [InMemory.submitData, (length_pos_iff_ne_nil _).mpr h]
    · intro round numberToString run
      simp [Sqlite.submitData, (length_pos_iff_ne_nil _).mpr h]
  · exact List.Nodup.filter _ (by decide)
  · intro k
    rw [List.mem_filter]
    unfold absentOrFalsy
    cases getOwn data k with
    | none => simp
    | some v => simp

/-- C1 (amended), at a body without `region` and with an empty `age-range`:
every variant answers 400 and names both keys, in the order of the list. -/
theorem submitData_missing_fields_witness :
    (∃ k ∈ requiredFields, absentOrFalsy incompleteBody k = true) ∧
    (InMemory.submitData 1700000000000 "2023-11-14T22:13:20.000Z" incompleteBody []).1
      = missingFieldsResponse ["region", "age-range"] ∧
    (missingFieldsResponse ["region", "age-range"]).error
      = some "Missing required fields: region, age-range" := by
  have hex : ∃ k ∈ requiredFields, absentOrFalsy incompleteBody k = true :=
    ⟨"region", by decide, by decide⟩
  have h := ((submitData_missing_fields incompleteBody).2.2.2.1 hex).1
    1700000000000 "2023-11-14T22:13:20.000Z" []
  have hl : requiredFields.filter (absentOrFalsy incompleteBody) = ["region", "age-range"] := by
    decide
  rw [hl] at h
  exact ⟨hex, h, by decide⟩

theorem missingFields_eq_nil_iff (data : JsObj) :
    missingFields data = [] ↔ ∀ k ∈ requiredFields, absentOrFalsy data k = false := by
  have h := missingFields_ne_nil_iff data
  constructor
  · intro hnil k hk
    by_contra hc
    have hc' : absentOrFalsy data k = true := by simpa using hc
    exact (h.mpr ⟨k, hk, hc'⟩) hnil
  · intro hall
    by_contra hc
    obtain ⟨k, hk, hk'⟩ := h.mp hc
    rw [hall k hk] at hk'
    exact Bool.false_ne_true hk'

theorem InMemory.submitData_of_missing (nowMs : Nat) (isoNow : String) (data : JsObj)
    (submissions : List JsObj) (h : missingFields data ≠ []) :
    InMemory.submitData nowMs isoNow data submissions
      = (missingFieldsResponse (missingFields data), submissions) := by
  simp [InMemory.submitData, (length_pos_iff_ne_nil _).mpr h]

theorem InMemory.submitData_of_complete (nowMs : Nat) (isoNow : String) (data : JsObj)
    (submissions : List JsObj) (h : missingFields data = []) :
    InMemory.submitData nowMs isoNow data submissions
      = (submittedResponse (getProp (InMemory.makeSubmission nowMs isoNow data) "id"),
         submissions ++ [InMemory.makeSubmission nowMs isoNow data]) := by
  simp [InMemory.submitData, h]

/-- The record built from a body holds, under every own key of the body, the
body's value. -/
theorem InMemory.getOwn_makeSubmission (nowMs : Nat) (isoNow : String) (data : JsObj)
    (k : String) (v : JsVal) (h : getOwn data k = some v) :
    getOwn (InMemory.makeSubmission nowMs isoNow data) k = some v := by
  unfold InMemory.makeSubmission
  rw [getOwn_spread, h]

theorem absentOrFalsy_eq_false_iff (o : JsObj) (k : String) :
    absentOrFalsy o k = false ↔ ∃ v, getOwn o k = some v ∧ truthy v = true := by
  unfold absentOrFalsy
  cases getOwn o k with
  | none => simp
  | some v => simp

theorem InMemory.makeSubmission_required (nowMs : Nat) (isoNow : String) (data : JsObj)
    (k : String) (h : absentOrFalsy data k = false) :
    absentOrFalsy (InMemory.makeSubmission nowMs isoNow data) k = false := by
  rw [absentOrFalsy_eq_false_iff] at h ⊢
  obtain ⟨v, hv, ht⟩ := h
  exact ⟨v, InMemory.getOwn_makeSubmission nowMs isoNow data k v hv, ht⟩

theorem Sqlite.binds_of_not_parses (data : JsObj) (h : parses data = false) :
    Sqlite.binds data = false := by
  by_contra hb
  have hb' : Sqlite.binds data = true := by simpa using hb
  have hall : ∀ field ∈ Sqlite.insertFields, hasPrimitive (getProp data field) = true := by
    simpa [Sqlite.binds] using hb'
  have hp : parses data = true := by
    simp only [parses, List.all_eq_true]
    intro field hfield
    exact hall field (by
      simp only [numericFields, List.mem_cons, List.mem_singleton, List.not_mem_nil,
        or_false] at hfield
      rcases hfield with rfl | rfl | rfl | rfl <;> decide)
  rw [hp] at h
  exact absurd h (by decide)

/-- C2, as stated, fails on the in-memory and SQLite variants: the scenario
body with family size 25, above the declared maximum 20, is accepted; the
in-memory store grows from zero records to one. -/
theorem submitData_accepts_family_size_25 :
    parseInt noNumberText (getProp (scenarioWith "family-size" (JsVal.str "25")) "family-size")
      = JsNum.fin 25 ∧
    Mongo.rangeValid 1 20 (JsNum.fin 25) = false ∧
    (InMemory.submitData 1700000000000 "2023-11-14T22:13:20.000Z"
      (scenarioWith "family-size" (JsVal.str "25")) []).1.status = 200 ∧
    (InMemory.submitData 1700000000000 "2023-11-14T22:13:20.000Z"
      (scenarioWith "family-size" (JsVal.str "25")) []).2.length = 1 ∧
    (Sqlite.submitData roundToDouble noNumberText (fun _ => Except.ok 1)
      (scenarioWith "family-size" (JsVal.str "25"))).status = 200 := by
  refine ⟨by decide!, by decide!, by decide, by decide, by decide⟩

/-- C2 (amended): the in-memory handler rejects, leaving the record count as it
was, when a required key is absent or falsy, and otherwise stores the record
whatever its values are (the SQLite handler likewise hands it to the INSERT);
so every record of every reachable in-memory store has a truthy value under
each of the seven required keys. A value outside its declared range or enum is
refused only by the MongoDB variant, whose answer is then the 400 of the schema
validation, whatever the database would do with an insert. The one value the
SQLite and MongoDB handlers do not pass on is a numeric field without a
primitive value: `parseInt` or `parseFloat` throws on it, which both answer
with the 500 `Internal server error`. -/
theorem submitData_checks_presence_only :
    (∀ nowMs isoNow data submissions,
      (∃ k ∈ requiredFields, absentOrFalsy data k = true) →
      (InMemory.submitData nowMs isoNow data submissions).1.status = 400 ∧
      (InMemory.submitData nowMs isoNow data submissions).2.length = submissions.length) ∧
    (∀ nowMs isoNow data submissions,
      (∀ k ∈ requiredFields, absentOrFalsy data k = false) →
      (InMemory.submitData nowMs isoNow data submissions).1.status = 200 ∧
      (InMemory.submitData nowMs isoNow data submissions).2.length = submissions.length + 1) ∧
    (∀ round numberToString run data lastID,
      (∀ k ∈ requiredFields, absentOrFalsy data k = false) →
      Sqlite.binds data = true →
      run (Sqlite.insertParams round numberToString data) = Except.ok lastID →
      (Sqlite.submitData round numberToString run data).status = 200) ∧
    (∀ submissions, InMemory.Reachable submissions →
      ∀ record ∈ submissions, ∀ k ∈ requiredFields, absentOrFalsy record k = false) ∧
    (∀ round numberToString emailMatches insert ip userAgent data,
      (∀ k ∈ requiredFields, absentOrFalsy data k = false) →
      parses data = true →
      Mongo.schemaErrors round emailMatches
          (Mongo.makeSubmission round numberToString ip userAgent data) ≠ [] →
      Mongo.submitData round numberToString emailMatches insert ip userAgent data
        = Mongo.validationErrorResponse
            (Mongo.schemaErrors round emailMatches
              (Mongo.makeSubmission round numberToString ip userAgent data))) ∧
    (∀ round numberToString emailMatches run insert ip userAgent data,
      (∀ k ∈ requiredFields, absentOrFalsy data k = false) →
      parses data = false →
      Sqlite.submitData round numberToString run data = serverErrorResponse "Internal server error" ∧
      Mongo.submitData round numberToString emailMatches insert ip userAgent data
        = serverErrorResponse "Internal server error") := by
  refine ⟨?_, ?_, ?_, ?_, ?_, ?_⟩
  · intro nowMs isoNow data submissions h
    rw [InMemory.submitData_of_missing _ _ _ _ ((missingFields_ne_nil_iff data).mpr h)]
    exact ⟨rfl, rfl⟩
  · intro nowMs isoNow data submissions h
    rw [InMemory.submitData_of_complete _ _ _ _ ((missingFields_eq_nil_iff data).mpr h)]
    exact ⟨rfl, by simp⟩
  · intro round numberToString run data lastID h hbinds hrun
    simp [Sqlite.submitData, (missingFields_eq_nil_iff data).mpr h, hbinds, hrun,
      submittedResponse]
  · intro submissions hreach
    induction hreach with
    | initial => intro record hrec; simp at hrec
    | submit nowMs isoNow data submissions _ ih =>
      intro record hrec k hk
      by_cases hm : missingFields data = []
      · rw [InMemory.submitData_of_complete _ _ _ _ hm] at hrec
        simp only [List.mem_append, List.mem_singleton] at hrec
        rcases hrec with hrec | hrec
        · exact ih record hrec k hk
        · subst hrec
          exact InMemory.makeSubmission_required _ _ _ _
            ((missingFields_eq_nil_iff data).mp hm k hk)
      · rw [InMemory.submitData_of_missing _ _ _ _ hm] at hrec
        exact ih record hrec k hk
  · intro round numberToString emailMatches insert ip userAgent data h hparses herr
    simp [Mongo.submitData, (missingFields_eq_nil_iff data).mpr h, hparses,
      (length_pos_iff_ne_nil _).mpr herr]
  · intro round numberToString emailMatches run insert ip userAgent data h hparses
    have hbinds : Sqlite.binds data = false := Sqlite.binds_of_not_parses data hparses
    constructor
    · simp [Sqlite.submitData, (missingFields_eq_nil_iff data).mpr h, hbinds]
    · simp [Mongo.submitData, (missingFields_eq_nil_iff data).mpr h, hparses]

/-- C2 (amended), at concrete requests: the body without `region` leaves a
one-record store at one record, the scenario body is stored, the MongoDB
variant answers 400 to the scenario body with attitude score 0.9, the SQLite
variant stores the scenario body when the INSERT succeeds and answers 500 to
the scenario body whose family size is an object without a primitive value. -/
theorem submitData_checks_presence_only_witness :
    (InMemory.submitData 1700000000001 "2023-11-14T22:13:20.001Z" incompleteBody
      [InMemory.makeSubmission 1700000000000 "2023-11-14T22:13:20.000Z" scenarioBody]).2.length = 1 ∧
    (InMemory.submitData 1700000000000 "2023-11-14T22:13:20.000Z" scenarioBody []).2.length = 0 + 1 ∧
    Mongo.submitData roundToDouble noNumberText (fun _ => true) insertAccepted (JsVal.str "::1")
        (JsVal.str "curl/8.4.0") (scenarioWith "attitude-score" (JsVal.str "0.9"))
      = Mongo.validationErrorResponse ["attitudeScore"] ∧
    (Sqlite.submitData roundToDouble noNumberText (fun _ => Except.ok 1) scenarioBody).status
      = 200 ∧
    Sqlite.submitData roundToDouble noNumberText (fun _ => Except.ok 1)
        (scenarioWith "family-size" JsVal.noPrimitive)
      = serverErrorResponse "Internal server error" := by
  have h := submitData_checks_presence_only
  refine ⟨?_, ?_, ?_, ?_, ?_⟩
  · exact (h.1 1700000000001 "2023-11-14T22:13:20.001Z" incompleteBody
      [InMemory.makeSubmission 1700000000000 "2023-11-14T22:13:20.000Z" scenarioBody]
      ⟨"region", by decide, by decide⟩).2
  · exact (h.2.1 1700000000000 "2023-11-14T22:13:20.000Z" scenarioBody [] (by decide)).2
  · have he : Mongo.schemaErrors roundToDouble (fun _ => true)
        (Mongo.makeSubmission roundToDouble noNumberText (JsVal.str "::1")
          (JsVal.str "curl/8.4.0") (scenarioWith "attitude-score" (JsVal.str "0.9")))
        = ["attitudeScore"] := by decide!
    have := h.2.2.2.2.1 roundToDouble noNumberText (fun _ => true) insertAccepted (JsVal.str "::1")
      (JsVal.str "curl/8.4.0") (scenarioWith "attitude-score" (JsVal.str "0.9")) (by decide)
      (by decide) (by rw [he]; simp)
    rw [he] at this
    exact this
  · exact h.2.2.1 roundToDouble noNumberText (fun _ => Except.ok 1) scenarioBody 1 (by decide)
      (by decide) rfl
  · exact (h.2.2.2.2.2 roundToDouble noNumberText (fun _ => true) (fun _ => Except.ok 1) insertAccepted
      (JsVal.str "::1") (JsVal.str "curl/8.4.0") (scenarioWith "family-size" JsVal.noPrimitive)
      (by decide) (by decide)).1

/-- C3: when the required-field check fails, the in-memory handler answers 400
and the array of submissions is exactly what it was before the request. -/
theorem submitData_rejects_before_storing (nowMs : Nat) (isoNow : String) (data : JsObj)
    (submissions : List JsObj)
    (h : ∃ k ∈ requiredFields, absentOrFalsy data k = true) :
    (InMemory.submitData nowMs isoNow data submissions).1.status = 400 ∧
    (InMemory.submitData nowMs isoNow data submissions).1.success = false ∧
    (InMemory.submitData nowMs isoNow data submissions).2 = submissions := by
  rw [InMemory.submitData_of_missing _ _ _ _ ((missingFields_ne_nil_iff data).mpr h)]
  exact ⟨rfl, rfl, rfl⟩

/-- C3, at a store of one record and a body whose `age-range` is empty. -/
theorem submitData_rejects_before_storing_witness :
    (∃ k ∈ requiredFields, absentOrFalsy incompleteBody k = true) ∧
    (InMemory.submitData 1700000000001 "2023-11-14T22:13:20.001Z" incompleteBody
      [InMemory.makeSubmission 1700000000000 "2023-11-14T22:13:20.000Z" scenarioBody]).2
      = [InMemory.makeSubmission 1700000000000 "2023-11-14T22:13:20.000Z" scenarioBody] :=
  ⟨⟨"age-range", by decide, by decide⟩,
   (submitData_rejects_before_storing 1700000000001 "2023-11-14T22:13:20.001Z" incompleteBody
      [InMemory.makeSubmission 1700000000000 "2023-11-14T22:13:20.000Z" scenarioBody]
      ⟨"age-range", by decide, by decide⟩).2.2⟩

/-- C4: for a body that passes the required-field check the in-memory handler
answers with success, and the new store is the old one followed by one record;
that record holds every key of the body with the body's value, and beyond
those keys only `id` and `timestamp`; the list endpoint then returns the old
records and the new one, with the count one higher. -/
theorem submitData_appends_record (nowMs : Nat) (isoNow : String) (data : JsObj)
    (submissions : List JsObj)
    (h : ∀ k ∈ requiredFields, absentOrFalsy data k = false) :
    (InMemory.submitData nowMs isoNow data submissions).1.status = 200 ∧
    (InMemory.submitData nowMs isoNow data submissions).1.success = true ∧
    ∃ record,
      (InMemory.submitData nowMs isoNow data submissions).2 = submissions ++ [record] ∧
      (∀ k v, getOwn data k = some v → getOwn record k = some v) ∧
      (∀ k, getOwn data k = none → k ≠ "id" → k ≠ "timestamp" → getOwn record k = none) ∧
      InMemory.listSubmissions (InMemory.submitData nowMs isoNow data submissions).2
        = { success := true, count := submissions.length + 1,
            submissions := submissions ++ [record] } := by
  rw [InMemory.submitData_of_complete _ _ _ _ ((missingFields_eq_nil_iff data).mpr h)]
  refine ⟨rfl, rfl, InMemory.makeSubmission nowMs isoNow data, rfl, ?_, ?_, ?_⟩
  · intro k v hv
    exact InMemory.getOwn_makeSubmission nowMs isoNow data k v hv
  · intro k hk hid hts
    unfold InMemory.makeSubmission
    rw [getOwn_spread, hk]
    have h1 : ¬ "id" = k := fun h => hid h.symm
    have h2 : ¬ "timestamp" = k := fun h => hts h.symm
    simp [getOwn, h1, h2]
  · simp [InMemory.listSubmissions]

/-- C4, at the scenario body and the empty store: the stored record is the
body behind the generated `id` and `timestamp`. -/
theorem submitData_appends_record_witness :
    (∀ k ∈ requiredFields, absentOrFalsy scenarioBody k = false) ∧
    (InMemory.submitData 1700000000000 "2023-11-14T22:13:20.000Z" scenarioBody []).1.status = 200 ∧
    (InMemory.submitData 1700000000000 "2023-11-14T22:13:20.000Z" scenarioBody []).2
      = [("id", JsVal.str "1700000000000") :: ("timestamp", JsVal.str "2023-11-14T22:13:20.000Z")
          :: scenarioBody] :=
  ⟨by decide,
   (submitData_appends_record 1700000000000 "2023-11-14T22:13:20.000Z" scenarioBody []
      (by decide)).1,
   by decide⟩

/-! ## Sums over groups -/

theorem sum_map_ite_eq_of_nodup {κ M : Type} [DecidableEq κ] [AddCommMonoid M]
    (ks : List κ) (hks : ks.Nodup) (c : κ) (x : M) :
    (ks.map (fun k => if c = k then x else 0)).sum = if c ∈ ks then x else 0 := by
  induction ks with
  | nil => simp
  | cons k rest ih =>
    rw [List.nodup_cons] at hks
    rw [List.map_cons, List.sum_cons, ih hks.2]
    by_cases hck : c = k
    · subst hck
      simp [hks.1]
    · have : ¬ c ∈ rest → ¬ c ∈ k :: rest := by
        intro h h'
        rcases List.mem_cons.mp h' with h' | h'
        · exact hck h'
        · exact h h'
      by_cases hc : c ∈ rest
      · simp [hck, hc]
      · simp [hck, hc]

/-- Summing per group and then over the groups gives the sum over all
records, for any list of distinct keys that holds the key of every record. -/
theorem sum_groups_eq_sum {α κ M : Type} [DecidableEq κ] [AddCommMonoid M]
    (key : α → κ) (f : α → M) (ks : List κ) (hks : ks.Nodup) (l : List α)
    (hl : ∀ a ∈ l, key a ∈ ks) :
    (ks.map (fun k => ((l.filter (fun a => key a = k)).map f).sum)).sum = (l.map f).sum := by
  induction l with
  | nil => simp
  | cons a rest ih =>
    have hrest : ∀ b ∈ rest, key b ∈ ks := fun b hb => hl b (List.mem_cons_of_mem _ hb)
    have ha : key a ∈ ks := hl a (List.mem_cons_self _ _)
    have hsplit : ∀ k, ((List.filter (fun b => decide (key b = k)) (a :: rest)).map f).sum
        = (if key a = k then f a else 0) + ((rest.filter (fun b => key b = k)).map f).sum := by
      intro k
      by_cases hk : key a = k
      · simp [List.filter_cons, hk]
      · simp [List.filter_cons, hk]
    simp only [hsplit]
    rw [List.sum_map_add, ih hrest, sum_map_ite_eq_of_nodup ks hks (key a) (f a)]
    simp [ha]

theorem sum_dedup_groups_eq_sum {α κ M : Type} [DecidableEq κ] [AddCommMonoid M]
    (key : α → κ) (f : α → M) (l : List α) :
    ((l.map key).dedup.map (fun k => ((l.filter (fun a => key a = k)).map f).sum)).sum
      = (l.map f).sum :=
  sum_groups_eq_sum key f _ (List.nodup_dedup _) l
    (fun _ ha => List.mem_dedup.mpr (List.mem_map_of_mem key ha))

theorem JsNum.add_fin_fin (a b : ℚ) : (JsNum.fin a).add (JsNum.fin b) = JsNum.fin (a + b) := rfl

theorem JsNum.mul_fin_fin (a b : ℚ) : (JsNum.fin a).mul (JsNum.fin b) = JsNum.fin (a * b) := rfl

theorem JsNum.sub_fin_fin (a b : ℚ) : (JsNum.fin a).sub (JsNum.fin b) = JsNum.fin (a - b) := by
  simp [JsNum.sub, JsNum.neg, JsNum.add, sub_eq_add_neg]

theorem JsNum.div_fin_fin (a b : ℚ) (hb : b ≠ 0) :
    (JsNum.fin a).div (JsNum.fin b) = JsNum.fin (a / b) := by
  simp [JsNum.div, hb]

theorem JsNum.rounded_fin (x : JsNum) : x.rounded JsNum.fin = x := by
  cases x <;> rfl

theorem Sqlite.addWeighted_fin (total average : JsNum) (count : Nat) :
    Sqlite.addWeighted JsNum.fin total average count
      = total.add (average.mul (JsNum.fin count)) := by
  simp [Sqlite.addWeighted, JsNum.rounded_fin]

theorem JsNum.eq_fin_value_of_isFinite (n : JsNum) (h : n.isFinite = true) :
    n = JsNum.fin n.value := by
  cases n <;> simp [JsNum.isFinite, JsNum.value] at h ⊢

theorem foldl_add_fin {α : Type} (f : α → ℚ) (xs : List α) (a : ℚ) :
    xs.foldl (fun acc x => acc.add (JsNum.fin (f x))) (JsNum.fin a)
      = JsNum.fin (a + (xs.map f).sum) := by
  induction xs generalizing a with
  | nil => simp
  | cons x rest ih =>
    rw [List.foldl_cons, JsNum.add_fin_fin, ih, List.map_cons, List.sum_cons, add_assoc]

theorem mean_mul_length (xs : List ℚ) : xs.sum / xs.length * xs.length = xs.sum := by
  cases xs with
  | nil => simp
  | cons x rest =>
    have : ((x :: rest).length : ℚ) ≠ 0 := Nat.cast_ne_zero.mpr (by simp)
    field_simp

theorem avg_mul_length {α : Type} (f : α → ℚ) (g : List α) :
    (g.map f).sum / g.length * g.length = (g.map f).sum := by
  have := mean_mul_length (g.map f)
  rwa [List.length_map] at this

/-! ## Statistics: the totals of the two loops -/

theorem Sqlite.foldl_accumulate_totalCount (round : ℚ → JsNum) (rows : List Sqlite.GroupRow)
    (t : Sqlite.Totals) :
    (rows.foldl (Sqlite.accumulate round) t).totalCount
      = t.totalCount + (rows.map (fun r => r.total)).sum := by
  induction rows generalizing t with
  | nil => simp
  | cons r rest ih =>
    rw [List.foldl_cons, ih]
    simp [Sqlite.accumulate, add_assoc]

theorem Sqlite.recombined_sums (rows : List Sqlite.GroupRow) (t : Sqlite.Totals) :
    (rows.foldl (Sqlite.accumulate JsNum.fin) t).totalFamilySize
      = rows.foldl (fun a r => a.add (r.avg_family_size.mul (JsNum.fin r.total)))
          t.totalFamilySize ∧
    (rows.foldl (Sqlite.accumulate JsNum.fin) t).totalAttitudeScore
      = rows.foldl (fun a r => a.add (r.avg_attitude_score.mul (JsNum.fin r.total)))
          t.totalAttitudeScore ∧
    (rows.foldl (Sqlite.accumulate JsNum.fin) t).totalEducationDifference
      = rows.foldl (fun a r => a.add (r.avg_education_diff.mul (JsNum.fin r.total)))
          t.totalEducationDifference := by
  induction rows generalizing t with
  | nil => simp
  | cons r rest ih =>
    simp only [List.foldl_cons]
    obtain ⟨h1, h2, h3⟩ := ih (Sqlite.accumulate JsNum.fin t r)
    rw [h1, h2, h3]
    have e1 : (Sqlite.accumulate JsNum.fin t r).totalFamilySize
        = t.totalFamilySize.add (r.avg_family_size.mul (JsNum.fin r.total)) :=
      Sqlite.addWeighted_fin _ _ _
    have e2 : (Sqlite.accumulate JsNum.fin t r).totalAttitudeScore
        = t.totalAttitudeScore.add (r.avg_attitude_score.mul (JsNum.fin r.total)) :=
      Sqlite.addWeighted_fin _ _ _
    have e3 : (Sqlite.accumulate JsNum.fin t r).totalEducationDifference
        = t.totalEducationDifference.add (r.avg_education_diff.mul (JsNum.fin r.total)) :=
      Sqlite.addWeighted_fin _ _ _
    rw [e1, e2, e3]
    exact ⟨rfl, rfl, rfl⟩

theorem sum_foldl_nat {α : Type} (f : α → Nat) (l : List α) (a : Nat) :
    l.foldl (fun sum x => sum + f x) a = a + (l.map f).sum := by
  induction l generalizing a with
  | nil => simp
  | cons x rest ih => rw [List.foldl_cons, ih, List.map_cons, List.sum_cons, add_assoc]

/-- The group rows of a table: their counts add up to the number of rows of
the table. -/
theorem Sqlite.sum_total_groupRows (table : List Sqlite.Row) :
    ((Sqlite.groupRows table).map (fun r => r.total)).sum = table.length := by
  unfold Sqlite.groupRows
  rw [List.map_map]
  have h := sum_dedup_groups_eq_sum (fun r : Sqlite.Row => (r.region, r.firstborn_gender))
    (fun _ => (1 : Nat)) table
  simp only [List.map_const', List.sum_replicate, smul_eq_mul, mul_one] at h
  simpa [Function.comp_def] using h

theorem Sqlite.groupRows_eq_nil_iff (table : List Sqlite.Row) :
    Sqlite.groupRows table = [] ↔ table = [] := by
  unfold Sqlite.groupRows
  rw [List.map_eq_nil_iff]
  constructor
  · intro h
    cases table with
    | nil => rfl
    | cons r rest =>
      have : (r.region, r.firstborn_gender)
          ∈ ((r :: rest).map (fun r => (r.region, r.firstborn_gender))).dedup :=
        List.mem_dedup.mpr (List.mem_map_of_mem _ (List.mem_cons_self _ _))
      rw [h] at this
      exact absurd this (List.not_mem_nil _)
  · intro h
    subst h
    rfl

/-- In exact arithmetic, the totals of the SQLite loop over the group rows of
a table are the sums over the table. -/
theorem Sqlite.totals_groupRows (table : List Sqlite.Row) :
    (Sqlite.totals JsNum.fin (Sqlite.groupRows table)).totalFamilySize
      = JsNum.fin (table.map (fun r => r.family_size)).sum ∧
    (Sqlite.totals JsNum.fin (Sqlite.groupRows table)).totalAttitudeScore
      = JsNum.fin (table.map (fun r => r.attitude_score)).sum ∧
    (Sqlite.totals JsNum.fin (Sqlite.groupRows table)).totalEducationDifference
      = JsNum.fin (table.map (fun r => r.firstborn_education - r.laterborn_education)).sum ∧
    (Sqlite.totals JsNum.fin (Sqlite.groupRows table)).totalCount = table.length := by
  have hsum : ∀ f : Sqlite.Row → ℚ,
      List.foldl (fun a (r : Sqlite.GroupRow) => a.add ((Sqlite.avg f
          (table.filter (fun x => (x.region, x.firstborn_gender) = (r.region, r.firstborn_gender)))).mul
            (JsNum.fin r.total))) (JsNum.fin 0) (Sqlite.groupRows table)
        = JsNum.fin (table.map f).sum := by
    intro f
    unfold Sqlite.groupRows
    rw [List.foldl_map]
    simp only [Sqlite.avg, JsNum.mul_fin_fin, avg_mul_length]
    rw [foldl_add_fin (fun key : String × String =>
      ((table.filter (fun x => (x.region, x.firstborn_gender) = key)).map f).sum), zero_add]
    congr 1
    exact sum_dedup_groups_eq_sum (fun r : Sqlite.Row => (r.region, r.firstborn_gender)) f table
  obtain ⟨h1, h2, h3⟩ := Sqlite.recombined_sums (Sqlite.groupRows table) Sqlite.initialTotals
  have hrow : ∀ (g : Sqlite.GroupRow → JsNum) (f : Sqlite.Row → ℚ),
      (∀ r ∈ Sqlite.groupRows table, g r = Sqlite.avg f
          (table.filter (fun x => (x.region, x.firstborn_gender) = (r.region, r.firstborn_gender)))) →
      List.foldl (fun a (r : Sqlite.GroupRow) => a.add ((g r).mul (JsNum.fin r.total)))
          (JsNum.fin 0) (Sqlite.groupRows table)
        = JsNum.fin (table.map f).sum := by
    intro g f hg
    rw [← hsum f]
    apply List.foldl_ext
    intro a r hr
    rw [hg r hr]
  have hmem : ∀ r ∈ Sqlite.groupRows table,
      r.avg_family_size = Sqlite.avg (fun r => r.family_size)
        (table.filter (fun x => (x.region, x.firstborn_gender) = (r.region, r.firstborn_gender))) ∧
      r.avg_attitude_score = Sqlite.avg (fun r => r.attitude_score)
        (table.filter (fun x => (x.region, x.firstborn_gender) = (r.region, r.firstborn_gender))) ∧
      r.avg_education_diff = Sqlite.avg (fun r => r.firstborn_education - r.laterborn_education)
        (table.filter (fun x => (x.region, x.firstborn_gender) = (r.region, r.firstborn_gender))) := by
    intro r hr
    unfold Sqlite.groupRows at hr
    rw [List.mem_map] at hr
    obtain ⟨key, _, hkey⟩ := hr
    subst hkey
    exact ⟨rfl, rfl, rfl⟩
  refine ⟨?_, ?_, ?_, ?_⟩
  · unfold Sqlite.totals
    rw [h1]
    exact hrow _ _ (fun r hr => (hmem r hr).1)
  · unfold Sqlite.totals
    rw [h2]
    exact hrow _ _ (fun r hr => (hmem r hr).2.1)
  · unfold Sqlite.totals
    rw [h3]
    exact hrow _ _ (fun r hr => (hmem r hr).2.2)
  · unfold Sqlite.totals
    rw [Sqlite.foldl_accumulate_totalCount, Sqlite.sum_total_groupRows]
    simp [Sqlite.initialTotals]

theorem InMemory.single_pass_sums (numberToString : ℚ → String) (submissions : List JsObj)
    (hfin : ∀ sub ∈ submissions, ParsesAsNumbers numberToString sub)
    (t : InMemory.Totals) (a b c : ℚ)
    (ha : t.totalFamilySize = JsNum.fin a) (hb : t.totalAttitudeScore = JsNum.fin b)
    (hc : t.totalEducationDifference = JsNum.fin c) :
    (submissions.foldl (InMemory.accumulate JsNum.fin numberToString) t).totalFamilySize
      = JsNum.fin (a + (submissions.map (fun s => (familySizeOf numberToString s).value)).sum) ∧
    (submissions.foldl (InMemory.accumulate JsNum.fin numberToString) t).totalAttitudeScore
      = JsNum.fin (b + (submissions.map (fun s => (attitudeScoreOf numberToString s).value)).sum) ∧
    (submissions.foldl (InMemory.accumulate JsNum.fin numberToString) t).totalEducationDifference
      = JsNum.fin (c + (submissions.map (educationDifferenceOf numberToString)).sum) := by
  induction submissions generalizing t a b c with
  | nil => simp [ha, hb, hc]
  | cons sub rest ih =>
    obtain ⟨h1, h2, h3, h4⟩ := hfin sub (List.mem_cons_self _ _)
    have hrest : ∀ s ∈ rest, ParsesAsNumbers numberToString s :=
      fun s hs => hfin s (List.mem_cons_of_mem _ hs)
    have e1 := JsNum.eq_fin_value_of_isFinite _ h1
    have e2 := JsNum.eq_fin_value_of_isFinite _ h2
    have e3 := JsNum.eq_fin_value_of_isFinite _ h3
    have e4 := JsNum.eq_fin_value_of_isFinite _ h4
    simp only [List.foldl_cons, List.map_cons, List.sum_cons]
    have := ih hrest (InMemory.accumulate JsNum.fin numberToString t sub)
      (a + (familySizeOf numberToString sub).value)
      (b + (attitudeScoreOf numberToString sub).value)
      (c + educationDifferenceOf numberToString sub)
      (by
        show (t.totalFamilySize.add
          ((familySizeOf numberToString sub).rounded JsNum.fin)).rounded JsNum.fin = _
        rw [JsNum.rounded_fin, JsNum.rounded_fin, ha, e1, JsNum.add_fin_fin]; rfl)
      (by
        show (t.totalAttitudeScore.add
          ((attitudeScoreOf numberToString sub).rounded JsNum.fin)).rounded JsNum.fin = _
        rw [JsNum.rounded_fin, JsNum.rounded_fin, hb, e2, JsNum.add_fin_fin]; rfl)
      (by
        show (t.totalEducationDifference.add
          ((((firstbornEducationOf numberToString sub).rounded JsNum.fin).sub
            ((laterbornEducationOf numberToString sub).rounded JsNum.fin)).rounded
              JsNum.fin)).rounded JsNum.fin = _
        rw [JsNum.rounded_fin, JsNum.rounded_fin, JsNum.rounded_fin, JsNum.rounded_fin,
          hc, e3, e4, JsNum.sub_fin_fin, JsNum.add_fin_fin]; rfl)
    simpa only [add_assoc] using this

/-! ## Reading a decimal numeral back -/

theorem digitChar_decimal (k : Nat) (h : k < 10) :
    48 ≤ (Nat.digitChar k).toNat ∧ (Nat.digitChar k).toNat ≤ 57 ∧
      (Nat.digitChar k).toNat - 48 = k := by
  interval_cases k <;> decide

theorem decimalValue_append (pre : List Char) (c : Char) :
    decimalValue (pre ++ [c]) = 10 * decimalValue pre + (c.toNat - 48) := by
  simp [decimalValue, List.foldl_append]

theorem toDigitsCore_decimal (fuel : Nat) :
    ∀ (n : Nat) (ds : List Char), n < fuel →
      ∃ pre, Nat.toDigitsCore 10 fuel n ds = pre ++ ds ∧ pre ≠ [] ∧
        (∀ c ∈ pre, 48 ≤ c.toNat ∧ c.toNat ≤ 57) ∧ decimalValue pre = n := by
  induction fuel with
  | zero => intro n ds h; omega
  | succ fuel ih =>
    intro n ds h
    have hd := digitChar_decimal (n % 10) (Nat.mod_lt _ (by decide))
    by_cases h0 : n / 10 = 0
    · refine ⟨[Nat.digitChar (n % 10)], ?_, by simp, ?_, ?_⟩
      · simp [Nat.toDigitsCore, h0]
      · intro c hc
        rw [List.mem_singleton] at hc
        subst hc
        exact ⟨hd.1, hd.2.1⟩
      · simp only [decimalValue, List.foldl_cons, List.foldl_nil, hd.2.2]
        omega
    · obtain ⟨pre, hpre, _, hdig, hval⟩ := ih (n / 10) (Nat.digitChar (n % 10) :: ds) (by omega)
      refine ⟨pre ++ [Nat.digitChar (n % 10)], ?_, by simp, ?_, ?_⟩
      · simp [Nat.toDigitsCore, h0, hpre]
      · intro c hc
        rcases List.mem_append.mp hc with hc | hc
        · exact hdig c hc
        · rw [List.mem_singleton] at hc
          subst hc
          exact ⟨hd.1, hd.2.1⟩
      · rw [decimalValue_append, hval, hd.2.2]
        omega

theorem digitValue_decimal (c : Char) (h : 48 ≤ c.toNat ∧ c.toNat ≤ 57) :
    digitValue 10 c = some (c.toNat - 48) := by
  have : c.toNat - 48 < 10 := by omega
  simp [digitValue, h.1, h.2, this]

theorem takeDigits_decimal (pre : List Char) (h : ∀ c ∈ pre, 48 ≤ c.toNat ∧ c.toNat ≤ 57) :
    takeDigits 10 pre = (pre.map (fun c => c.toNat - 48), []) := by
  induction pre with
  | nil => rfl
  | cons c rest ih =>
    have hc := h c (List.mem_cons_self _ _)
    have hrest := ih (fun c' hc' => h c' (List.mem_cons_of_mem _ hc'))
    simp [takeDigits, digitValue_decimal c hc, hrest]

theorem digitsValue_map_decimal (pre : List Char) :
    digitsValue 10 (pre.map (fun c => c.toNat - 48)) = decimalValue pre := by
  simp [digitsValue, decimalValue, List.foldl_map]

theorem not_whiteSpace_of_decimal (c : Char) (h : 48 ≤ c.toNat ∧ c.toNat ≤ 57) :
    isStrWhiteSpace c = false := by
  simp only [isStrWhiteSpace, Bool.or_eq_false_iff, decide_eq_false_iff_not, Bool.and_eq_false_iff]
  omega

theorem parseIntChars_decimal (pre : List Char) (hne : pre ≠ [])
    (h : ∀ c ∈ pre, 48 ≤ c.toNat ∧ c.toNat ≤ 57) :
    parseIntChars pre = some (decimalValue pre : Int) := by
  cases pre with
  | nil => exact absurd rfl hne
  | cons c rest =>
    have hc := h c (List.mem_cons_self _ _)
    have hdrop : (c :: rest).dropWhile isStrWhiteSpace = c :: rest := by
      rw [List.dropWhile_cons, not_whiteSpace_of_decimal c hc]
      simp
    have hsign : takeSign (c :: rest) = (false, c :: rest) := by
      unfold takeSign
      split
      · rename_i heq
        injection heq with h1 _
        rw [h1] at hc
        exact absurd hc (by decide)
      · rename_i heq
        injection heq with h1 _
        rw [h1] at hc
        exact absurd hc (by decide)
      · rfl
    have hradix : (match c :: rest with
        | '0' :: 'x' :: cs => ((16 : Nat), cs)
        | '0' :: 'X' :: cs => (16, cs)
        | cs => (10, cs)) = (10, c :: rest) := by
      split
      · rename_i heq
        injection heq with _ h2
        have := h 'x' (by rw [h2]; simp)
        exact absurd this (by decide)
      · rename_i heq
        injection heq with _ h2
        have := h 'X' (by rw [h2]; simp)
        exact absurd this (by decide)
      · rfl
    unfold parseIntChars
    simp only [hdrop, hsign, hradix, takeDigits_decimal (c :: rest) h, digitsValue_map_decimal]
    simp

theorem parseIntChars_toString (n : Nat) : parseIntChars (toString n).data = some (n : Int) := by
  obtain ⟨pre, hpre, hne, hdig, hval⟩ := toDigitsCore_decimal (n + 1) n [] (Nat.lt_succ_self n)
  have : (toString n).data = pre := by
    show Nat.toDigits 10 n = pre
    unfold Nat.toDigits
    rw [hpre, List.append_nil]
  rw [this, parseIntChars_decimal pre hne hdig, hval]

/-! ## Rounding by `toFixed` -/

theorem roundHalfUp_close (x : ℚ) (hx : 0 ≤ x) (f : Nat) :
    |(roundHalfUp x f : ℚ) / 10 ^ f - x| ≤ 1 / (2 * 10 ^ f) := by
  have hpow : (0 : ℚ) < 10 ^ f := by positivity
  have hy : (0 : ℚ) ≤ x * 10 ^ f + 1 / 2 := by positivity
  have hfloor : 0 ≤ ⌊x * 10 ^ f + 1 / 2⌋ := Int.floor_nonneg.mpr hy
  have hcast : ((roundHalfUp x f : ℕ) : ℚ) = ((⌊x * 10 ^ f + 1 / 2⌋ : ℤ) : ℚ) := by
    unfold roundHalfUp
    have : ((⌊x * 10 ^ f + 1 / 2⌋.toNat : ℕ) : ℤ) = ⌊x * 10 ^ f + 1 / 2⌋ := Int.toNat_of_nonneg hfloor
    exact_mod_cast congrArg (fun z : ℤ => (z : ℚ)) this
  have h1 : ((⌊x * 10 ^ f + 1 / 2⌋ : ℤ) : ℚ) ≤ x * 10 ^ f + 1 / 2 := Int.floor_le _
  have h2 : x * 10 ^ f + 1 / 2 < ((⌊x * 10 ^ f + 1 / 2⌋ : ℤ) : ℚ) + 1 := Int.lt_floor_add_one _
  rw [hcast, abs_le]
  constructor
  · rw [le_sub_iff_add_le, le_div_iff₀ hpow]
    have : (-(1 / (2 * 10 ^ f)) + x) * 10 ^ f = x * 10 ^ f - 1 / 2 := by
      field_simp
      ring
    rw [this]
    linarith
  · rw [sub_le_iff_le_add, div_le_iff₀ hpow]
    have : (1 / (2 * 10 ^ f) + x) * 10 ^ f = x * 10 ^ f + 1 / 2 := by
      field_simp
      ring
    rw [this]
    exact h1

/-- The number the digits of `toFixed` denote is within half a unit of the
last decimal place of the number rounded. -/
theorem fixedValue_close (m : ℚ) (f : Nat) : |fixedValue m f - m| ≤ 1 / (2 * 10 ^ f) := by
  unfold fixedValue
  by_cases hm : m < 0
  · have h := roundHalfUp_close |m| (abs_nonneg m) f
    rw [abs_of_neg hm] at h ⊢
    simp only [hm, if_true]
    have : -1 * ((roundHalfUp (-m) f : ℚ) / 10 ^ f) - m
        = -((roundHalfUp (-m) f : ℚ) / 10 ^ f - -m) := by ring
    rw [this, abs_neg]
    exact h
  · have h := roundHalfUp_close |m| (abs_nonneg m) f
    rw [abs_of_nonneg (not_lt.mp hm)] at h ⊢
    simp only [hm, if_false, one_mul]
    exact h

/-- Below `10^21` in absolute value, `toFixed` prints the sign and the digits
of the rounded number. -/
theorem toFixed_digits (numberToString : ℚ → String) (m : ℚ) (f : Nat)
    (hm : |m| < 10 ^ 21) :
    toFixed numberToString (JsNum.fin m) f
      = (if m < 0 then "-" else "") ++ fixedDigits (roundHalfUp |m| f) f := by
  unfold toFixed
  by_cases h : m < 0
  · rw [abs_of_neg h] at hm ⊢
    simp [h, not_le.mpr hm]
  · rw [abs_of_nonneg (not_lt.mp h)] at hm ⊢
    simp [h, not_le.mpr hm]

/-! ## Reading the digits of `toFixed` back -/

theorem takeDigits_stop (pre rest : List Char) (h : ∀ c ∈ pre, 48 ≤ c.toNat ∧ c.toNat ≤ 57)
    (hrest : ∀ c r, rest = c :: r → digitValue 10 c = none) :
    takeDigits 10 (pre ++ rest) = (pre.map (fun c => c.toNat - 48), rest) := by
  induction pre with
  | nil =>
    cases rest with
    | nil => rfl
    | cons c r => simp [takeDigits, hrest c r rfl]
  | cons c pre ih =>
    have hc := h c (List.mem_cons_self _ _)
    have hpre := ih (fun c' hc' => h c' (List.mem_cons_of_mem _ hc'))
    simp [takeDigits, digitValue_decimal c hc, hpre]

theorem decimalValue_replicate_zero (k : Nat) (ds : List Char) :
    decimalValue (List.replicate k '0' ++ ds) = decimalValue ds := by
  induction k with
  | zero => simp
  | succ k ih =>
    rw [List.replicate_succ, List.cons_append]
    unfold decimalValue at ih ⊢
    rw [List.foldl_cons]
    exact ih

theorem takeSign_decimal (c : Char) (rest : List Char) (hc : 48 ≤ c.toNat ∧ c.toNat ≤ 57) :
    takeSign (c :: rest) = (false, c :: rest) := by
  unfold takeSign
  split
  · rename_i heq
    injection heq with h1 _
    rw [h1] at hc
    exact absurd hc (by decide)
  · rename_i heq
    injection heq with h1 _
    rw [h1] at hc
    exact absurd hc (by decide)
  · rfl

theorem scaleByTen_neg (n k : Nat) : scaleByTen n (0 - (k : Int)) = (n : ℚ) / 10 ^ k := by
  unfold scaleByTen
  by_cases hk : k = 0
  · subst hk
    simp
  · have hneg : ¬ (0 : Int) ≤ 0 - (k : Int) := by omega
    have hto : (-(0 - (k : Int))).toNat = k := by omega
    rw [if_neg hneg, hto, Rat.mkRat_eq_div]
    push_cast
    rfl

/-- What `parseFloat` reads from a text made of a minus sign or none, a
non-empty run of digits, and a point followed by digits or nothing. -/
theorem parseFloatChars_decimal (negative : Bool) (whole tail fraction : List Char)
    (hwhole : ∀ c ∈ whole, 48 ≤ c.toNat ∧ c.toNat ≤ 57) (hne : whole ≠ [])
    (hfraction : ∀ c ∈ fraction, 48 ≤ c.toNat ∧ c.toNat ≤ 57)
    (htail : tail = '.' :: fraction ∨ (tail = [] ∧ fraction = [])) :
    parseFloatChars ((if negative then ['-'] else []) ++ (whole ++ tail))
      = JsNum.fin ((if negative then -1 else 1)
          * ((decimalValue (whole ++ fraction) : ℚ) / 10 ^ fraction.length)) := by
  cases whole with
  | nil => exact absurd rfl hne
  | cons c w =>
    have hc := hwhole c (List.mem_cons_self _ _)
    have hdrop : (((if negative then ['-'] else []) ++ (c :: w ++ tail))).dropWhile isStrWhiteSpace
        = (if negative then ['-'] else []) ++ (c :: w ++ tail) := by
      cases negative
      · simp only [Bool.false_eq_true, if_false, List.nil_append, List.cons_append]
        rw [List.dropWhile_cons, not_whiteSpace_of_decimal c hc]
        simp
      · simp only [if_true, List.cons_append, List.nil_append]
        rw [List.dropWhile_cons]
        have : isStrWhiteSpace '-' = false := by decide
        rw [this]
        simp
    have hsign : takeSign ((if negative then ['-'] else []) ++ (c :: w ++ tail))
        = (negative, c :: w ++ tail) := by
      cases negative
      · simp only [Bool.false_eq_true, if_false, List.nil_append, List.cons_append]
        exact takeSign_decimal c _ hc
      · rfl
    have hinf : ¬ ((c :: w ++ tail).take 8 = "Infinity".data) := by
      intro h
      have h1 : (c :: w ++ tail).head? = some 'I' := by
        have := congrArg List.head? h
        simpa using this
      simp only [List.cons_append, List.head?_cons, Option.some.injEq] at h1
      rw [h1] at hc
      exact absurd hc (by decide)
    have hip : takeDigits 10 (c :: w ++ tail) = ((c :: w).map (fun c => c.toNat - 48), tail) := by
      apply takeDigits_stop (c :: w) tail hwhole
      intro c' r hr
      rcases htail with h | h
      · rw [h] at hr
        injection hr with h1 _
        rw [← h1]
        decide
      · rw [h.1] at hr
        exact absurd hr (by simp)
    have hfp : (match tail with
        | '.' :: cs => takeDigits 10 cs
        | cs => ([], cs)) = (fraction.map (fun c => c.toNat - 48), []) := by
      rcases htail with h | h
      · rw [h]
        exact takeDigits_decimal fraction hfraction
      · rw [h.1, h.2]
        rfl
    unfold parseFloatChars
    simp only [hdrop, hsign, hinf, if_false, hip, hfp]
    have hnot : ¬ (List.map (fun c => c.toNat - 48) (c :: w) = [] ∧
        List.map (fun c => c.toNat - 48) fraction = []) := by
      simp
    rw [if_neg hnot, ← List.map_append, digitsValue_map_decimal]
    have hexp : takeExponent [] - ((List.map (fun c => c.toNat - 48) fraction).length : Int)
        = 0 - (fraction.length : Int) := by
      simp [takeExponent]
    rw [hexp, scaleByTen_neg]
    cases negative <;> simp

/-- The digits of `toFixed`, read back by `parseFloat`, give the number they
denote. -/
theorem parseFloatChars_fixedDigits (negative : Bool) (n f : Nat) :
    parseFloatChars ((if negative then "-" else "") ++ fixedDigits n f).data
      = JsNum.fin ((if negative then -1 else 1) * ((n : ℚ) / 10 ^ f)) := by
  obtain ⟨pre, hpre, hne, hdig, hval⟩ := toDigitsCore_decimal (n + 1) n [] (Nat.lt_succ_self n)
  have hdigits : Nat.toDigits 10 n = pre := by
    unfold Nat.toDigits
    rw [hpre, List.append_nil]
  have hsign : ((if negative then "-" else "") : String).data
      = (if negative then ['-'] else []) := by
    cases negative <;> rfl
  rw [String.data_append, hsign]
  unfold fixedDigits
  rw [hdigits]
  by_cases hf : f = 0
  · subst hf
    simp only [if_true]
    have := parseFloatChars_decimal negative pre [] [] hdig hne (by simp) (Or.inr ⟨rfl, rfl⟩)
    simpa [hval] using this
  · simp only [hf, if_false]
    set padded := List.replicate (f + 1 - pre.length) '0' ++ pre with hpadded
    have hlen : f + 1 ≤ padded.length := by
      rw [hpadded, List.length_append, List.length_replicate]
      omega
    have hpd : ∀ c ∈ padded, 48 ≤ c.toNat ∧ c.toNat ≤ 57 := by
      intro c hc
      rw [hpadded, List.mem_append] at hc
      rcases hc with hc | hc
      · rw [List.eq_of_mem_replicate hc]
        decide
      · exact hdig c hc
    have hwhole : ∀ c ∈ padded.take (padded.length - f), 48 ≤ c.toNat ∧ c.toNat ≤ 57 :=
      fun c hc => hpd c (List.mem_of_mem_take hc)
    have hfraction : ∀ c ∈ padded.drop (padded.length - f), 48 ≤ c.toNat ∧ c.toNat ≤ 57 :=
      fun c hc => hpd c (List.mem_of_mem_drop hc)
    have hne2 : padded.take (padded.length - f) ≠ [] := by
      intro h
      have := congrArg List.length h
      rw [List.length_take] at this
      simp at this
      omega
    have := parseFloatChars_decimal negative (padded.take (padded.length - f))
      ('.' :: padded.drop (padded.length - f)) (padded.drop (padded.length - f))
      hwhole hne2 hfraction (Or.inl rfl)
    rw [List.take_append_drop, List.length_drop] at this
    have hsub : padded.length - (padded.length - f) = f := by omega
    rw [hsub, hpadded, decimalValue_replicate_zero, hval] at this
    rw [← hpadded] at this
    exact this

/-! ## Statistics: the answers -/

theorem length_cast_ne_zero {α : Type} (l : List α) (h : l ≠ []) : ((l.length : ℕ) : ℚ) ≠ 0 :=
  Nat.cast_ne_zero.mpr (fun h0 => h (List.length_eq_zero.mp h0))

/-- In exact arithmetic, the three quotients of the in-memory handler are the
unweighted means. -/
theorem InMemory.means_eq (numberToString : ℚ → String) (submissions : List JsObj)
    (hne : submissions ≠ [])
    (hfin : ∀ sub ∈ submissions, ParsesAsNumbers numberToString sub) :
    InMemory.means JsNum.fin numberToString submissions
      = (JsNum.fin (mean (submissions.map (fun s => (familySizeOf numberToString s).value))),
         JsNum.fin (mean (submissions.map (fun s => (attitudeScoreOf numberToString s).value))),
         JsNum.fin (mean (submissions.map (educationDifferenceOf numberToString)))) := by
  obtain ⟨h1, h2, h3⟩ := InMemory.single_pass_sums numberToString submissions hfin
    InMemory.initialTotals 0 0 0 rfl rfl rfl
  have hn := length_cast_ne_zero submissions hne
  simp only [InMemory.means, InMemory.totals, mean, h1, h2, h3, JsNum.div_fin_fin _ _ hn,
    List.length_map, zero_add, JsNum.rounded_fin]

/-- In exact arithmetic, the three quotients of the SQLite handler over the
group rows of a table are the unweighted means over the table. -/
theorem Sqlite.means_groupRows (table : List Sqlite.Row) (hne : table ≠ []) :
    Sqlite.means JsNum.fin (Sqlite.groupRows table)
      = (JsNum.fin (mean (table.map (fun r => r.family_size))),
         JsNum.fin (mean (table.map (fun r => r.attitude_score))),
         JsNum.fin (mean (table.map (fun r => r.firstborn_education - r.laterborn_education)))) := by
  obtain ⟨h1, h2, h3, h4⟩ := Sqlite.totals_groupRows table
  have hn := length_cast_ne_zero table hne
  simp only [Sqlite.means, mean, h1, h2, h3, h4, JsNum.div_fin_fin _ _ hn, List.length_map,
    JsNum.rounded_fin]

theorem sameNumbers_lists (numberToString : ℚ → String) (submissions : List JsObj)
    (table : List Sqlite.Row)
    (hsame : List.Forall₂ (SameNumbers numberToString) submissions table) :
    submissions.length = table.length ∧
    (∀ sub ∈ submissions, ParsesAsNumbers numberToString sub) ∧
    submissions.map (fun s => (familySizeOf numberToString s).value)
      = table.map (fun r => r.family_size) ∧
    submissions.map (fun s => (attitudeScoreOf numberToString s).value)
      = table.map (fun r => r.attitude_score) ∧
    submissions.map (educationDifferenceOf numberToString)
      = table.map (fun r => r.firstborn_education - r.laterborn_education) := by
  induction hsame with
  | nil => simp
  | cons h _ ih =>
    obtain ⟨h1, h2, h3, h4⟩ := h
    obtain ⟨i1, i2, i3, i4, i5⟩ := ih
    refine ⟨by simp [i1], ?_, ?_, ?_, ?_⟩
    · intro sub hsub
      rcases List.mem_cons.mp hsub with hsub | hsub
      · subst hsub
        simp [ParsesAsNumbers, h1, h2, h3, h4, JsNum.isFinite]
      · exact i2 sub hsub
    · simp only [List.map_cons, i3, h1]
      rfl
    · simp only [List.map_cons, i4, h2]
      rfl
    · simp only [List.map_cons, i5]
      simp only [educationDifferenceOf, h3, h4]
      rfl

/-- The answer of the in-memory handler for a non-empty store whose values
can be converted. -/
theorem InMemory.statistics_of_records (round : ℚ → JsNum) (numberToString : ℚ → String)
    (submissions : List JsObj) (hne : submissions ≠ [])
    (hconv : ∀ sub ∈ submissions, InMemory.converts sub = true) :
    InMemory.statistics round numberToString submissions
      = StatisticsResponse.statistics
          { totalSubmissions := submissions.length,
            regions := (InMemory.totals round numberToString submissions).regions,
            averageFamilySize :=
              toFixed numberToString (InMemory.means round numberToString submissions).1 2,
            genderDistribution :=
              (InMemory.totals round numberToString submissions).genderDistribution,
            averageAttitudeScore :=
              toFixed numberToString (InMemory.means round numberToString submissions).2.1 3,
            averageEducationDifference :=
              toFixed numberToString (InMemory.means round numberToString submissions).2.2 2 } := by
  have hlen : submissions.length ≠ 0 := fun h => hne (List.length_eq_zero.mp h)
  have hall : submissions.all InMemory.converts = true := List.all_eq_true.mpr hconv
  simp [InMemory.statistics, hlen, hall]

/-- The answer of the in-memory handler for a store that holds a value the
loop cannot convert. -/
theorem InMemory.statistics_of_unconverted (round : ℚ → JsNum) (numberToString : ℚ → String)
    (submissions : List JsObj) (h : ∃ sub ∈ submissions, InMemory.converts sub = false) :
    InMemory.statistics round numberToString submissions
      = StatisticsResponse.failure "Internal server error" := by
  obtain ⟨sub, hsub, hc⟩ := h
  have hlen : submissions.length ≠ 0 := by
    intro h0
    rw [List.length_eq_zero.mp h0] at hsub
    exact List.not_mem_nil _ hsub
  have hall : submissions.all InMemory.converts = false := by
    rw [Bool.eq_false_iff]
    intro hall
    have := List.all_eq_true.mp hall sub hsub
    rw [hc] at this
    exact absurd this (by decide)
  simp [InMemory.statistics, hlen, hall]

theorem Sqlite.statistics_of_rows (round : ℚ → JsNum) (numberToString : ℚ → String)
    (rows : List Sqlite.GroupRow) (hne : rows ≠ []) :
    Sqlite.statistics round numberToString (Except.ok rows)
      = StatisticsResponse.statistics
          { totalSubmissions := (rows.map (fun r => r.total)).sum,
            regions := (Sqlite.totals round rows).regions,
            averageFamilySize := toFixed numberToString (Sqlite.means round rows).1 2,
            genderDistribution := (Sqlite.totals round rows).genderDistribution,
            averageAttitudeScore := toFixed numberToString (Sqlite.means round rows).2.1 3,
            averageEducationDifference :=
              toFixed numberToString (Sqlite.means round rows).2.2 2 } := by
  have : rows.length ≠ 0 := fun h => hne (List.length_eq_zero.mp h)
  simp [Sqlite.statistics, this, sum_foldl_nat]

/-- C5: for a non-empty table and the in-memory store holding the same
numbers, the SQLite handler's recombination of the group rows (sum of mean
times count, over the sum of the counts) gives, in exact arithmetic, the three
quotients of the in-memory handler's single pass, which are the unweighted
means; the recombined `totalSubmissions` is the number of records, and the
strings the two handlers report agree (the in-memory handler reports them
when it can convert the stored values). -/
theorem grouped_means_eq_single_pass (numberToString : ℚ → String) (submissions : List JsObj)
    (table : List Sqlite.Row) (hne : table ≠ [])
    (hsame : List.Forall₂ (SameNumbers numberToString) submissions table) :
    Sqlite.means JsNum.fin (Sqlite.groupRows table)
      = InMemory.means JsNum.fin numberToString submissions ∧
    Sqlite.means JsNum.fin (Sqlite.groupRows table)
      = (JsNum.fin (mean (table.map (fun r => r.family_size))),
         JsNum.fin (mean (table.map (fun r => r.attitude_score))),
         JsNum.fin (mean (table.map (fun r => r.firstborn_education - r.laterborn_education)))) ∧
    ∃ grouped,
      Sqlite.statistics JsNum.fin numberToString (Except.ok (Sqlite.groupRows table))
        = StatisticsResponse.statistics grouped ∧
      grouped.totalSubmissions = table.length ∧
      grouped.totalSubmissions = submissions.length ∧
      grouped.averageFamilySize
        = toFixed numberToString (InMemory.means JsNum.fin numberToString submissions).1 2 ∧
      grouped.averageAttitudeScore
        = toFixed numberToString (InMemory.means JsNum.fin numberToString submissions).2.1 3 ∧
      grouped.averageEducationDifference
        = toFixed numberToString (InMemory.means JsNum.fin numberToString submissions).2.2 2 ∧
      ((∀ sub ∈ submissions, InMemory.converts sub = true) →
        ∃ direct,
          InMemory.statistics JsNum.fin numberToString submissions
            = StatisticsResponse.statistics direct ∧
          direct.totalSubmissions = table.length ∧
          grouped.averageFamilySize = direct.averageFamilySize ∧
          grouped.averageAttitudeScore = direct.averageAttitudeScore ∧
          grouped.averageEducationDifference = direct.averageEducationDifference) := by
  obtain ⟨hlen, hfin, e1, e2, e3⟩ := sameNumbers_lists numberToString submissions table hsame
  have hsub : submissions ≠ [] := by
    intro h
    rw [h] at hlen
    exact hne (List.length_eq_zero.mp hlen.symm)
  have hm : Sqlite.means JsNum.fin (Sqlite.groupRows table)
      = InMemory.means JsNum.fin numberToString submissions := by
    rw [Sqlite.means_groupRows table hne, InMemory.means_eq numberToString submissions hsub hfin,
      e1, e2, e3]
  have hrows : Sqlite.groupRows table ≠ [] := fun h => hne ((Sqlite.groupRows_eq_nil_iff table).mp h)
  refine ⟨hm, Sqlite.means_groupRows table hne, _,
    Sqlite.statistics_of_rows JsNum.fin numberToString _ hrows, ?_, ?_, ?_, ?_, ?_, ?_⟩
  · exact Sqlite.sum_total_groupRows table
  · exact (Sqlite.sum_total_groupRows table).trans hlen.symm
  · simp only [hm]
  · simp only [hm]
  · simp only [hm]
  · intro hconv
    refine ⟨_, InMemory.statistics_of_records JsNum.fin numberToString submissions hsub hconv,
      hlen, ?_, ?_, ?_⟩
    · simp only [hm]
    · simp only [hm]
    · simp only [hm]

/-- C5, at the three example records: grouped by (region, gender) into two
groups, the recombined means are 10/3, 9/20 and -1/3, as in the single pass. -/
theorem grouped_means_eq_single_pass_witness :
    exampleTable ≠ [] ∧
    List.Forall₂ (SameNumbers noNumberText) exampleStore exampleTable ∧
    (Sqlite.groupRows exampleTable).length = 2 ∧
    InMemory.means JsNum.fin noNumberText exampleStore
      = (JsNum.fin (10 / 3), JsNum.fin (9 / 20), JsNum.fin (-1 / 3)) ∧
    Sqlite.means JsNum.fin (Sqlite.groupRows exampleTable)
      = InMemory.means JsNum.fin noNumberText exampleStore := by
  have hne : exampleTable ≠ [] := by decide
  have hsame : List.Forall₂ (SameNumbers noNumberText) exampleStore exampleTable := by
    refine List.Forall₂.cons ?_ (List.Forall₂.cons ?_ (List.Forall₂.cons ?_ List.Forall₂.nil))
    · unfold SameNumbers
      decide!
    · unfold SameNumbers
      decide!
    · unfold SameNumbers
      decide!
  exact ⟨hne, hsame, by decide, by decide!,
    (grouped_means_eq_single_pass noNumberText exampleStore exampleTable hne hsame).1⟩

/-! ## Statistics: the averages in double precision -/

/-- The three totals of the in-memory loop are the sums, in the arithmetic of
the handler, of what it reads from the records. -/
theorem InMemory.totals_sums (round : ℚ → JsNum) (numberToString : ℚ → String)
    (submissions : List JsObj) (t : InMemory.Totals) :
    (submissions.foldl (InMemory.accumulate round numberToString) t).totalFamilySize
      = (submissions.map (InMemory.familySize round numberToString)).foldl
          (fun total x => (total.add x).rounded round) t.totalFamilySize ∧
    (submissions.foldl (InMemory.accumulate round numberToString) t).totalAttitudeScore
      = (submissions.map (InMemory.attitudeScore round numberToString)).foldl
          (fun total x => (total.add x).rounded round) t.totalAttitudeScore ∧
    (submissions.foldl (InMemory.accumulate round numberToString) t).totalEducationDifference
      = (submissions.map (InMemory.educationDifference round numberToString)).foldl
          (fun total x => (total.add x).rounded round) t.totalEducationDifference := by
  induction submissions generalizing t with
  | nil => exact ⟨rfl, rfl, rfl⟩
  | cons sub rest ih =>
    simp only [List.foldl_cons, List.map_cons]
    exact ih (InMemory.accumulate round numberToString t sub)

/-- The three quotients of the in-memory handler are the means, in the
arithmetic of the handler, of what it reads from the records. -/
theorem InMemory.means_eq_meanIn (round : ℚ → JsNum) (numberToString : ℚ → String)
    (submissions : List JsObj) :
    InMemory.means round numberToString submissions
      = (meanIn round (submissions.map (InMemory.familySize round numberToString)),
         meanIn round (submissions.map (InMemory.attitudeScore round numberToString)),
         meanIn round (submissions.map (InMemory.educationDifference round numberToString))) := by
  obtain ⟨h1, h2, h3⟩ := InMemory.totals_sums round numberToString submissions
    InMemory.initialTotals
  simp only [InMemory.means, InMemory.totals, meanIn, sumIn, h1, h2, h3, List.length_map]
  rfl

/-- Below `10^21` in absolute value, `parseFloat` reads from the text of
`toFixed` the number its digits denote. -/
theorem parseFloatChars_toFixed (numberToString : ℚ → String) (m : ℚ) (f : Nat)
    (hm : |m| < 10 ^ 21) :
    parseFloatChars (toFixed numberToString (JsNum.fin m) f).data = JsNum.fin (fixedValue m f) := by
  rw [toFixed_digits numberToString m f hm]
  have h := parseFloatChars_fixedDigits (decide (m < 0)) (roundHalfUp |m| f) f
  unfold fixedValue
  by_cases hneg : m < 0
  · simpa [hneg] using h
  · simpa [hneg] using h

/-- Below `10^21` in absolute value, the text of `toFixed` denotes, as
`parseFloat` reads it, a number within half a unit of the last decimal place
of the number `toFixed` was called on. -/
theorem toFixed_within_half_unit (numberToString : ℚ → String) (x : JsNum) (f : Nat) (m : ℚ)
    (hx : x = JsNum.fin m) (hm : |m| < 10 ^ 21) :
    ∃ v, parseFloatChars (toFixed numberToString x f).data = JsNum.fin v ∧
      |v - m| ≤ 1 / (2 * 10 ^ f) := by
  subst hx
  exact ⟨fixedValue m f, parseFloatChars_toFixed numberToString m f hm, fixedValue_close m f⟩

/-- C6, as stated, fails in double precision: for the two attitude scores
`0.125` and `-1e-30`, which parse as numbers, the sum of the two doubles is
the double `0.125`, its half is `0.0625`, and the handler reports `0.063`,
while the mean of the two scores lies below `0.0625` and so more than half a
unit of the third decimal place away from `0.063`. -/
theorem average_outside_half_unit :
    (∀ sub ∈ attitudeStore, ParsesAsNumbers noNumberText sub) ∧
    (∃ stats,
      InMemory.statistics roundToDouble noNumberText attitudeStore
        = StatisticsResponse.statistics stats ∧
      stats.totalSubmissions = 2 ∧ stats.averageAttitudeScore = "0.063") ∧
    mean (attitudeStore.map (fun s => (attitudeScoreOf noNumberText s).value))
      = 1 / 16 - 1 / (2 * 10 ^ 30) ∧
    mean (attitudeStore.map (fun s => (InMemory.attitudeScore roundToDouble noNumberText s).value))
      < 1 / 16 ∧
    (1 : ℚ) / (2 * 10 ^ 3) < |63 / 1000 - (1 / 16 - 1 / (2 * 10 ^ 30))| := by
  refine ⟨?_, ⟨_, InMemory.statistics_of_records roundToDouble noNumberText attitudeStore
    (by decide) (by decide), rfl, ?_⟩, ?_, ?_, ?_⟩
  · intro sub hsub
    simp only [attitudeStore, List.mem_cons, List.mem_singleton, List.not_mem_nil, or_false]
      at hsub
    rcases hsub with rfl | rfl <;> (unfold ParsesAsNumbers; decide!)
  · decide!
  · decide!
  · decide!
  · decide!

/-- C6 (amended): for a non-empty store whose values can be converted, the
in-memory handler reports the number of records as `totalSubmissions`, and as
the three averages the `toFixed` strings (2, 3 and 2 decimals) of the means,
computed in the arithmetic of the handler (the doubles read from the records,
added from the left, the sum divided by the number of records), of family
size, attitude score and education difference: the division comes first, the
rounding to decimals last. When such a computed mean is finite and below
`10^21`, the reported string denotes (as `parseFloat` reads it) a number
within half a unit of its last decimal place of that computed mean. In exact
arithmetic, and when the numeric fields parse as numbers, the computed means
are the unweighted arithmetic means. -/
theorem statistics_reports_rounded_means (round : ℚ → JsNum) (numberToString : ℚ → String)
    (submissions : List JsObj) (hne : submissions ≠ [])
    (hconv : ∀ sub ∈ submissions, InMemory.converts sub = true) :
    (∃ stats,
      InMemory.statistics round numberToString submissions
        = StatisticsResponse.statistics stats ∧
      stats.totalSubmissions = submissions.length ∧
      stats.averageFamilySize = toFixed numberToString
        (meanIn round (submissions.map (InMemory.familySize round numberToString))) 2 ∧
      stats.averageAttitudeScore = toFixed numberToString
        (meanIn round (submissions.map (InMemory.attitudeScore round numberToString))) 3 ∧
      stats.averageEducationDifference = toFixed numberToString
        (meanIn round (submissions.map (InMemory.educationDifference round numberToString))) 2 ∧
      (∀ m : ℚ,
        meanIn round (submissions.map (InMemory.familySize round numberToString)) = JsNum.fin m →
        |m| < 10 ^ 21 →
        ∃ v, parseFloatChars stats.averageFamilySize.data = JsNum.fin v ∧
          |v - m| ≤ 1 / (2 * 10 ^ 2)) ∧
      (∀ m : ℚ,
        meanIn round (submissions.map (InMemory.attitudeScore round numberToString))
          = JsNum.fin m →
        |m| < 10 ^ 21 →
        ∃ v, parseFloatChars stats.averageAttitudeScore.data = JsNum.fin v ∧
          |v - m| ≤ 1 / (2 * 10 ^ 3)) ∧
      (∀ m : ℚ,
        meanIn round (submissions.map (InMemory.educationDifference round numberToString))
          = JsNum.fin m →
        |m| < 10 ^ 21 →
        ∃ v, parseFloatChars stats.averageEducationDifference.data = JsNum.fin v ∧
          |v - m| ≤ 1 / (2 * 10 ^ 2))) ∧
    ((∀ sub ∈ submissions, ParsesAsNumbers numberToString sub) →
      meanIn JsNum.fin (submissions.map (InMemory.familySize JsNum.fin numberToString))
        = JsNum.fin (mean (submissions.map (fun s => (familySizeOf numberToString s).value))) ∧
      meanIn JsNum.fin (submissions.map (InMemory.attitudeScore JsNum.fin numberToString))
        = JsNum.fin (mean (submissions.map (fun s => (attitudeScoreOf numberToString s).value))) ∧
      meanIn JsNum.fin (submissions.map (InMemory.educationDifference JsNum.fin numberToString))
        = JsNum.fin (mean (submissions.map (educationDifferenceOf numberToString)))) := by
  have hm := InMemory.means_eq_meanIn round numberToString submissions
  refine ⟨⟨_, InMemory.statistics_of_records round numberToString submissions hne hconv, rfl,
    ?_, ?_, ?_, ?_, ?_, ?_⟩, ?_⟩
  · simp only [hm]
  · simp only [hm]
  · simp only [hm]
  · intro m hmean hbound
    exact toFixed_within_half_unit numberToString _ 2 m
      ((congrArg Prod.fst hm).trans hmean) hbound
  · intro m hmean hbound
    exact toFixed_within_half_unit numberToString _ 3 m
      ((congrArg (fun p => p.2.1) hm).trans hmean) hbound
  · intro m hmean hbound
    exact toFixed_within_half_unit numberToString _ 2 m
      ((congrArg (fun p => p.2.2) hm).trans hmean) hbound
  · intro hfin
    have h := InMemory.means_eq numberToString submissions hne hfin
    rw [InMemory.means_eq_meanIn] at h
    exact ⟨congrArg Prod.fst h, congrArg (fun p => p.2.1) h, congrArg (fun p => p.2.2) h⟩

/-- C6 (amended), at the store holding the one record of the scenario, in
double precision: one submission, family size `3.00`, attitude score `0.450`
(the double nearest to 0.45 lies within half a thousandth of it), education
difference `2.00`. -/
theorem statistics_reports_rounded_means_witness :
    ∃ stats,
      InMemory.statistics roundToDouble noNumberText
          [InMemory.makeSubmission 1700000000000 "2023-11-14T22:13:20.000Z" scenarioBody]
        = StatisticsResponse.statistics stats ∧
      stats.totalSubmissions = 1 ∧
      stats.averageFamilySize = "3.00" ∧
      stats.averageAttitudeScore = "0.450" ∧
      stats.averageEducationDifference = "2.00" := by
  obtain ⟨⟨stats, hs, h0, h1, h2, h3, _⟩, _⟩ := statistics_reports_rounded_means roundToDouble
    noNumberText
    [InMemory.makeSubmission 1700000000000 "2023-11-14T22:13:20.000Z" scenarioBody]
    (by decide) (by decide)
  refine ⟨stats, hs, h0, ?_, ?_, ?_⟩
  · rw [h1]; decide!
  · rw [h2]; decide!
  · rw [h3]; decide!

/-- C7, as stated, fails on the in-memory variant: the scenario body whose
region is an object without a primitive value is accepted and stored, and for
the store of this one record the handler answers neither `No submissions yet`
nor a statistics object but the 500 `Internal server error` of its `catch`. -/
theorem statistics_fails_on_stored_object :
    (InMemory.submitData 1700000000000 "2023-11-14T22:13:20.000Z" noPrimitiveRegionBody []).1.status
      = 200 ∧
    (InMemory.submitData 1700000000000 "2023-11-14T22:13:20.000Z" noPrimitiveRegionBody []).2
      = [InMemory.makeSubmission 1700000000000 "2023-11-14T22:13:20.000Z"
          noPrimitiveRegionBody] ∧
    [InMemory.makeSubmission 1700000000000 "2023-11-14T22:13:20.000Z" noPrimitiveRegionBody]
      ≠ [] ∧
    InMemory.statistics roundToDouble noNumberText
        [InMemory.makeSubmission 1700000000000 "2023-11-14T22:13:20.000Z" noPrimitiveRegionBody]
      = StatisticsResponse.failure "Internal server error" := by
  refine ⟨by decide, by decide, by decide, by decide⟩

/-- C7 (amended): the in-memory handler, and the SQLite handler over the group
rows of a table, give the `No submissions yet` answer exactly when there is no
record. With at least one record the SQLite handler gives a statistics object
whose `totalSubmissions` is at least one, and so does the in-memory handler
when it can convert the stored values; when a stored value has no primitive
value it answers 500, which is neither of the two. -/
theorem statistics_no_data_iff_empty (round : ℚ → JsNum) (numberToString : ℚ → String)
    (submissions : List JsObj) (table : List Sqlite.Row) :
    (InMemory.statistics round numberToString submissions = StatisticsResponse.noSubmissions
      ↔ submissions = []) ∧
    (submissions ≠ [] → (∀ sub ∈ submissions, InMemory.converts sub = true) → ∃ stats,
      InMemory.statistics round numberToString submissions
        = StatisticsResponse.statistics stats ∧
      1 ≤ stats.totalSubmissions) ∧
    ((∃ sub ∈ submissions, InMemory.converts sub = false) →
      InMemory.statistics round numberToString submissions
        = StatisticsResponse.failure "Internal server error") ∧
    (Sqlite.statistics round numberToString (Except.ok (Sqlite.groupRows table))
        = StatisticsResponse.noSubmissions
      ↔ table = []) ∧
    (table ≠ [] → ∃ stats,
      Sqlite.statistics round numberToString (Except.ok (Sqlite.groupRows table))
        = StatisticsResponse.statistics stats ∧
      1 ≤ stats.totalSubmissions) := by
  refine ⟨?_, ?_, ?_, ?_, ?_⟩
  · constructor
    · intro h
      by_contra hne
      by_cases hconv : ∀ sub ∈ submissions, InMemory.converts sub = true
      · rw [InMemory.statistics_of_records round numberToString submissions hne hconv] at h
        exact StatisticsResponse.noConfusion h
      · have hex : ∃ sub ∈ submissions, InMemory.converts sub = false := by
          by_contra hno
          apply hconv
          intro sub hsub
          by_contra hc
          exact hno ⟨sub, hsub, by simpa using hc⟩
        rw [InMemory.statistics_of_unconverted round numberToString submissions hex] at h
        exact StatisticsResponse.noConfusion h
    · intro h
      subst h
      rfl
  · intro hne hconv
    exact ⟨_, InMemory.statistics_of_records round numberToString submissions hne hconv,
      List.length_pos.mpr hne⟩
  · exact InMemory.statistics_of_unconverted round numberToString submissions
  · constructor
    · intro h
      by_contra hne
      have hrows : Sqlite.groupRows table ≠ [] :=
        fun h => hne ((Sqlite.groupRows_eq_nil_iff table).mp h)
      rw [Sqlite.statistics_of_rows round numberToString _ hrows] at h
      exact StatisticsResponse.noConfusion h
    · intro h
      subst h
      rfl
  · intro hne
    have hrows : Sqlite.groupRows table ≠ [] :=
      fun h => hne ((Sqlite.groupRows_eq_nil_iff table).mp h)
    refine ⟨_, Sqlite.statistics_of_rows round numberToString _ hrows, ?_⟩
    show 1 ≤ ((Sqlite.groupRows table).map (fun r => r.total)).sum
    rw [Sqlite.sum_total_groupRows]
    exact List.length_pos.mpr hne

/-- C7 (amended), at the empty store and table, at the three example records,
and at the store of one record whose attitude score is an object without a
primitive value. -/
theorem statistics_no_data_iff_empty_witness :
    InMemory.statistics roundToDouble noNumberText [] = StatisticsResponse.noSubmissions ∧
    Sqlite.statistics roundToDouble noNumberText (Except.ok (Sqlite.groupRows []))
      = StatisticsResponse.noSubmissions ∧
    (∃ stats, InMemory.statistics roundToDouble noNumberText exampleStore
        = StatisticsResponse.statistics stats ∧
      1 ≤ stats.totalSubmissions) ∧
    (∃ stats, Sqlite.statistics roundToDouble noNumberText
          (Except.ok (Sqlite.groupRows exampleTable))
        = StatisticsResponse.statistics stats ∧ 1 ≤ stats.totalSubmissions) ∧
    InMemory.statistics roundToDouble noNumberText
        [scenarioWith "attitude-score" JsVal.noPrimitive]
      = StatisticsResponse.failure "Internal server error" :=
  ⟨(statistics_no_data_iff_empty roundToDouble noNumberText [] []).1.mpr rfl,
   (statistics_no_data_iff_empty roundToDouble noNumberText [] []).2.2.2.1.mpr rfl,
   (statistics_no_data_iff_empty roundToDouble noNumberText exampleStore exampleTable).2.1
     (by decide) (by decide),
   (statistics_no_data_iff_empty roundToDouble noNumberText exampleStore exampleTable).2.2.2.2
     (by decide),
   (statistics_no_data_iff_empty roundToDouble noNumberText
     [scenarioWith "attitude-score" JsVal.noPrimitive] []).2.2.1
     ⟨scenarioWith "attitude-score" JsVal.noPrimitive, List.mem_singleton.mpr rfl, by decide⟩⟩

/-! ## Statistics: counts per gender and per region -/

theorem sum_map_indicator {α : Type} (p : α → Bool) (l : List α) :
    (l.map (fun a => if p a = true then 1 else 0)).sum = l.countP p := by
  induction l with
  | nil => simp
  | cons a rest ih =>
    rw [List.map_cons, List.sum_cons, ih, List.countP_cons]
    by_cases h : p a = true
    · simp [h, add_comm]
    · simp [h]

/-- Over the group rows of a table, the counts of the groups whose key
satisfies a condition add up to the number of rows of the table that satisfy
it. -/
theorem Sqlite.sum_total_groupRows_of (p : String × String → Bool) (table : List Sqlite.Row) :
    ((Sqlite.groupRows table).map
        (fun row => if p (row.region, row.firstborn_gender) = true then row.total else 0)).sum
      = table.countP (fun r => p (r.region, r.firstborn_gender)) := by
  rw [← sum_map_indicator, ← sum_dedup_groups_eq_sum
    (fun r : Sqlite.Row => (r.region, r.firstborn_gender))
    (fun r => if p (r.region, r.firstborn_gender) = true then 1 else 0) table]
  unfold Sqlite.groupRows
  rw [List.map_map]
  apply congrArg
  apply List.map_congr_left
  intro key _
  simp only [Function.comp_apply]
  have hconst : ∀ r ∈ table.filter (fun r => (r.region, r.firstborn_gender) = key),
      (if p (r.region, r.firstborn_gender) = true then 1 else 0)
        = (if p key = true then 1 else 0) := by
    intro r hr
    rw [List.mem_filter] at hr
    have : (r.region, r.firstborn_gender) = key := by simpa using hr.2
    rw [this]
  rw [List.map_congr_left hconst]
  by_cases hp : p key = true
  · simp [hp]
  · simp [hp]

theorem getOwn_assignProp_of_ne {β : Type} (k : String) (v : β) (o : List (String × β))
    (k' : String) (h : k' ≠ k) :
    getOwn (assignProp k v o) k' = getOwn o k' := by
  unfold assignProp
  cases hk : getOwn o k with
  | none =>
    by_cases hp : k = "__proto__"
    · simp [hp]
    · simp only [hp, if_false]
      rw [getOwn_insertNew k v o k' hk]
      simp [h]
  | some w => simp [getOwn_replaceOwn, h]

theorem getOwn_incrementProp_of_ne (key : String) (g : List (String × JsNum)) (k : String)
    (h : k ≠ key) : getOwn (incrementProp key g) k = getOwn g k := by
  unfold incrementProp
  cases hk : getOwn g key with
  | none => exact getOwn_assignProp_of_ne key _ g k h
  | some n => simp [getOwn_replaceOwn, h]

theorem getOwn_incrementProp_self (key : String) (g : List (String × JsNum)) (n : JsNum)
    (h : getOwn g key = some n) :
    getOwn (incrementProp key g) key = some (n.add (JsNum.fin 1)) := by
  unfold incrementProp
  simp [h, getOwn_replaceOwn]

/-- In the in-memory loop, a key that `genderDistribution` holds with a finite
count from the start ends with that count plus the number of records counted
under the key. -/
theorem InMemory.single_pass_gender (round : ℚ → JsNum) (numberToString : ℚ → String)
    (k : String)
    (submissions : List JsObj) (t : InMemory.Totals) (a : Nat)
    (h : getOwn t.genderDistribution k = some (JsNum.fin a)) :
    getOwn (submissions.foldl (InMemory.accumulate round numberToString) t).genderDistribution k
      = some (JsNum.fin ((a + submissions.countP (fun s => genderKeyOf numberToString s = k) : Nat))) := by
  induction submissions generalizing t a with
  | nil => simpa using h
  | cons sub rest ih =>
    rw [List.foldl_cons, List.countP_cons]
    by_cases hk : genderKeyOf numberToString sub = k
    · have hstep : getOwn (InMemory.accumulate round numberToString t sub).genderDistribution k
          = some (JsNum.fin ((a + 1 : Nat))) := by
        show getOwn (incrementProp (genderKeyOf numberToString sub) t.genderDistribution) k = _
        rw [hk, getOwn_incrementProp_self k _ _ h, JsNum.add_fin_fin]
        push_cast
        rfl
      rw [ih _ _ hstep]
      simp [hk]
      ring
    · have hstep : getOwn (InMemory.accumulate round numberToString t sub).genderDistribution k
          = some (JsNum.fin a) := by
        show getOwn (incrementProp (genderKeyOf numberToString sub) t.genderDistribution) k = _
        rw [getOwn_incrementProp_of_ne _ _ _ (fun h' => hk h'.symm), h]
      rw [ih _ _ hstep]
      simp [hk]

theorem getOwn_addToProp (key : String) (n : Nat) (g : List (String × JsNum)) (k : String)
    (x : JsNum) (h : getOwn g key = some x) :
    getOwn (Sqlite.addToProp key n g) k
      = if k = key then some (x.add (JsNum.fin n)) else getOwn g k := by
  unfold Sqlite.addToProp
  simp [h, getOwn_replaceOwn]

/-- In the SQLite loop, `male` collects the counts of the rows whose gender is
`male` and `female` the counts of all other rows. -/
theorem Sqlite.recombined_gender (round : ℚ → JsNum) (rows : List Sqlite.GroupRow)
    (t : Sqlite.Totals)
    (a b : Nat)
    (ha : getOwn t.genderDistribution "male" = some (JsNum.fin a))
    (hb : getOwn t.genderDistribution "female" = some (JsNum.fin b)) :
    getOwn (rows.foldl (Sqlite.accumulate round) t).genderDistribution "male"
      = some (JsNum.fin ((a + (rows.map (fun row =>
          if (fun key : String × String => decide (key.2 = "male"))
            (row.region, row.firstborn_gender) = true then row.total else 0)).sum : Nat))) ∧
    getOwn (rows.foldl (Sqlite.accumulate round) t).genderDistribution "female"
      = some (JsNum.fin ((b + (rows.map (fun row =>
          if (fun key : String × String => decide (key.2 ≠ "male"))
            (row.region, row.firstborn_gender) = true then row.total else 0)).sum : Nat))) := by
  induction rows generalizing t a b with
  | nil => simpa using ⟨ha, hb⟩
  | cons row rest ih =>
    rw [List.foldl_cons]
    by_cases hg : row.firstborn_gender = "male"
    · have h1 : getOwn (Sqlite.accumulate round t row).genderDistribution "male"
          = some (JsNum.fin ((a + row.total : Nat))) := by
        show getOwn (if row.firstborn_gender = "male" then _ else _) "male" = _
        rw [if_pos hg, getOwn_addToProp _ _ _ _ _ ha, if_pos rfl, JsNum.add_fin_fin]
        push_cast
        rfl
      have h2 : getOwn (Sqlite.accumulate round t row).genderDistribution "female"
          = some (JsNum.fin b) := by
        show getOwn (if row.firstborn_gender = "male" then _ else _) "female" = _
        rw [if_pos hg, getOwn_addToProp _ _ _ _ _ ha, if_neg (by decide), hb]
      obtain ⟨i1, i2⟩ := ih _ _ _ h1 h2
      rw [i1, i2]
      simp [hg, add_assoc]
    · have h1 : getOwn (Sqlite.accumulate round t row).genderDistribution "male"
          = some (JsNum.fin a) := by
        show getOwn (if row.firstborn_gender = "male" then _ else _) "male" = _
        rw [if_neg hg, getOwn_addToProp _ _ _ _ _ hb, if_neg (by decide), ha]
      have h2 : getOwn (Sqlite.accumulate round t row).genderDistribution "female"
          = some (JsNum.fin ((b + row.total : Nat))) := by
        show getOwn (if row.firstborn_gender = "male" then _ else _) "female" = _
        rw [if_neg hg, getOwn_addToProp _ _ _ _ _ hb, if_pos rfl, JsNum.add_fin_fin]
        push_cast
        rfl
      obtain ⟨i1, i2⟩ := ih _ _ _ h1 h2
      rw [i1, i2]
      simp [hg, add_assoc]

/-- C8, as stated, fails in both handlers: for one record whose gender is
`other`, the in-memory handler stores `NaN` under `other`, and the SQLite
handler has no entry `other` and counts the record under `female`. -/
theorem genderDistribution_other_not_counted :
    InMemory.statistics roundToDouble noNumberText
        [InMemory.makeSubmission 1700000000000 "2023-11-14T22:13:20.000Z"
          (scenarioWith "firstborn-gender" (JsVal.str "other"))]
      = StatisticsResponse.statistics
          { totalSubmissions := 1,
            regions := [("British", JsVal.num (JsNum.fin 1))],
            averageFamilySize := "3.00",
            genderDistribution :=
              [("male", JsNum.fin 0), ("female", JsNum.fin 0), ("other", JsNum.nan)],
            averageAttitudeScore := "0.450",
            averageEducationDifference := "2.00" } ∧
    Sqlite.statistics roundToDouble noNumberText (Except.ok (Sqlite.groupRows otherGenderTable))
      = StatisticsResponse.statistics
          { totalSubmissions := 1,
            regions := [("British", JsVal.num (JsNum.fin 1))],
            averageFamilySize := "3.00",
            genderDistribution := [("male", JsNum.fin 0), ("female", JsNum.fin 1)],
            averageAttitudeScore := "0.450",
            averageEducationDifference := "2.00" } := by
  constructor
  · decide!
  · decide!

/-- C8 (amended): for every non-empty list of records whose values the loop
can convert (for the others it answers 500), the in-memory handler reports
under `male` and under `female` the number of records counted under that key;
the SQLite handler reports under `male` the number of rows whose gender is
`male` and under `female` the number of all other rows, which is the number of
`female` rows when every row is `male` or `female`. -/
theorem genderDistribution_counts_male_female (round : ℚ → JsNum)
    (numberToString : ℚ → String) :
    (∀ submissions : List JsObj, submissions ≠ [] →
      (∀ sub ∈ submissions, InMemory.converts sub = true) →
      ∃ stats,
        InMemory.statistics round numberToString submissions = StatisticsResponse.statistics stats ∧
        getOwn stats.genderDistribution "male"
          = some (JsNum.fin (submissions.countP
              (fun s => genderKeyOf numberToString s = "male") : Nat)) ∧
        getOwn stats.genderDistribution "female"
          = some (JsNum.fin (submissions.countP
              (fun s => genderKeyOf numberToString s = "female") : Nat))) ∧
    (∀ table : List Sqlite.Row, table ≠ [] →
      ∃ stats,
        Sqlite.statistics round numberToString (Except.ok (Sqlite.groupRows table))
          = StatisticsResponse.statistics stats ∧
        getOwn stats.genderDistribution "male"
          = some (JsNum.fin (table.countP (fun r => r.firstborn_gender = "male") : Nat)) ∧
        getOwn stats.genderDistribution "female"
          = some (JsNum.fin (table.countP (fun r => r.firstborn_gender ≠ "male") : Nat)) ∧
        ((∀ r ∈ table, r.firstborn_gender = "male" ∨ r.firstborn_gender = "female") →
          getOwn stats.genderDistribution "female"
            = some (JsNum.fin (table.countP (fun r => r.firstborn_gender = "female") : Nat)))) := by
  constructor
  · intro submissions hne hconv
    refine ⟨_, InMemory.statistics_of_records round numberToString submissions hne hconv, ?_, ?_⟩
    · have := InMemory.single_pass_gender round numberToString "male" submissions
        InMemory.initialTotals 0 (by simp [InMemory.initialTotals, getOwn])
      simpa [InMemory.totals] using this
    · have := InMemory.single_pass_gender round numberToString "female" submissions
        InMemory.initialTotals 0 (by simp [InMemory.initialTotals, getOwn])
      simpa [InMemory.totals] using this
  · intro table hne
    have hrows : Sqlite.groupRows table ≠ [] :=
      fun h => hne ((Sqlite.groupRows_eq_nil_iff table).mp h)
    obtain ⟨h1, h2⟩ := Sqlite.recombined_gender round (Sqlite.groupRows table)
      Sqlite.initialTotals 0 0 (by simp [Sqlite.initialTotals, getOwn])
      (by simp [Sqlite.initialTotals, getOwn])
    rw [Sqlite.sum_total_groupRows_of (fun key : String × String => decide (key.2 = "male"))
      table] at h1
    rw [Sqlite.sum_total_groupRows_of (fun key : String × String => decide (key.2 ≠ "male"))
      table] at h2
    have hmale : getOwn (Sqlite.totals round (Sqlite.groupRows table)).genderDistribution "male"
        = some (JsNum.fin (table.countP (fun r => r.firstborn_gender = "male") : Nat)) := by
      simpa [Sqlite.totals] using h1
    have hfemale : getOwn (Sqlite.totals round (Sqlite.groupRows table)).genderDistribution "female"
        = some (JsNum.fin (table.countP (fun r => r.firstborn_gender ≠ "male") : Nat)) := by
      simpa [Sqlite.totals] using h2
    refine ⟨_, Sqlite.statistics_of_rows round numberToString _ hrows, hmale, hfemale, ?_⟩
    intro hall
    show getOwn (Sqlite.totals round (Sqlite.groupRows table)).genderDistribution "female" = _
    rw [hfemale]
    have : table.countP (fun r => decide (r.firstborn_gender ≠ "male"))
        = table.countP (fun r => decide (r.firstborn_gender = "female")) := by
      apply List.countP_congr
      intro r hr
      rcases hall r hr with h | h
      · simp [h]
      · simp [h]
    rw [this]

/-- C8 (amended), at the three example records: one `male`, two `female`, in
both handlers. -/
theorem genderDistribution_counts_male_female_witness :
    (∃ stats,
      InMemory.statistics roundToDouble noNumberText exampleStore = StatisticsResponse.statistics stats ∧
      getOwn stats.genderDistribution "male" = some (JsNum.fin 1) ∧
      getOwn stats.genderDistribution "female" = some (JsNum.fin 2)) ∧
    (∃ stats,
      Sqlite.statistics roundToDouble noNumberText (Except.ok (Sqlite.groupRows exampleTable))
        = StatisticsResponse.statistics stats ∧
      getOwn stats.genderDistribution "male" = some (JsNum.fin 1) ∧
      getOwn stats.genderDistribution "female" = some (JsNum.fin 2)) := by
  have h := genderDistribution_counts_male_female roundToDouble noNumberText
  obtain ⟨s1, e1, m1, f1⟩ := h.1 exampleStore (by decide) (by decide)
  obtain ⟨s2, e2, m2, _, f2⟩ := h.2 exampleTable (by decide)
  have c1 : exampleStore.countP (fun s => genderKeyOf noNumberText s = "male") = 1 := by decide
  have c2 : exampleStore.countP (fun s => genderKeyOf noNumberText s = "female") = 2 := by decide
  have c3 : exampleTable.countP (fun r => r.firstborn_gender = "male") = 1 := by decide
  have c4 : exampleTable.countP (fun r => r.firstborn_gender = "female") = 2 := by decide
  have hall : ∀ r ∈ exampleTable, r.firstborn_gender = "male" ∨ r.firstborn_gender = "female" := by
    decide
  have f2' := f2 hall
  rw [c1] at m1
  rw [c2] at f1
  rw [c3] at m2
  rw [c4] at f2'
  exact ⟨⟨s1, e1, by simpa using m1, by simpa using f1⟩,
    ⟨s2, e2, by simpa using m2, by simpa using f2'⟩⟩

theorem getInherited_eq_none (l : List (String × String)) (k : String)
    (h : k ∉ l.map Prod.fst) : getInherited l k = none := by
  induction l with
  | nil => rfl
  | cons p rest ih =>
    rw [List.map_cons, List.mem_cons, not_or] at h
    have hp : ¬ p.1 = k := fun h' => h.1 h'.symm
    simp only [getInherited, hp, if_false]
    exact ih h.2

theorem getProp_of_not_inherited (o : JsObj) (k : String) (h : k ∉ objectPrototypeKeys) :
    getProp o k = (getOwn o k).getD JsVal.undefined := by
  unfold getProp
  cases getOwn o k with
  | none => simp [getInherited_eq_none objectPrototype k h]
  | some v => rfl

theorem ne_proto_of_not_inherited (k : String) (h : k ∉ objectPrototypeKeys) :
    k ≠ "__proto__" := by
  intro hk
  subst hk
  exact h (by decide)

theorem countEntry_succ (n : Nat) : countEntry (n + 1) = some (JsVal.num (JsNum.fin ((n + 1 : Nat)))) := by
  simp [countEntry]

/-- One pass of the in-memory loop on the object `regions`: the count of the
record's key grows by one, the other keys stay. -/
theorem regions_step (regions : JsObj) (key : String) (hkey : key ∉ objectPrototypeKeys)
    (n : Nat) (h : getOwn regions key = countEntry n) (k : String) :
    getOwn (assignProp key
        (addCount (if truthy (getProp regions key) then getProp regions key
          else JsVal.num (JsNum.fin 0)) 1) regions) k
      = if k = key then countEntry (n + 1) else getOwn regions k := by
  rw [getOwn_assignProp key _ regions k (ne_proto_of_not_inherited key hkey)]
  by_cases hk : k = key
  · simp only [hk, if_true]
    rw [getProp_of_not_inherited regions key hkey, h, countEntry_succ]
    cases n with
    | zero => simp [countEntry, truthy, addCount, JsNum.add]
    | succ m =>
      have hne : ((m + 1 : Nat) : ℚ) ≠ 0 := Nat.cast_ne_zero.mpr (Nat.succ_ne_zero m)
      have hne' : (m : ℚ) + 1 ≠ 0 := by exact_mod_cast hne
      simp [countEntry, truthy, JsNum.truthy, addCount, JsNum.add, hne']
  · simp [hk]

/-- One pass of the SQLite loop on the object `regions`: the count of the
row's region grows by the row's count, the other keys stay. -/
theorem Sqlite.regions_add_row (regions : JsObj) (key : String)
    (hkey : key ∉ objectPrototypeKeys) (n m : Nat) (hm : 1 ≤ m)
    (h : getOwn regions key = countEntry n) (k : String) :
    getOwn (assignProp key
        (addCount (getProp (if (!truthy (getProp regions key)) = true then
            assignProp key (JsVal.num (JsNum.fin 0)) regions else regions) key) m)
        (if (!truthy (getProp regions key)) = true then
            assignProp key (JsVal.num (JsNum.fin 0)) regions else regions)) k
      = if k = key then countEntry (n + m) else getOwn regions k := by
  have hproto := ne_proto_of_not_inherited key hkey
  have hnm : n + m ≠ 0 := by omega
  cases n with
  | zero =>
    have hown : getOwn regions key = none := by simpa [countEntry] using h
    have hfalsy : (!truthy (getProp regions key)) = true := by
      rw [getProp_of_not_inherited regions key hkey, hown]
      rfl
    rw [if_pos hfalsy, getOwn_assignProp key _ _ k hproto]
    by_cases hk : k = key
    · simp only [hk, if_true]
      rw [getProp_of_not_inherited _ key hkey, getOwn_assignProp key _ regions key hproto]
      have hm0 : m ≠ 0 := by omega
      simp [countEntry, addCount, JsNum.add, hm0]
    · simp only [hk, if_false]
      rw [getOwn_assignProp key _ regions k hproto]
      simp [hk]
  | succ j =>
    have hne : ((j + 1 : Nat) : ℚ) ≠ 0 := Nat.cast_ne_zero.mpr (Nat.succ_ne_zero j)
    have hne' : (j : ℚ) + 1 ≠ 0 := by exact_mod_cast hne
    have hown : getOwn regions key = some (JsVal.num (JsNum.fin ((j + 1 : Nat)))) := by
      rw [h, countEntry_succ]
    have htruthy : ¬ (!truthy (getProp regions key)) = true := by
      rw [getProp_of_not_inherited regions key hkey, hown]
      simp [truthy, JsNum.truthy, hne']
    rw [if_neg htruthy, getOwn_assignProp key _ _ k hproto]
    by_cases hk : k = key
    · simp only [hk, if_true]
      rw [getProp_of_not_inherited _ key hkey, hown]
      simp [countEntry, addCount, JsNum.add, hnm]
    · simp [hk]

/-- After the in-memory loop, `regions` holds under every key the number of
records counted under it. -/
theorem InMemory.single_pass_regions (round : ℚ → JsNum) (numberToString : ℚ → String)
    (submissions : List JsObj)
    (hkeys : ∀ sub ∈ submissions, regionKeyOf numberToString sub ∉ objectPrototypeKeys)
    (t : InMemory.Totals) (c : String → Nat)
    (h : ∀ k, getOwn t.regions k = countEntry (c k)) (k : String) :
    getOwn (submissions.foldl (InMemory.accumulate round numberToString) t).regions k
      = countEntry (c k + submissions.countP (fun s => regionKeyOf numberToString s = k)) := by
  induction submissions generalizing t c with
  | nil => simpa using h k
  | cons sub rest ih =>
    rw [List.foldl_cons, List.countP_cons]
    have hsub := hkeys sub (List.mem_cons_self _ _)
    have hrest : ∀ s ∈ rest, regionKeyOf numberToString s ∉ objectPrototypeKeys :=
      fun s hs => hkeys s (List.mem_cons_of_mem _ hs)
    have hstep : ∀ k', getOwn (InMemory.accumulate round numberToString t sub).regions k'
        = countEntry ((fun k'' => c k'' + if regionKeyOf numberToString sub = k'' then 1 else 0) k') := by
      intro k'
      have := regions_step t.regions (regionKeyOf numberToString sub) hsub
        (c (regionKeyOf numberToString sub)) (h _) k'
      refine this.trans ?_
      by_cases hk' : k' = regionKeyOf numberToString sub
      · simp [hk']
      · have hk'' : ¬ regionKeyOf numberToString sub = k' := fun h' => hk' h'.symm
        simp [hk', hk'', h k']
    rw [ih hrest _ _ hstep]
    congr 1
    by_cases hk : regionKeyOf numberToString sub = k
    · simp [hk]
      omega
    · simp [hk]

/-- After the SQLite loop, `regions` holds under every region the sum of the
counts of the rows of that region. -/
theorem Sqlite.recombined_regions (round : ℚ → JsNum) (rows : List Sqlite.GroupRow)
    (hkeys : ∀ row ∈ rows, row.region ∉ objectPrototypeKeys)
    (hpos : ∀ row ∈ rows, 1 ≤ row.total)
    (t : Sqlite.Totals) (c : String → Nat)
    (h : ∀ k, getOwn t.regions k = countEntry (c k)) (k : String) :
    getOwn (rows.foldl (Sqlite.accumulate round) t).regions k
      = countEntry (c k + (rows.map (fun row =>
          if (fun key : String × String => decide (key.1 = k))
            (row.region, row.firstborn_gender) = true then row.total else 0)).sum) := by
  induction rows generalizing t c with
  | nil => simpa using h k
  | cons row rest ih =>
    rw [List.foldl_cons, List.map_cons, List.sum_cons]
    have hrow := hkeys row (List.mem_cons_self _ _)
    have hrest : ∀ r ∈ rest, r.region ∉ objectPrototypeKeys :=
      fun r hr => hkeys r (List.mem_cons_of_mem _ hr)
    have hposrest : ∀ r ∈ rest, 1 ≤ r.total :=
      fun r hr => hpos r (List.mem_cons_of_mem _ hr)
    have hstep : ∀ k', getOwn (Sqlite.accumulate round t row).regions k'
        = countEntry ((fun k'' => c k'' + if row.region = k'' then row.total else 0) k') := by
      intro k'
      have := Sqlite.regions_add_row t.regions row.region hrow (c row.region) row.total
        (hpos row (List.mem_cons_self _ _)) (h _) k'
      refine this.trans ?_
      by_cases hk' : k' = row.region
      · simp [hk']
      · have hk'' : ¬ row.region = k' := fun h' => hk' h'.symm
        simp [hk', hk'', h k']
    rw [ih hrest hposrest _ _ hstep]
    congr 1
    by_cases hk : row.region = k
    · simp [hk, add_assoc]
    · simp [hk]

theorem Sqlite.groupRows_row (table : List Sqlite.Row) (row : Sqlite.GroupRow)
    (h : row ∈ Sqlite.groupRows table) :
    1 ≤ row.total ∧ ∃ r ∈ table, r.region = row.region := by
  unfold Sqlite.groupRows at h
  rw [List.mem_map] at h
  obtain ⟨key, hkey, hrow⟩ := h
  rw [List.mem_dedup, List.mem_map] at hkey
  obtain ⟨r, hr, hrkey⟩ := hkey
  subst hrow
  refine ⟨?_, r, hr, ?_⟩
  · show 1 ≤ (table.filter (fun x => (x.region, x.firstborn_gender) = key)).length
    apply List.length_pos.mpr
    apply List.ne_nil_of_mem
    exact List.mem_filter.mpr ⟨hr, by simpa using hrkey⟩
  · show r.region = key.1
    rw [← hrkey]

theorem count_map_eq_countP {α β : Type} [DecidableEq β] (f : α → β) (l : List α) (v : β) :
    (l.map f).count v = l.countP (fun a => f a = v) := by
  induction l with
  | nil => rfl
  | cons a rest ih =>
    rw [List.map_cons, List.count_cons, List.countP_cons, ih]
    by_cases h : f a = v
    · simp [h]
    · simp [h]

theorem Mongo.mem_groupCount (field : String) (collection : List JsObj) (v : JsVal) (n : Nat) :
    (v, n) ∈ Mongo.groupCount field collection ↔
      1 ≤ n ∧ n = collection.countP (fun doc => getProp doc field = v) := by
  unfold Mongo.groupCount
  simp only [List.mem_map, List.mem_dedup, Prod.mk.injEq]
  rw [← count_map_eq_countP (fun doc => getProp doc field) collection v]
  constructor
  · rintro ⟨w, hw, hwv, hn⟩
    subst hwv
    subst hn
    exact ⟨List.count_pos_iff.mpr (List.mem_map.mpr hw), rfl⟩
  · rintro ⟨hpos, hn⟩
    subst hn
    have := List.count_pos_iff.mp hpos
    rw [List.mem_map] at this
    exact ⟨v, this, rfl, rfl⟩

/-- C9, as stated, fails for the in-memory and SQLite handlers: over the three
example records, of which one is from `British` and two are from `Other`, the
object `regions` enumerates `British: 1` before `Other: 2`. -/
theorem regions_not_descending :
    InMemory.statistics roundToDouble noNumberText exampleStore
      = StatisticsResponse.statistics
          { totalSubmissions := 3,
            regions := [("British", JsVal.num (JsNum.fin 1)), ("Other", JsVal.num (JsNum.fin 2))],
            averageFamilySize := "3.33",
            genderDistribution := [("male", JsNum.fin 1), ("female", JsNum.fin 2)],
            averageAttitudeScore := "0.450",
            averageEducationDifference := "-0.33" } ∧
    Sqlite.statistics roundToDouble noNumberText (Except.ok (Sqlite.groupRows exampleTable))
      = StatisticsResponse.statistics
          { totalSubmissions := 3,
            regions := [("British", JsVal.num (JsNum.fin 1)), ("Other", JsVal.num (JsNum.fin 2))],
            averageFamilySize := "3.33",
            genderDistribution := [("male", JsNum.fin 1), ("female", JsNum.fin 2)],
            averageAttitudeScore := "0.450",
            averageEducationDifference := "-0.33" } ∧
    ¬ ((2 : ℚ) ≤ 1) := by
  refine ⟨by decide!, by decide!, by norm_num⟩

/-- C9 (amended): for every non-empty list of records whose region keys are
not names inherited from `Object.prototype` (and, in the in-memory variant,
whose values the loop can convert: for the others it answers 500), the object
`regions` of the in-memory handler and of the SQLite handler holds under each
region the number of records with that region (and no entry for a region
without records); no order by count is established there. The MongoDB
pipeline `regionStats` gives one entry per region with the number of
documents of that region, in non-increasing order of the counts. -/
theorem regions_counts_records (round : ℚ → JsNum) (numberToString : ℚ → String) :
    (∀ submissions : List JsObj, submissions ≠ [] →
      (∀ sub ∈ submissions, InMemory.converts sub = true) →
      (∀ sub ∈ submissions, regionKeyOf numberToString sub ∉ objectPrototypeKeys) →
      ∃ stats,
        InMemory.statistics round numberToString submissions = StatisticsResponse.statistics stats ∧
        ∀ k, getOwn stats.regions k
          = countEntry (submissions.countP (fun s => regionKeyOf numberToString s = k))) ∧
    (∀ table : List Sqlite.Row, table ≠ [] →
      (∀ r ∈ table, r.region ∉ objectPrototypeKeys) →
      ∃ stats,
        Sqlite.statistics round numberToString (Except.ok (Sqlite.groupRows table))
          = StatisticsResponse.statistics stats ∧
        ∀ k, getOwn stats.regions k = countEntry (table.countP (fun r => r.region = k))) ∧
    (∀ collection : List JsObj,
      (Mongo.regionStats collection).Pairwise (fun a b => b.2 ≤ a.2) ∧
      ((Mongo.regionStats collection).map Prod.fst).Nodup ∧
      ∀ v n, (v, n) ∈ Mongo.regionStats collection ↔
        1 ≤ n ∧ n = collection.countP (fun doc => getProp doc "region" = v)) := by
  refine ⟨?_, ?_, ?_⟩
  · intro submissions hne hconv hkeys
    refine ⟨_, InMemory.statistics_of_records round numberToString submissions hne hconv, ?_⟩
    intro k
    have := InMemory.single_pass_regions round numberToString submissions hkeys
      InMemory.initialTotals (fun _ => 0) (fun _ => rfl) k
    simpa [InMemory.totals] using this
  · intro table hne hkeys
    have hrows : Sqlite.groupRows table ≠ [] :=
      fun h => hne ((Sqlite.groupRows_eq_nil_iff table).mp h)
    refine ⟨_, Sqlite.statistics_of_rows round numberToString _ hrows, ?_⟩
    intro k
    have := Sqlite.recombined_regions round (Sqlite.groupRows table)
      (fun row hrow => by
        obtain ⟨_, r, hr, hreg⟩ := Sqlite.groupRows_row table row hrow
        rw [← hreg]
        exact hkeys r hr)
      (fun row hrow => (Sqlite.groupRows_row table row hrow).1)
      Sqlite.initialTotals (fun _ => 0) (fun _ => rfl) k
    rw [Sqlite.sum_total_groupRows_of (fun key : String × String => decide (key.1 = k))
      table] at this
    simpa [Sqlite.totals] using this
  · intro collection
    refine ⟨?_, ?_, ?_⟩
    · exact List.sorted_insertionSort Mongo.countDescending _
    · have hperm : List.Perm ((Mongo.regionStats collection).map Prod.fst)
          ((Mongo.groupCount "region" collection).map Prod.fst) :=
        (List.perm_insertionSort Mongo.countDescending _).map _
      rw [hperm.nodup_iff]
      unfold Mongo.groupCount
      rw [List.map_map]
      have : (Prod.fst ∘ fun v => (v, List.count v (collection.map fun doc => getProp doc "region")))
          = id := rfl
      rw [this, List.map_id]
      exact List.nodup_dedup _
    · intro v n
      rw [← Mongo.mem_groupCount]
      exact (List.perm_insertionSort Mongo.countDescending _).mem_iff

/-- C9 (amended), at the example records: both objects hold 1 under `British`
and 2 under `Other`; the pipeline lists `Other` with 2 before `British` with
1. -/
theorem regions_counts_records_witness :
    (∃ stats,
      InMemory.statistics roundToDouble noNumberText exampleStore = StatisticsResponse.statistics stats ∧
      getOwn stats.regions "British" = some (JsVal.num (JsNum.fin 1)) ∧
      getOwn stats.regions "Other" = some (JsVal.num (JsNum.fin 2)) ∧
      getOwn stats.regions "Canadian" = none) ∧
    (∃ stats,
      Sqlite.statistics roundToDouble noNumberText (Except.ok (Sqlite.groupRows exampleTable))
        = StatisticsResponse.statistics stats ∧
      getOwn stats.regions "Other" = some (JsVal.num (JsNum.fin 2))) ∧
    Mongo.regionStats exampleCollection = [(JsVal.str "Other", 2), (JsVal.str "British", 1)] ∧
    (Mongo.regionStats exampleCollection).Pairwise (fun a b => b.2 ≤ a.2) := by
  have h := regions_counts_records roundToDouble noNumberText
  obtain ⟨s1, e1, r1⟩ := h.1 exampleStore (by decide) (by decide) (by decide)
  obtain ⟨s2, e2, r2⟩ := h.2.1 exampleTable (by decide) (by decide)
  have c1 : exampleStore.countP (fun s => regionKeyOf noNumberText s = "British") = 1 := by decide
  have c2 : exampleStore.countP (fun s => regionKeyOf noNumberText s = "Other") = 2 := by decide
  have c3 : exampleStore.countP (fun s => regionKeyOf noNumberText s = "Canadian") = 0 := by
    decide
  have c4 : exampleTable.countP (fun r => r.region = "Other") = 2 := by decide
  have b1 := r1 "British"
  have b2 := r1 "Other"
  have b3 := r1 "Canadian"
  have b4 := r2 "Other"
  rw [c1] at b1
  rw [c2] at b2
  rw [c3] at b3
  rw [c4] at b4
  refine ⟨⟨s1, e1, ?_, ?_, ?_⟩, ⟨s2, e2, ?_⟩, by decide, (h.2.2 exampleCollection).1⟩
  · simpa [countEntry] using b1
  · simpa [countEntry] using b2
  · simpa [countEntry] using b3
  · simpa [countEntry] using b4

/-! ## Rounding to a double -/

theorem lt_two_pow_binaryDigits (fuel : Nat) : ∀ n, n ≤ fuel → n < 2 ^ binaryDigits fuel n := by
  induction fuel with
  | zero => intro n h; simp [Nat.le_zero.mp h, binaryDigits]
  | succ fuel ih =>
    intro n h
    by_cases hn : n = 0
    · simp [hn, binaryDigits]
    · have h2 : n / 2 ≤ fuel := by omega
      have := ih (n / 2) h2
      simp only [binaryDigits, hn, if_false, pow_succ]
      omega

theorem two_pow_binaryDigits_le (fuel : Nat) :
    ∀ n, n ≤ fuel → n ≠ 0 → 2 ^ binaryDigits fuel n ≤ 2 * n := by
  induction fuel with
  | zero => intro n h hn; omega
  | succ fuel ih =>
    intro n h hn
    simp only [binaryDigits, hn, if_false, pow_succ]
    by_cases h0 : n / 2 = 0
    · have : n = 1 := by omega
      subst this
      cases fuel <;> simp [binaryDigits]
    · have h2 : n / 2 ≤ fuel := by omega
      have := ih (n / 2) h2 h0
      omega

/-- The exponent `floorLog2` gives is not too large. -/
theorem two_pow_floorLog2_le (a : ℚ) (ha : 0 < a) : (2 : ℚ) ^ floorLog2 a ≤ a := by
  unfold floorLog2
  simp only
  split
  · assumption
  · have hnum : 0 < a.num := Rat.num_pos.mpr ha
    have hn0 : a.num.natAbs ≠ 0 := by omega
    have h1 := two_pow_binaryDigits_le a.num.natAbs a.num.natAbs le_rfl hn0
    have h2 := lt_two_pow_binaryDigits a.den a.den le_rfl
    have hd : (0 : ℚ) < a.den := by exact_mod_cast a.den_pos
    have ha' : a = (a.num.natAbs : ℚ) / (a.den : ℚ) := by
      have : ((a.num.natAbs : ℤ) : ℚ) = a.num := by
        rw [Int.natAbs_of_nonneg hnum.le]
      rw [← Int.cast_natCast, this]
      exact (Rat.num_div_den a).symm
    set n := a.num.natAbs
    set d := a.den
    have h1q : ((2 : ℚ) ^ binaryDigits n n) ≤ 2 * (n : ℚ) := by exact_mod_cast h1
    have h2q : (d : ℚ) < (2 : ℚ) ^ binaryDigits d d := by exact_mod_cast h2
    rw [zpow_sub₀ (by norm_num : (2 : ℚ) ≠ 0), zpow_sub₀ (by norm_num : (2 : ℚ) ≠ 0)]
    simp only [zpow_natCast, zpow_one]
    rw [ha', div_div, div_le_div_iff₀ (by positivity) hd]
    calc (2 : ℚ) ^ binaryDigits n n * d ≤ 2 * n * d := by
          apply mul_le_mul_of_nonneg_right h1q hd.le
      _ ≤ n * (2 ^ binaryDigits d d * 2) := by nlinarith [h2q, (Nat.cast_nonneg n : (0:ℚ) ≤ n)]

theorem le_roundHalfEven (N : ℤ) (s : ℚ) (h : (N : ℚ) ≤ s) : N ≤ roundHalfEven s := by
  have hf : N ≤ ⌊s⌋ := Int.le_floor.mpr h
  unfold roundHalfEven
  simp only
  split
  · exact hf
  · split
    · omega
    · split <;> omega

theorem roundHalfEven_le (N : ℤ) (s : ℚ) (h : s ≤ (N : ℚ)) : roundHalfEven s ≤ N := by
  unfold roundHalfEven
  simp only
  have hf : ⌊s⌋ ≤ N := by
    have := Int.floor_le s
    exact_mod_cast (this.trans h)
  split
  · exact hf
  · rename_i h1
    have hlt : (⌊s⌋ : ℚ) < s := by linarith
    have : ⌊s⌋ < N := by
      have : (⌊s⌋ : ℚ) < N := lt_of_lt_of_le hlt h
      exact_mod_cast this
    split
    · omega
    · split <;> omega

theorem lt_roundHalfEven (N : ℤ) (s : ℚ) (h : (N : ℚ) + 1 / 2 < s) : N < roundHalfEven s := by
  by_cases h2 : 1 / 2 < s - ⌊s⌋
  · have hf : N ≤ ⌊s⌋ := Int.le_floor.mpr (by linarith)
    have h3 : ¬ (s - ⌊s⌋ < 1 / 2) := by linarith
    unfold roundHalfEven
    simp only [h3, h2, if_true, if_false]
    omega
  · have hlt : (N : ℚ) < ⌊s⌋ := by linarith
    have hlt2 : N < ⌊s⌋ := by exact_mod_cast hlt
    exact lt_of_lt_of_le hlt2 (le_roundHalfEven ⌊s⌋ s (Int.floor_le s))

theorem zpow_max_nonpos (x : ℚ) (hx : 0 < x) (hx2 : x < 2 ^ 53) :
    max (floorLog2 x - 52) (-1074) ≤ 0 := by
  have h1 := two_pow_floorLog2_le x hx
  have h2 : (2 : ℚ) ^ floorLog2 x < 2 ^ (53 : ℤ) := by
    refine lt_of_le_of_lt h1 ?_
    rw [show (53 : ℤ) = ((53 : ℕ) : ℤ) from rfl, zpow_natCast]
    exact hx2
  have h3 : floorLog2 x < 53 := (zpow_lt_zpow_iff_right₀ (by norm_num : (1 : ℚ) < 2)).mp h2
  omega

/-- Rounding a positive number below `2^53` to a double does not cross a
natural number. -/
theorem roundToDouble_between (x : ℚ) (hx : 0 < x) (hx2 : x < 2 ^ 53) (lo hi : ℕ)
    (hlo : (lo : ℚ) ≤ x) (hhi : x ≤ (hi : ℚ)) (hfin : (hi : ℚ) < 2 ^ 1024) :
    ∃ y, roundToDouble x = JsNum.fin y ∧ (lo : ℚ) ≤ y ∧ y ≤ (hi : ℚ) := by
  have hu := zpow_max_nonpos x hx hx2
  set u := max (floorLog2 x - 52) (-1074) with hudef
  obtain ⟨k, hk⟩ : ∃ k : ℕ, u = -(k : ℤ) := ⟨(-u).toNat, by omega⟩
  have hpow : (2 : ℚ) ^ u = ((2 : ℚ) ^ k)⁻¹ := by
    rw [hk, zpow_neg, zpow_natCast]
  have hkpos : (0 : ℚ) < 2 ^ k := by positivity
  have hs : x / 2 ^ u = x * 2 ^ k := by
    rw [hpow, div_inv_eq_mul]
  have h1 : ((lo * 2 ^ k : ℕ) : ℤ) ≤ roundHalfEven (x * 2 ^ k) := by
    apply le_roundHalfEven
    push_cast
    exact mul_le_mul_of_nonneg_right hlo hkpos.le
  have h2 : roundHalfEven (x * 2 ^ k) ≤ ((hi * 2 ^ k : ℕ) : ℤ) := by
    apply roundHalfEven_le
    push_cast
    exact mul_le_mul_of_nonneg_right hhi hkpos.le
  have h1q : (lo : ℚ) * 2 ^ k ≤ (roundHalfEven (x * 2 ^ k) : ℚ) := by exact_mod_cast h1
  have h2q : (roundHalfEven (x * 2 ^ k) : ℚ) ≤ (hi : ℚ) * 2 ^ k := by exact_mod_cast h2
  have hr1 : (lo : ℚ) ≤ (roundHalfEven (x * 2 ^ k) : ℚ) * (2 ^ k)⁻¹ := by
    rw [le_mul_inv_iff₀ hkpos]
    exact h1q
  have hr2 : (roundHalfEven (x * 2 ^ k) : ℚ) * (2 ^ k)⁻¹ ≤ (hi : ℚ) := by
    rw [mul_inv_le_iff₀ hkpos]
    exact h2q
  refine ⟨(roundHalfEven (x * 2 ^ k) : ℚ) * (2 ^ k)⁻¹, ?_, hr1, hr2⟩
  have hx0 : x ≠ 0 := ne_of_gt hx
  have habs : |x| = x := abs_of_pos hx
  have hnotneg : ¬ x < 0 := not_lt.mpr hx.le
  have hno : ¬ ((2 : ℚ) ^ 1024 ≤ (roundHalfEven (x * 2 ^ k) : ℚ) * (2 ^ k)⁻¹) :=
    fun hc => absurd (lt_of_le_of_lt (hc.trans hr2) hfin) (lt_irrefl _)
  unfold roundToDouble
  simp only [hx0, if_false, habs, ← hudef, hpow, div_inv_eq_mul, hno, hnotneg]

/-- A normal number below `2^53` that exceeds a natural number by more than
one part in `2^53` of itself rounds to a double above that natural number. -/
theorem roundToDouble_gt (x : ℚ) (hx : 0 < x) (hx2 : x < 2 ^ 53)
    (hnormal : (2 : ℚ) ^ (-1022 : ℤ) ≤ x) (M : ℕ) (h : (M : ℚ) + x / 2 ^ 53 < x) (y : ℚ)
    (hy : roundToDouble x = JsNum.fin y) : (M : ℚ) < y := by
  have hu := zpow_max_nonpos x hx hx2
  have hE := two_pow_floorLog2_le x hx
  set u := max (floorLog2 x - 52) (-1074) with hudef
  obtain ⟨k, hk⟩ : ∃ k : ℕ, u = -(k : ℤ) := ⟨(-u).toNat, by omega⟩
  have hpow : (2 : ℚ) ^ u = ((2 : ℚ) ^ k)⁻¹ := by
    rw [hk, zpow_neg, zpow_natCast]
  have hkpos : (0 : ℚ) < 2 ^ k := by positivity
  have hs : x / 2 ^ u = x * 2 ^ k := by
    rw [hpow, div_inv_eq_mul]
  have hscaled : (2 : ℚ) ^ 52 ≤ x * 2 ^ k := by
    have h52 : (2 : ℚ) ^ (52 + u) ≤ x := by
      rcases max_choice (floorLog2 x - 52) (-1074) with hc | hc
      · have : 52 + u = floorLog2 x := by rw [hudef, hc]; ring
        rw [this]; exact hE
      · have : 52 + u = -1022 := by rw [hudef, hc]; norm_num
        rw [this]
        exact hnormal
    rw [zpow_add₀ (by norm_num : (2 : ℚ) ≠ 0), hpow] at h52
    have : (2 : ℚ) ^ (52 : ℤ) = 2 ^ 52 := by norm_cast
    rw [this, ← div_eq_mul_inv, div_le_iff₀ hkpos] at h52
    exact h52
  have hhalf : ((M * 2 ^ k : ℕ) : ℤ) < roundHalfEven (x * 2 ^ k) := by
    apply lt_roundHalfEven
    push_cast
    have h3 : (M : ℚ) * 2 ^ k + x * 2 ^ k / 2 ^ 53 < x * 2 ^ k := by
      have := mul_lt_mul_of_pos_right h hkpos
      calc (M : ℚ) * 2 ^ k + x * 2 ^ k / 2 ^ 53 = ((M : ℚ) + x / 2 ^ 53) * 2 ^ k := by ring
        _ < x * 2 ^ k := this
    have h4 : (1 : ℚ) / 2 ≤ x * 2 ^ k / 2 ^ 53 := by
      rw [le_div_iff₀ (by positivity)]
      calc (1 : ℚ) / 2 * 2 ^ 53 = 2 ^ 52 := by norm_num
        _ ≤ x * 2 ^ k := hscaled
    linarith
  have hq : (M : ℚ) * 2 ^ k < (roundHalfEven (x * 2 ^ k) : ℚ) := by exact_mod_cast hhalf
  have hx0 : x ≠ 0 := ne_of_gt hx
  have habs : |x| = x := abs_of_pos hx
  have hnotneg : ¬ x < 0 := not_lt.mpr hx.le
  unfold roundToDouble at hy
  simp only [hx0, if_false, habs, ← hudef, hpow, div_inv_eq_mul, hnotneg] at hy
  split at hy
  · cases hy
  · injection hy with hy
    rw [← hy, lt_mul_inv_iff₀ hkpos]
    exact hq

/-- A natural number below `2^53` is a double. -/
theorem roundToDouble_natCast (n : ℕ) (h : n < 2 ^ 53) : roundToDouble n = JsNum.fin n := by
  rcases Nat.eq_zero_or_pos n with h0 | hpos
  · subst h0
    simp [roundToDouble]
  · have hx : (0 : ℚ) < n := by exact_mod_cast hpos
    have hx2 : (n : ℚ) < 2 ^ 53 := by exact_mod_cast h
    have hfin : (n : ℚ) < 2 ^ 1024 :=
      lt_trans hx2 (pow_lt_pow_right₀ (by norm_num) (by norm_num))
    obtain ⟨y, hy, h1, h2⟩ := roundToDouble_between n hx hx2 n n le_rfl le_rfl hfin
    rw [hy, le_antisymm h2 h1]

/-- For natural numbers below `2^53`, rounding the quotient to a double does
not change what `Math.ceil` gives. -/
theorem ceil_roundToDouble_div (a b : ℕ) (ha : a < 2 ^ 53) (hb : 1 ≤ b) (hb2 : b < 2 ^ 53) :
    ∃ y, roundToDouble ((a : ℚ) / b) = JsNum.fin y ∧ ⌈y⌉ = ⌈(a : ℚ) / b⌉ := by
  have hbq : (0 : ℚ) < b := by exact_mod_cast hb
  rcases Nat.eq_zero_or_pos (a % b) with hr | hr
  · -- the quotient is a natural number
    obtain ⟨c, hc⟩ := Nat.dvd_of_mod_eq_zero hr
    have hcle : c ≤ a := by
      rw [hc]; exact Nat.le_mul_of_pos_left c hb
    have hq : (a : ℚ) / b = c := by
      rw [hc]; push_cast; field_simp
    refine ⟨c, ?_, by rw [hq]⟩
    rw [hq]
    exact roundToDouble_natCast c (lt_of_le_of_lt hcle ha)
  · have hapos : 0 < a := by
      rcases Nat.eq_zero_or_pos a with h0 | h0
      · subst h0; simp at hr
      · exact h0
    have hdm := Nat.div_add_mod a b
    have hmod := Nat.mod_lt a hb
    set M := a / b
    set r := a % b
    have haq : (a : ℚ) = b * M + r := by exact_mod_cast hdm.symm
    have hrq : (0 : ℚ) < r := by exact_mod_cast hr
    have hrb : (r : ℚ) < b := by exact_mod_cast hmod
    have hx : (a : ℚ) / b = M + r / b := by
      rw [haq]; field_simp; ring
    have hfrac0 : (0 : ℚ) < r / b := div_pos hrq hbq
    have hfrac1 : (r : ℚ) / b < 1 := (div_lt_one hbq).mpr hrb
    have hxpos : (0 : ℚ) < (a : ℚ) / b := div_pos (by exact_mod_cast hapos) hbq
    have hxle : (a : ℚ) / b ≤ a := div_le_self (by positivity) (by exact_mod_cast hb)
    have haq2 : (a : ℚ) < 2 ^ 53 := by exact_mod_cast ha
    have hx2 : (a : ℚ) / b < 2 ^ 53 := lt_of_le_of_lt hxle haq2
    have hMle : M + 1 ≤ 2 ^ 53 := by
      have : M ≤ a := Nat.div_le_self a b
      omega
    have hfin : ((M + 1 : ℕ) : ℚ) < 2 ^ 1024 := by
      have h1 : ((M + 1 : ℕ) : ℚ) ≤ 2 ^ 53 := by exact_mod_cast hMle
      exact lt_of_le_of_lt h1 (pow_lt_pow_right₀ (by norm_num) (by norm_num))
    obtain ⟨y, hy, h1, h2⟩ := roundToDouble_between ((a : ℚ) / b) hxpos hx2 M (M + 1)
      (by rw [hx]; linarith) (by rw [hx]; push_cast; linarith) hfin
    have hnormal : (2 : ℚ) ^ (-1022 : ℤ) ≤ (a : ℚ) / b := by
      have h53 : (2 : ℚ) ^ (-53 : ℤ) ≤ (a : ℚ) / b := by
        rw [zpow_neg, show (53 : ℤ) = ((53 : ℕ) : ℤ) from rfl, zpow_natCast, ← one_div,
          div_le_div_iff₀ (by positivity) hbq]
        have hb2q : (b : ℚ) < 2 ^ 53 := by exact_mod_cast hb2
        have ha1 : (1 : ℚ) ≤ a := by exact_mod_cast hapos
        nlinarith
      refine le_trans ?_ h53
      exact zpow_le_zpow_right₀ (by norm_num) (by norm_num)
    have hgt := roundToDouble_gt ((a : ℚ) / b) hxpos hx2 hnormal M ?_ y hy
    · refine ⟨y, hy, ?_⟩
      have hc1 : ⌈y⌉ = ((M + 1 : ℕ) : ℤ) := by
        rw [Int.ceil_eq_iff]
        push_cast at h2 ⊢
        constructor <;> linarith
      have hc2 : ⌈(a : ℚ) / b⌉ = ((M + 1 : ℕ) : ℤ) := by
        rw [Int.ceil_eq_iff, hx]
        push_cast
        constructor <;> linarith
      rw [hc1, hc2]
    · -- the quotient exceeds its integer part by more than one part in 2^53
      rw [hx]
      have h3 : ((M : ℚ) + r / b) / 2 ^ 53 < r / b := by
        rw [← hx, div_div, div_lt_div_iff₀ (by positivity) hbq]
        have h1r : (1 : ℚ) ≤ r := by exact_mod_cast hr
        nlinarith
      linarith

/-! ## Pagination -/

theorem ceil_div_eq (n L : Nat) (hL : 1 ≤ L) :
    ⌈((n : ℚ) / (L : ℚ))⌉ = (((n + L - 1) / L : Nat) : ℤ) := by
  have hLq : (0 : ℚ) < (L : ℚ) := Nat.cast_pos.mpr hL
  have h1 : (n + L - 1) / L * L ≤ n + L - 1 := Nat.div_mul_le_self _ _
  have h2 : n + L - 1 < ((n + L - 1) / L + 1) * L := by
    have := Nat.lt_div_mul_add (a := n + L - 1) (b := L) hL
    rw [Nat.add_mul, Nat.one_mul]
    exact this
  rw [Int.ceil_eq_iff]
  constructor
  · rw [lt_div_iff₀ hLq]
    have : ((n + L - 1) / L : Nat) * L < n + L := by omega
    have hq : (((n + L - 1) / L : Nat) : ℚ) * (L : ℚ) < (n : ℚ) + (L : ℚ) := by exact_mod_cast this
    simp only [Int.cast_natCast]
    linarith
  · rw [div_le_iff₀ hLq]
    have : n ≤ ((n + L - 1) / L : Nat) * L := by
      rw [Nat.add_mul, Nat.one_mul] at h2
      omega
    have hq : (n : ℚ) ≤ (((n + L - 1) / L : Nat) : ℚ) * (L : ℚ) := by exact_mod_cast this
    simp only [Int.cast_natCast]
    linarith

theorem isInt64_natCast (n : Nat) (h : n < 2 ^ 53) : Mongo.isInt64 (n : ℚ) = true := by
  have h1 : -(2 : ℚ) ^ 63 ≤ (n : ℚ) := by
    have : (0 : ℚ) ≤ n := Nat.cast_nonneg n
    have : (0 : ℚ) < 2 ^ 63 := by positivity
    linarith
  have h2 : (n : ℚ) < 2 ^ 63 := by
    have : (n : ℚ) < 2 ^ 53 := by exact_mod_cast h
    exact lt_trans this (by norm_num)
  simp [Mongo.isInt64, h1, h2]

/-- The query of the list handler for a `skip` and a `limit` that are natural
numbers below `2^53`, the limit not zero. -/
theorem Mongo.findPage_of_nat (unusual : JsNum → JsNum → Except String (List JsObj))
    (sorted : List JsObj) (S L : Nat) (hS : S < 2 ^ 53) (hL1 : 1 ≤ L) (hL : L < 2 ^ 53) :
    Mongo.findPage unusual sorted (JsNum.fin S) (JsNum.fin L)
      = Except.ok (((sorted.drop S).take L).map Mongo.selectWithoutVersion) := by
  have hS0 : ¬ ((S : ℚ) < 0) := not_lt.mpr (Nat.cast_nonneg S)
  have hL0 : ¬ ((L : ℚ) = 0) := Nat.cast_ne_zero.mpr (by omega)
  simp [Mongo.findPage, isInt64_natCast S hS, isInt64_natCast L hL, hS0, hL0]

/-- The constant `skip` for a `page` and a `limit` that are natural numbers
whose product is below `2^53`. -/
theorem Mongo.skipOf_nat (P L : Nat) (hP : 1 ≤ P) (hL : 1 ≤ L) (hb : P * L < 2 ^ 53) :
    Mongo.skipOf roundToDouble (JsNum.fin P) (JsNum.fin L) = JsNum.fin (((P - 1) * L : Nat)) := by
  have hPL : P ≤ P * L := Nat.le_mul_of_pos_right P hL
  have hle : (P - 1) * L ≤ P * L := Nat.mul_le_mul_right L (Nat.sub_le P 1)
  have h1 : (P : ℚ) - 1 = ((P - 1 : Nat) : ℚ) := by
    push_cast [Nat.cast_sub hP]
    ring
  have h2 : ((P - 1 : Nat) : ℚ) * (L : ℚ) = (((P - 1) * L : Nat) : ℚ) := by
    push_cast
    ring
  unfold Mongo.skipOf
  rw [JsNum.sub_fin_fin]
  show (((roundToDouble ((P : ℚ) - 1)).mul (JsNum.fin L)).rounded roundToDouble) = _
  rw [h1, roundToDouble_natCast (P - 1) (by omega), JsNum.mul_fin_fin]
  show roundToDouble (((P - 1 : Nat) : ℚ) * (L : ℚ)) = _
  rw [h2, roundToDouble_natCast ((P - 1) * L) (by omega)]

/-- The field `totalPages` for a `total` and a `limit` that are natural numbers
below `2^53`. -/
theorem Mongo.totalPages_nat (n L : Nat) (hn : n < 2 ^ 53) (hL1 : 1 ≤ L) (hL : L < 2 ^ 53) :
    (((JsNum.fin n).div (JsNum.fin L)).rounded roundToDouble).ceil
      = JsNum.fin (((n + L - 1) / L : Nat)) := by
  have hL0 : (L : ℚ) ≠ 0 := Nat.cast_ne_zero.mpr (by omega)
  obtain ⟨y, hy, hceil⟩ := ceil_roundToDouble_div n L hn hL1 hL
  rw [JsNum.div_fin_fin _ _ hL0]
  show (roundToDouble ((n : ℚ) / (L : ℚ))).ceil = _
  rw [hy]
  show JsNum.fin ((⌈y⌉ : ℤ) : ℚ) = _
  rw [hceil, ceil_div_eq n L hL1, Int.cast_natCast]

/-- The answer of the list handler when the `page` and the `limit` it reads are
natural numbers, at least one, with a product below `2^53`. -/
theorem Mongo.listSubmissions_of_nat (numberToString : ℚ → String)
    (unusual : JsNum → JsNum → Except String (List JsObj)) (query : JsObj)
    (sorted : List JsObj) (page limit : Nat)
    (hpage : Mongo.pageOf roundToDouble numberToString query = some (JsNum.fin page))
    (hlimit : Mongo.limitOf roundToDouble numberToString query = some (JsNum.fin limit))
    (hp : 1 ≤ page) (hl : 1 ≤ limit) (hbound : page * limit < 2 ^ 53)
    (htotal : sorted.length < 2 ^ 53) :
    Mongo.listSubmissions roundToDouble numberToString none unusual query sorted
      = Mongo.ListResponse.ok
          (((sorted.drop ((page - 1) * limit)).take limit).map Mongo.selectWithoutVersion).length
          sorted.length (JsNum.fin page)
          (JsNum.fin (((sorted.length + limit - 1) / limit : Nat)))
          (((sorted.drop ((page - 1) * limit)).take limit).map Mongo.selectWithoutVersion) := by
  have hlb : limit ≤ page * limit := Nat.le_mul_of_pos_left limit hp
  have hle : (page - 1) * limit ≤ page * limit := Nat.mul_le_mul_right limit (Nat.sub_le page 1)
  unfold Mongo.listSubmissions
  simp only [hpage, hlimit]
  rw [Mongo.skipOf_nat page limit hp hl hbound,
    Mongo.findPage_of_nat unusual sorted ((page - 1) * limit) limit (by omega) hl (by omega),
    Mongo.totalPages_nat sorted.length limit htotal hl (by omega)]

/-- C10, as stated, fails for a limit beyond the range of doubles: for the
limit written with 400 nines, which is at least one, `parseInt` gives
`Infinity`, the skip `(1 - 1) * Infinity` is `NaN` and `totalPages` would be
`Math.ceil(25 / Infinity) = 0`, while 25 divided by the limit, rounded up, is
one. A database that refuses such a query makes the handler answer 500; one
that serves it (reading `NaN` as zero and `Infinity` as no limit) gets
`totalPages` 0 reported with all 25 documents. -/
theorem listSubmissions_huge_limit :
    parseIntChars (List.replicate 400 '9') = some (10 ^ 400 - 1) ∧
    ⌈(25 : ℚ) / (10 ^ 400 - 1)⌉ = 1 ∧
    Mongo.limitOf roundToDouble noNumberText
        [("limit", JsVal.str (String.mk (List.replicate 400 '9')))]
      = some (JsNum.inf false) ∧
    Mongo.pageOf roundToDouble noNumberText
        [("limit", JsVal.str (String.mk (List.replicate 400 '9')))]
      = some (JsNum.fin 1) ∧
    Mongo.skipOf roundToDouble (JsNum.fin 1) (JsNum.inf false) = JsNum.nan ∧
    Mongo.listSubmissions roundToDouble noNumberText none refusingDatabase
        [("limit", JsVal.str (String.mk (List.replicate 400 '9')))] pagedCollection
      = Mongo.ListResponse.failure "Database error" ∧
    Mongo.listSubmissions roundToDouble noNumberText none (lenientDatabase pagedCollection)
        [("limit", JsVal.str (String.mk (List.replicate 400 '9')))] pagedCollection
      = Mongo.ListResponse.ok 25 25 (JsNum.fin 1) (JsNum.fin 0)
          (pagedCollection.map Mongo.selectWithoutVersion) := by
  refine ⟨by decide!, ?_, by decide!, by decide!, by decide!, by decide!, by decide!⟩
  rw [Int.ceil_eq_iff]
  norm_num

/-- C10 (amended): when the `page` and the `limit` the handler reads from the
query are natural numbers, at least one, whose product is below `2^53`, and
the collection holds fewer than `2^53` documents, the paginated list handler
skips `(page - 1) * limit` documents of the collection sorted most recent
first and returns, in that order and without `__v`, the documents at the
1-based positions `(page - 1) * limit + 1` to `min (page * limit) total`;
`count` is the number returned, `total` the size of the collection, and
`totalPages` is the quotient `total / limit` rounded up. -/
theorem listSubmissions_page (numberToString : ℚ → String)
    (unusual : JsNum → JsNum → Except String (List JsObj)) (query : JsObj)
    (sorted : List JsObj) (page limit : Nat)
    (hpage : Mongo.pageOf roundToDouble numberToString query = some (JsNum.fin page))
    (hlimit : Mongo.limitOf roundToDouble numberToString query = some (JsNum.fin limit))
    (hp : 1 ≤ page) (hl : 1 ≤ limit) (hbound : page * limit < 2 ^ 53)
    (htotal : sorted.length < 2 ^ 53) :
    ∃ submissions : List JsObj,
      Mongo.listSubmissions roundToDouble numberToString none unusual query sorted
        = Mongo.ListResponse.ok submissions.length sorted.length (JsNum.fin page)
            (JsNum.fin (((sorted.length + limit - 1) / limit : Nat))) submissions ∧
      (((sorted.length + limit - 1) / limit : Nat) : ℤ) = ⌈(sorted.length : ℚ) / (limit : ℚ)⌉ ∧
      submissions
        = ((sorted.drop ((page - 1) * limit)).take limit).map Mongo.selectWithoutVersion ∧
      submissions.length = min (page * limit) sorted.length - (page - 1) * limit ∧
      ∀ i, i < submissions.length →
        submissions[i]? = (sorted[(page - 1) * limit + i]?).map Mongo.selectWithoutVersion := by
  have hlb : limit ≤ page * limit := Nat.le_mul_of_pos_left limit hp
  refine ⟨((sorted.drop ((page - 1) * limit)).take limit).map Mongo.selectWithoutVersion,
    Mongo.listSubmissions_of_nat numberToString unusual query sorted page limit hpage hlimit
      hp hl hbound htotal,
    (ceil_div_eq sorted.length limit hl).symm, rfl, ?_, ?_⟩
  · rw [List.length_map, List.length_take, List.length_drop]
    have : page * limit = (page - 1) * limit + limit := by
      rw [Nat.sub_mul, Nat.one_mul]
      omega
    omega
  · intro i hi
    rw [List.length_map, List.length_take] at hi
    rw [List.getElem?_map, List.getElem?_take_of_lt (by omega), List.getElem?_drop]

/-- C10 (amended), at `page=2`, `limit=10` over the collection of 25
documents: the documents 11 to 20 come back, `count` is 10 and `totalPages` is
3. -/
theorem listSubmissions_page_witness :
    Mongo.pageOf roundToDouble noNumberText [("page", JsVal.str "2"), ("limit", JsVal.str "10")]
      = some (JsNum.fin 2) ∧
    Mongo.limitOf roundToDouble noNumberText [("page", JsVal.str "2"), ("limit", JsVal.str "10")]
      = some (JsNum.fin 10) ∧
    Mongo.listSubmissions roundToDouble noNumberText none refusingDatabase
        [("page", JsVal.str "2"), ("limit", JsVal.str "10")] pagedCollection
      = Mongo.ListResponse.ok 10 25 (JsNum.fin 2) (JsNum.fin 3)
          ((List.range 10).map (fun i =>
            [("_id", JsVal.str (toString (i + 11))), ("region", JsVal.str "Other")])) := by
  have hp : Mongo.pageOf roundToDouble noNumberText
      [("page", JsVal.str "2"), ("limit", JsVal.str "10")] = some (JsNum.fin ((2 : Nat) : ℚ)) := by
    decide!
  have hl : Mongo.limitOf roundToDouble noNumberText
      [("page", JsVal.str "2"), ("limit", JsVal.str "10")] = some (JsNum.fin ((10 : Nat) : ℚ)) := by
    decide!
  obtain ⟨submissions, hresp, _, hsubs, _, _⟩ := listSubmissions_page noNumberText
    refusingDatabase [("page", JsVal.str "2"), ("limit", JsVal.str "10")] pagedCollection 2 10
    hp hl (by decide) (by decide) (by norm_num) (by decide)
  have hval : submissions = (List.range 10).map (fun i =>
      [("_id", JsVal.str (toString (i + 11))), ("region", JsVal.str "Other")]) := by
    rw [hsubs]
    decide
  rw [hval] at hresp
  refine ⟨by decide!, by decide!, ?_⟩
  rw [hresp]
  decide!

/-! ## Order of the listed records -/

theorem InMemory.submitAll_of_complete (requests : List InMemory.Request)
    (submissions : List JsObj)
    (hok : ∀ r ∈ requests, ∀ k ∈ requiredFields, absentOrFalsy r.data k = false) :
    InMemory.submitAll requests submissions
      = submissions ++ requests.map (fun r => InMemory.makeSubmission r.nowMs r.isoNow r.data) := by
  induction requests generalizing submissions with
  | nil => simp [InMemory.submitAll]
  | cons r rest ih =>
    have hr := hok r (List.mem_cons_self _ _)
    have hrest : ∀ r' ∈ rest, ∀ k ∈ requiredFields, absentOrFalsy r'.data k = false :=
      fun r' h' => hok r' (List.mem_cons_of_mem _ h')
    have hstep := InMemory.submitData_of_complete r.nowMs r.isoNow r.data submissions
      ((missingFields_eq_nil_iff r.data).mpr hr)
    have := ih (submissions ++ [InMemory.makeSubmission r.nowMs r.isoNow r.data]) hrest
    unfold InMemory.submitAll at this ⊢
    rw [List.foldl_cons, hstep]
    simpa using this

/-- C11, as stated, fails on the in-memory variant: after two successful
submissions one millisecond apart, the list endpoint returns the earlier
record at the first position and the later record after it. -/
theorem list_returns_oldest_first :
    (InMemory.listSubmissions (InMemory.submitAll exampleRequests [])).submissions
      = [InMemory.makeSubmission 1700000000000 "2023-11-14T22:13:20.000Z" scenarioBody,
         InMemory.makeSubmission 1700000000001 "2023-11-14T22:13:20.001Z"
           (scenarioWith "region" (JsVal.str "Other"))] ∧
    getProp (InMemory.makeSubmission 1700000000000 "2023-11-14T22:13:20.000Z" scenarioBody)
        "timestamp" = JsVal.str "2023-11-14T22:13:20.000Z" ∧
    getProp (InMemory.makeSubmission 1700000000001 "2023-11-14T22:13:20.001Z"
        (scenarioWith "region" (JsVal.str "Other"))) "timestamp"
      = JsVal.str "2023-11-14T22:13:20.001Z" := by
  refine ⟨by decide, by decide, by decide⟩

/-- C11 (amended): in the in-memory variant the list endpoint returns the
records in the order of their submission, the stored ones first and then one
record per successful request, so a record submitted later stands after a
record submitted earlier. In the SQLite variant the list endpoint returns all
rows of the table, those with a greater timestamp first. -/
theorem list_order (requests : List InMemory.Request) (submissions : List JsObj)
    (hok : ∀ r ∈ requests, ∀ k ∈ requiredFields, absentOrFalsy r.data k = false) :
    (InMemory.listSubmissions (InMemory.submitAll requests submissions)).submissions
      = submissions ++ requests.map (fun r => InMemory.makeSubmission r.nowMs r.isoNow r.data) ∧
    (InMemory.listSubmissions (InMemory.submitAll requests submissions)).count
      = submissions.length + requests.length ∧
    ∀ table : List Sqlite.Row, ∃ rows : List Sqlite.Row,
      Sqlite.listSubmissions (Except.ok (Sqlite.selectAllOrdered table))
        = Sqlite.ListResponse.ok table.length (rows.map Sqlite.rowObject) ∧
      List.Perm rows table ∧
      rows.Pairwise (fun a b => b.timestamp ≤ a.timestamp) := by
  have h := InMemory.submitAll_of_complete requests submissions hok
  refine ⟨?_, ?_, ?_⟩
  · simp [InMemory.listSubmissions, h]
  · simp [InMemory.listSubmissions, h]
  · intro table
    refine ⟨table.insertionSort Sqlite.timestampDescending, ?_,
      List.perm_insertionSort _ _, List.sorted_insertionSort Sqlite.timestampDescending _⟩
    simp [Sqlite.listSubmissions, Sqlite.selectAllOrdered, List.length_insertionSort]

/-- C11 (amended), at the two example requests: the record of the first
request is listed first. -/
theorem list_order_witness :
    (∀ r ∈ exampleRequests, ∀ k ∈ requiredFields, absentOrFalsy r.data k = false) ∧
    (InMemory.listSubmissions (InMemory.submitAll exampleRequests [])).submissions
      = [] ++ exampleRequests.map (fun r => InMemory.makeSubmission r.nowMs r.isoNow r.data) ∧
    (InMemory.listSubmissions (InMemory.submitAll exampleRequests [])).count = 2 :=
  ⟨by decide, (list_order exampleRequests [] (by decide)).1,
   (list_order exampleRequests [] (by decide)).2.1⟩

/-! ## CSV export -/

/-- C12: for a non-empty list of records with the keys of the first record,
the CSV text is the header, a line feed, and one line per record in list order,
joined by line feeds; the header is the comma-join of the first record's keys;
the line of a record is the comma-join of as many cells as the header has
names, and pairing the names of the header with the cells pairs every key of
the record with the cell of its value. -/
theorem csvText_structure (numberToString : ℚ → String) (first : JsObj) (rest : List JsObj)
    (hkeys : ∀ r ∈ rest, objectKeys r = objectKeys first) :
    csvText numberToString (first :: rest)
      = join "," (objectKeys first) ++ "\n"
          ++ join "\n" ((first :: rest).map (csvLine numberToString)) ∧
    ((first :: rest).map (csvLine numberToString)).length = (first :: rest).length ∧
    ∀ r ∈ first :: rest, ∃ cells : List String,
      csvLine numberToString r = join "," cells ∧
      cells.length = (objectKeys first).length ∧
      (objectKeys first).zip cells
        = r.map (fun p => (p.1, joinText numberToString (csvCell p.2))) := by
  refine ⟨rfl, by simp, ?_⟩
  intro r hr
  have hk : objectKeys r = objectKeys first := by
    rcases List.mem_cons.mp hr with h | h
    · rw [h]
    · exact hkeys r h
  refine ⟨r.map (fun p => joinText numberToString (csvCell p.2)), ?_, ?_, ?_⟩
  · simp [csvLine, joinValues, objectValues, List.map_map, Function.comp_def]
  · rw [← hk]
    simp [objectKeys]
  · rw [← hk]
    simp only [objectKeys]
    rw [List.zip_map']

/-- C12, at the two example records: three header names, and two lines of
three cells each. -/
theorem csvText_structure_witness :
    (∀ r ∈ exampleRecords.tail, objectKeys r = objectKeys (exampleRecords.headD [])) ∧
    csvText noNumberText exampleRecords
      = "region,notes,contact_email\nBritish,\"twins, both girls\",\nOther,said \"none\",a@b.org" ∧
    (exampleRecords.map (csvLine noNumberText)).length = 2 := by
  have h := csvText_structure noNumberText (exampleRecords.headD []) exampleRecords.tail
    (by decide)
  exact ⟨by decide, by decide, h.2.1⟩

theorem includesComma_iff (s : String) : includesComma s = true ↔ ',' ∈ s.data := by
  unfold includesComma
  simp [List.contains]

/-- C13: the cell of a string that holds a comma is the string between two
double quotes, its content unchanged; the cell of any other value is the text
`join` writes for the value itself, which is its string form (and nothing for
`null` and `undefined`): double quotes and line breaks inside a string are
neither escaped nor a reason to quote. -/
theorem csvCell_text (numberToString : ℚ → String) :
    (∀ s : String, ',' ∈ s.data →
      joinText numberToString (csvCell (JsVal.str s)) = "\"" ++ s ++ "\"") ∧
    (∀ s : String, ',' ∉ s.data → joinText numberToString (csvCell (JsVal.str s)) = s) ∧
    (∀ v : JsVal, (∀ s, v ≠ JsVal.str s) →
      joinText numberToString (csvCell v) = joinText numberToString v) ∧
    (∀ v : JsVal, v ≠ JsVal.null → v ≠ JsVal.undefined →
      joinText numberToString v = toStr numberToString v) ∧
    joinText numberToString JsVal.null = "" ∧
    joinText numberToString JsVal.undefined = "" := by
  refine ⟨?_, ?_, ?_, ?_, rfl, rfl⟩
  · intro s hs
    have : includesComma s = true := (includesComma_iff s).mpr hs
    simp [csvCell, this, joinText, toStr]
  · intro s hs
    have : includesComma s = false := by
      rw [Bool.eq_false_iff]
      intro h
      exact hs ((includesComma_iff s).mp h)
    simp [csvCell, this, joinText, toStr]
  · intro v hv
    cases v with
    | str s => exact absurd rfl (hv s)
    | undefined => rfl
    | null => rfl
    | bool b => rfl
    | num n => rfl
    | object text => rfl
    | noPrimitive => rfl
  · intro v h1 h2
    cases v with
    | null => exact absurd rfl h1
    | undefined => exact absurd rfl h2
    | str s => rfl
    | bool b => rfl
    | num n => rfl
    | object text => rfl
    | noPrimitive => rfl

/-- C13, at strings with a comma, with double quotes and with a line feed. -/
theorem csvCell_text_witness :
    joinText noNumberText (csvCell (JsVal.str "twins, both girls")) = "\"twins, both girls\"" ∧
    joinText noNumberText (csvCell (JsVal.str "said \"none\"")) = "said \"none\"" ∧
    joinText noNumberText (csvCell (JsVal.str "two\nlines")) = "two\nlines" ∧
    joinText noNumberText (csvCell (JsVal.bool true)) = "true" :=
  ⟨(csvCell_text noNumberText).1 "twins, both girls" (by decide),
   (csvCell_text noNumberText).2.1 "said \"none\"" (by decide),
   (csvCell_text noNumberText).2.1 "two\nlines" (by decide),
   by decide⟩

/-- C14: given the record set the store returns, the export handler of either
storage-backed variant answers 404 with the error `No data to export` exactly
when the set is empty, and for a non-empty set it answers with status 200, the
content type `text/csv` and the CSV text. -/
theorem exportCsv_no_data_iff_empty (numberToString : ℚ → String) (records : List JsObj) :
    (Sqlite.exportCsv numberToString (Except.ok records)
        = ExportResponse.noData "No data to export" ↔ records = []) ∧
    (Mongo.exportCsv numberToString (Except.ok records)
        = ExportResponse.noData "No data to export" ↔ records = []) ∧
    (ExportResponse.noData "No data to export").status = 404 ∧
    (records ≠ [] →
      Sqlite.exportCsv numberToString (Except.ok records)
        = ExportResponse.csv "text/csv" "attachment; filename=\"submissions.csv\""
            (csvText numberToString records) ∧
      Mongo.exportCsv numberToString (Except.ok records)
        = ExportResponse.csv "text/csv" "attachment; filename=\"submissions.csv\""
            (csvText numberToString records) ∧
      (Sqlite.exportCsv numberToString (Except.ok records)).status = 200 ∧
      (Mongo.exportCsv numberToString (Except.ok records)).status = 200 ∧
      (∀ text, Sqlite.exportCsv numberToString (Except.ok records) ≠ ExportResponse.noData text) ∧
      (∀ text, Mongo.exportCsv numberToString (Except.ok records) ≠ ExportResponse.noData text)) := by
  cases records with
  | nil =>
    refine ⟨by simp [Sqlite.exportCsv], by simp [Mongo.exportCsv], rfl, ?_⟩
    intro h
    exact absurd rfl h
  | cons r rest =>
    refine ⟨by simp [Sqlite.exportCsv], by simp [Mongo.exportCsv], rfl, ?_⟩
    intro _
    refine ⟨by simp [Sqlite.exportCsv], by simp [Mongo.exportCsv],
      by simp [Sqlite.exportCsv, ExportResponse.status],
      by simp [Mongo.exportCsv, ExportResponse.status],
      by simp [Sqlite.exportCsv], by simp [Mongo.exportCsv]⟩

/-- C14, at the empty record set and at the two example records. -/
theorem exportCsv_no_data_iff_empty_witness :
    Sqlite.exportCsv noNumberText (Except.ok []) = ExportResponse.noData "No data to export" ∧
    (Sqlite.exportCsv noNumberText (Except.ok exampleRecords)).status = 200 ∧
    (Mongo.exportCsv noNumberText (Except.ok exampleRecords)).status = 200 :=
  ⟨(exportCsv_no_data_iff_empty noNumberText []).1.mpr rfl,
   ((exportCsv_no_data_iff_empty noNumberText exampleRecords).2.2.2 (by decide)).2.2.1,
   ((exportCsv_no_data_iff_empty noNumberText exampleRecords).2.2.2 (by decide)).2.2.2.1⟩

/-! ## Identifiers of the in-memory variant -/

/-- C15: the code at the failing input. Two complete bodies handled while
`Date.now()` gives the same millisecond yield a reachable store of two
different records with the same `id`; and a body with an `id` of its own is
stored under that `id`, not under the one generated by the server. -/
theorem stored_ids_collide :
    InMemory.Reachable
      (InMemory.submitAll
        [{ nowMs := 1700000000000, isoNow := "2023-11-14T22:13:20.000Z", data := scenarioBody },
         { nowMs := 1700000000000, isoNow := "2023-11-14T22:13:20.000Z",
           data := scenarioWith "region" (JsVal.str "Other") }] []) ∧
    InMemory.submitAll
        [{ nowMs := 1700000000000, isoNow := "2023-11-14T22:13:20.000Z", data := scenarioBody },
         { nowMs := 1700000000000, isoNow := "2023-11-14T22:13:20.000Z",
           data := scenarioWith "region" (JsVal.str "Other") }] []
      = [InMemory.makeSubmission 1700000000000 "2023-11-14T22:13:20.000Z" scenarioBody,
         InMemory.makeSubmission 1700000000000 "2023-11-14T22:13:20.000Z"
           (scenarioWith "region" (JsVal.str "Other"))] ∧
    InMemory.makeSubmission 1700000000000 "2023-11-14T22:13:20.000Z" scenarioBody
      ≠ InMemory.makeSubmission 1700000000000 "2023-11-14T22:13:20.000Z"
          (scenarioWith "region" (JsVal.str "Other")) ∧
    getProp (InMemory.makeSubmission 1700000000000 "2023-11-14T22:13:20.000Z" scenarioBody) "id"
      = JsVal.str "1700000000000" ∧
    getProp (InMemory.makeSubmission 1700000000000 "2023-11-14T22:13:20.000Z"
        (scenarioWith "region" (JsVal.str "Other"))) "id"
      = JsVal.str "1700000000000" ∧
    getProp (InMemory.makeSubmission 1700000000005 "2023-11-14T22:13:20.005Z" bodyWithId) "id"
      = JsVal.str "chosen-by-client" := by
  refine ⟨?_, by decide, by decide, by decide, by decide, by decide⟩
  exact InMemory.Reachable.submit _ _ _ _ (InMemory.Reachable.submit _ _ _ _ InMemory.Reachable.initial)

/-- C17: for a body that passes the required-field check, the stored record
holds under `id` and under `timestamp` the body's own value whenever the body
has that key, and the answer's `submissionId` is then the body's `id`; a body
without the key `id` gets the generated one, the decimal text of `Date.now()`,
in the record and in the answer, and a body without `timestamp` the generated
timestamp. -/
theorem submitData_id_from_body (nowMs : Nat) (isoNow : String) (data : JsObj)
    (submissions : List JsObj)
    (h : ∀ k ∈ requiredFields, absentOrFalsy data k = false) :
    (InMemory.submitData nowMs isoNow data submissions).2
      = submissions ++ [InMemory.makeSubmission nowMs isoNow data] ∧
    (∀ v, getOwn data "id" = some v →
      getOwn (InMemory.makeSubmission nowMs isoNow data) "id" = some v ∧
      (InMemory.submitData nowMs isoNow data submissions).1.submissionId = some v) ∧
    (∀ v, getOwn data "timestamp" = some v →
      getOwn (InMemory.makeSubmission nowMs isoNow data) "timestamp" = some v) ∧
    (getOwn data "id" = none →
      getOwn (InMemory.makeSubmission nowMs isoNow data) "id"
        = some (JsVal.str (toString nowMs)) ∧
      (InMemory.submitData nowMs isoNow data submissions).1.submissionId
        = some (JsVal.str (toString nowMs))) ∧
    (getOwn data "timestamp" = none →
      getOwn (InMemory.makeSubmission nowMs isoNow data) "timestamp"
        = some (JsVal.str isoNow)) := by
  rw [InMemory.submitData_of_complete _ _ _ _ ((missingFields_eq_nil_iff data).mpr h)]
  refine ⟨rfl, ?_, ?_, ?_, ?_⟩
  · intro v hv
    have hrec := InMemory.getOwn_makeSubmission nowMs isoNow data "id" v hv
    exact ⟨hrec, by simp [submittedResponse, getProp_of_getOwn _ _ _ hrec]⟩
  · intro v hv
    exact InMemory.getOwn_makeSubmission nowMs isoNow data "timestamp" v hv
  · intro hnone
    have hrec : getOwn (InMemory.makeSubmission nowMs isoNow data) "id"
        = some (JsVal.str (toString nowMs)) := by
      unfold InMemory.makeSubmission
      rw [getOwn_spread, hnone]
      simp [getOwn]
    exact ⟨hrec, by simp [submittedResponse, getProp_of_getOwn _ _ _ hrec]⟩
  · intro hnone
    unfold InMemory.makeSubmission
    rw [getOwn_spread, hnone]
    simp [getOwn]

/-- C17, at a body with its own `id` and `timestamp`, and at the scenario
body, which has neither. -/
theorem submitData_id_from_body_witness :
    (∀ k ∈ requiredFields, absentOrFalsy bodyWithId k = false) ∧
    (InMemory.submitData 1700000000005 "2023-11-14T22:13:20.005Z" bodyWithId []).1.submissionId
      = some (JsVal.str "chosen-by-client") ∧
    getOwn (InMemory.makeSubmission 1700000000005 "2023-11-14T22:13:20.005Z" bodyWithId)
        "timestamp" = some (JsVal.str "1999-01-01") ∧
    (InMemory.submitData 1700000000000 "2023-11-14T22:13:20.000Z" scenarioBody []).1.submissionId
      = some (JsVal.str "1700000000000") :=
  ⟨by decide,
   ((submitData_id_from_body 1700000000005 "2023-11-14T22:13:20.005Z" bodyWithId []
      (by decide)).2.1 (JsVal.str "chosen-by-client") (by decide)).2,
   (submitData_id_from_body 1700000000005 "2023-11-14T22:13:20.005Z" bodyWithId []
      (by decide)).2.2.1 (JsVal.str "1999-01-01") (by decide),
   by
     have h := ((submitData_id_from_body 1700000000000 "2023-11-14T22:13:20.000Z" scenarioBody []
       (by decide)).2.2.2.1 (by decide)).2
     rw [h]
     decide⟩

/-! ## The pages of the list handler -/

theorem Mongo.parseIntOr_numeral (numberToString : ℚ → String) (n : Nat) (fallback : JsNum)
    (hn : 1 ≤ n) (hb : n < 2 ^ 53) :
    Mongo.parseIntOr roundToDouble numberToString (JsVal.str (toString n)) fallback
      = some (JsNum.fin n) := by
  have hparse : parseInt numberToString (JsVal.str (toString n)) = JsNum.fin (n : ℚ) := by
    simp [parseInt, toStr, parseIntChars_toString]
  have hround : (JsNum.fin (n : ℚ)).rounded roundToDouble = JsNum.fin n :=
    roundToDouble_natCast n hb
  have h0 : (n : ℚ) ≠ 0 := Nat.cast_ne_zero.mpr (by omega)
  unfold Mongo.parseIntOr
  rw [hparse, hround]
  simp [hasPrimitive, JsNum.truthy, h0]

theorem Mongo.pageOf_pageQuery (numberToString : ℚ → String) (page limit : Nat)
    (hpage : 1 ≤ page) (hb : page < 2 ^ 53) :
    Mongo.pageOf roundToDouble numberToString (Mongo.pageQuery page limit)
      = some (JsNum.fin page) := by
  have hget : getProp (Mongo.pageQuery page limit) "page" = JsVal.str (toString page) := by
    simp [Mongo.pageQuery, getProp, getOwn]
  rw [Mongo.pageOf, hget]
  exact Mongo.parseIntOr_numeral numberToString page _ hpage hb

theorem Mongo.limitOf_pageQuery (numberToString : ℚ → String) (page limit : Nat)
    (hlimit : 1 ≤ limit) (hb : limit < 2 ^ 53) :
    Mongo.limitOf roundToDouble numberToString (Mongo.pageQuery page limit)
      = some (JsNum.fin limit) := by
  have hget : getProp (Mongo.pageQuery page limit) "limit" = JsVal.str (toString limit) := by
    simp [Mongo.pageQuery, getProp, getOwn]
  rw [Mongo.limitOf, hget]
  exact Mongo.parseIntOr_numeral numberToString limit _ hlimit hb

/-- The answer to `?page=p&limit=l`, for `p` and `l` at least one with a
product below `2^53`. -/
theorem Mongo.answer_pageQuery (numberToString : ℚ → String)
    (unusual : JsNum → JsNum → Except String (List JsObj)) (sorted : List JsObj)
    (page limit : Nat) (hpage : 1 ≤ page) (hlimit : 1 ≤ limit) (hbound : page * limit < 2 ^ 53)
    (htotal : sorted.length < 2 ^ 53) :
    Mongo.listSubmissions roundToDouble numberToString none unusual
        (Mongo.pageQuery page limit) sorted
      = Mongo.ListResponse.ok
          (((sorted.drop ((page - 1) * limit)).take limit).map Mongo.selectWithoutVersion).length
          sorted.length (JsNum.fin page)
          (JsNum.fin (((sorted.length + limit - 1) / limit : Nat)))
          (((sorted.drop ((page - 1) * limit)).take limit).map Mongo.selectWithoutVersion) := by
  have hlb : limit ≤ page * limit := Nat.le_mul_of_pos_left limit hpage
  have hpb : page ≤ page * limit := Nat.le_mul_of_pos_right page hlimit
  exact Mongo.listSubmissions_of_nat numberToString unusual _ sorted page limit
    (Mongo.pageOf_pageQuery numberToString page limit hpage (by omega))
    (Mongo.limitOf_pageQuery numberToString page limit hlimit (by omega))
    hpage hlimit hbound htotal

/-- The items of the answer to `?page=p&limit=l`. -/
theorem Mongo.items_pageQuery (numberToString : ℚ → String)
    (unusual : JsNum → JsNum → Except String (List JsObj)) (sorted : List JsObj)
    (page limit : Nat) (hpage : 1 ≤ page) (hlimit : 1 ≤ limit) (hbound : page * limit < 2 ^ 53)
    (htotal : sorted.length < 2 ^ 53) :
    (Mongo.listSubmissions roundToDouble numberToString none unusual
        (Mongo.pageQuery page limit) sorted).items
      = ((sorted.drop ((page - 1) * limit)).take limit).map Mongo.selectWithoutVersion := by
  rw [Mongo.answer_pageQuery numberToString unusual sorted page limit hpage hlimit hbound htotal]
  rfl

theorem flatten_pages {α : Type} (l : List α) (limit pages : Nat) :
    ((List.range pages).map (fun i => (l.drop (i * limit)).take limit)).flatten
      = l.take (pages * limit) := by
  induction pages with
  | zero => simp
  | succ n ih =>
    rw [List.range_succ, List.map_append, List.map_singleton, List.flatten_concat, ih,
      Nat.succ_mul, List.take_add]

theorem le_ceilDiv_mul (n limit : Nat) (hlimit : 1 ≤ limit) :
    n ≤ (n + limit - 1) / limit * limit ∧ (n + limit - 1) / limit * limit < n + limit := by
  have h1 : (n + limit - 1) / limit * limit ≤ n + limit - 1 := Nat.div_mul_le_self _ _
  have h2 : n + limit - 1 < (n + limit - 1) / limit * limit + limit :=
    Nat.lt_div_mul_add (a := n + limit - 1) (b := limit) hlimit
  constructor <;> omega

/-- C18, as stated, fails for a limit beyond the range of doubles: with the
limit `10^400 - 1` the quotient 25 / limit, rounded up, is one, so the one page
`?page=1` should hold the 25 documents. The handler computes the limit
`Infinity` and the skip `NaN`: when the database refuses them the page is the
500 answer, without items; when it serves them the answer reports
`totalPages` 0, so that page 1, which holds all the documents, lies beyond
the reported last page. -/
theorem pages_of_huge_limit :
    pagedCollection ≠ [] ∧ 1 ≤ 10 ^ 400 - 1 ∧
    (pagedCollection.length + (10 ^ 400 - 1) - 1) / (10 ^ 400 - 1) = 1 ∧
    (Mongo.listSubmissions roundToDouble noNumberText none refusingDatabase
        (Mongo.pageQuery 1 (10 ^ 400 - 1)) pagedCollection).items = [] ∧
    pagedCollection.map Mongo.selectWithoutVersion ≠ [] ∧
    Mongo.listSubmissions roundToDouble noNumberText none (lenientDatabase pagedCollection)
        (Mongo.pageQuery 1 (10 ^ 400 - 1)) pagedCollection
      = Mongo.ListResponse.ok 25 25 (JsNum.fin 1) (JsNum.fin 0)
          (pagedCollection.map Mongo.selectWithoutVersion) := by
  refine ⟨by decide, by decide!, by decide!, by decide!, by decide, by decide!⟩

/-- C18 (amended): for `limit` at least one and a non-empty sorted collection
with `total + limit` below `2^53`, the answers to `?page=1`, ...,
`?page=totalPages` with that limit, where `totalPages` is the reported
quotient `total / limit` rounded up, partition the collection as listed (each
document without `__v`): their items in page order make up the whole list,
every page before the last has exactly `limit` items, the last page has
between one and `limit`, and every later page whose number times the limit is
below `2^53` is empty. -/
theorem pages_partition (numberToString : ℚ → String)
    (unusual : JsNum → JsNum → Except String (List JsObj)) (sorted : List JsObj) (limit : Nat)
    (hlimit : 1 ≤ limit) (hne : sorted ≠ []) (hbound : sorted.length + limit < 2 ^ 53) :
    ((List.range ((sorted.length + limit - 1) / limit)).map (fun i =>
        (Mongo.listSubmissions roundToDouble numberToString none unusual
          (Mongo.pageQuery (i + 1) limit) sorted).items)).flatten
      = sorted.map Mongo.selectWithoutVersion ∧
    (∀ page, 1 ≤ page → page * limit < 2 ^ 53 →
      Mongo.listSubmissions roundToDouble numberToString none unusual
          (Mongo.pageQuery page limit) sorted
        = Mongo.ListResponse.ok
            (Mongo.listSubmissions roundToDouble numberToString none unusual
              (Mongo.pageQuery page limit) sorted).items.length
            sorted.length (JsNum.fin page)
            (JsNum.fin (((sorted.length + limit - 1) / limit : Nat)))
            (Mongo.listSubmissions roundToDouble numberToString none unusual
              (Mongo.pageQuery page limit) sorted).items) ∧
    (∀ page, 1 ≤ page → page < (sorted.length + limit - 1) / limit →
      (Mongo.listSubmissions roundToDouble numberToString none unusual
        (Mongo.pageQuery page limit) sorted).items.length = limit) ∧
    (1 ≤ (Mongo.listSubmissions roundToDouble numberToString none unusual
          (Mongo.pageQuery ((sorted.length + limit - 1) / limit) limit) sorted).items.length ∧
      (Mongo.listSubmissions roundToDouble numberToString none unusual
          (Mongo.pageQuery ((sorted.length + limit - 1) / limit) limit) sorted).items.length
        ≤ limit) ∧
    (∀ page, (sorted.length + limit - 1) / limit < page → page * limit < 2 ^ 53 →
      (Mongo.listSubmissions roundToDouble numberToString none unusual
        (Mongo.pageQuery page limit) sorted).items = []) := by
  obtain ⟨hle, hlt⟩ := le_ceilDiv_mul sorted.length limit hlimit
  have hlen : 1 ≤ sorted.length := List.length_pos.mpr hne
  have htotal : sorted.length < 2 ^ 53 := by omega
  generalize hT : (sorted.length + limit - 1) / limit = T at hle hlt ⊢
  have hT1 : 1 ≤ T := by
    rcases Nat.eq_zero_or_pos T with h0 | h0
    · rw [h0] at hle
      omega
    · exact h0
  have hTb : T * limit < 2 ^ 53 := by omega
  have hlast : (T - 1) * limit + limit = T * limit := by
    rw [Nat.sub_mul, Nat.one_mul]
    have : limit ≤ T * limit := Nat.le_mul_of_pos_left limit hT1
    omega
  have hpageb : ∀ page, page ≤ T → page * limit < 2 ^ 53 := by
    intro page hpage
    have : page * limit ≤ T * limit := Nat.mul_le_mul_right limit hpage
    omega
  refine ⟨?_, ?_, ?_, ?_, ?_⟩
  · have hpages : (List.range T).map (fun i =>
          (Mongo.listSubmissions roundToDouble numberToString none unusual
            (Mongo.pageQuery (i + 1) limit) sorted).items)
        = (List.range T).map (fun i =>
            ((sorted.drop (i * limit)).take limit).map Mongo.selectWithoutVersion) := by
      apply List.map_congr_left
      intro i hi
      rw [List.mem_range] at hi
      rw [Mongo.items_pageQuery numberToString unusual sorted (i + 1) limit (by omega) hlimit
        (hpageb (i + 1) (by omega)) htotal]
      simp
    rw [hpages]
    have hmap : (List.range T).map (fun i =>
          ((sorted.drop (i * limit)).take limit).map Mongo.selectWithoutVersion)
        = ((List.range T).map (fun i => (sorted.drop (i * limit)).take limit)).map
            (List.map Mongo.selectWithoutVersion) := by
      rw [List.map_map]
      rfl
    rw [hmap, ← List.map_flatten, flatten_pages, List.take_of_length_le hle]
  · intro page hpage hb
    rw [Mongo.items_pageQuery numberToString unusual sorted page limit hpage hlimit hb htotal,
      Mongo.answer_pageQuery numberToString unusual sorted page limit hpage hlimit hb htotal, hT]
  · intro page hpage hlast'
    rw [Mongo.items_pageQuery numberToString unusual sorted page limit hpage hlimit
        (hpageb page (by omega)) htotal,
      List.length_map, List.length_take, List.length_drop]
    have h1 : (page - 1) * limit + limit = page * limit := by
      rw [Nat.sub_mul, Nat.one_mul]
      have : limit ≤ page * limit := Nat.le_mul_of_pos_left limit hpage
      omega
    have h2 : page * limit ≤ (T - 1) * limit := Nat.mul_le_mul_right limit (by omega)
    omega
  · rw [Mongo.items_pageQuery numberToString unusual sorted T limit hT1 hlimit hTb htotal,
      List.length_map, List.length_take, List.length_drop]
    omega
  · intro page hpage hb
    rw [Mongo.items_pageQuery numberToString unusual sorted page limit (by omega) hlimit hb
      htotal]
    have h2 : T * limit ≤ (page - 1) * limit := Nat.mul_le_mul_right limit (by omega)
    rw [List.drop_of_length_le (by omega)]
    simp

/-- C18 (amended), at the collection of 25 documents and `limit=10`: three
pages, of 10, 10 and 5 items, and an empty fourth page. -/
theorem pages_partition_witness :
    pagedCollection ≠ [] ∧
    (pagedCollection.length + 10 - 1) / 10 = 3 ∧
    ((List.range 3).map (fun i =>
        (Mongo.listSubmissions roundToDouble noNumberText none refusingDatabase
          (Mongo.pageQuery (i + 1) 10) pagedCollection).items)).flatten
      = pagedCollection.map Mongo.selectWithoutVersion ∧
    (Mongo.listSubmissions roundToDouble noNumberText none refusingDatabase
      (Mongo.pageQuery 3 10) pagedCollection).items.length = 5 ∧
    (Mongo.listSubmissions roundToDouble noNumberText none refusingDatabase
      (Mongo.pageQuery 4 10) pagedCollection).items = [] := by
  have hne : pagedCollection ≠ [] := by decide
  have h := pages_partition noNumberText refusingDatabase pagedCollection 10 (by decide) hne
    (by norm_num [pagedCollection])
  have hT : (pagedCollection.length + 10 - 1) / 10 = 3 := by decide
  rw [hT] at h
  exact ⟨hne, hT, h.1, by decide!, h.2.2.2.2 4 (by decide) (by norm_num)⟩

/-! ## Answers to storage failures -/

/-- C16, as stated, fails for the two health handlers: with the same clock
reading, two failures of the database that differ only in their message get
different answers, each holding the message of its failure. -/
theorem health_echoes_error_message :
    Sqlite.health "2023-11-14T22:13:20.000Z" (JsNum.fin 12)
        (some "SQLITE_CANTOPEN: unable to open database file")
      ≠ Sqlite.health "2023-11-14T22:13:20.000Z" (JsNum.fin 12)
          (some "SQLITE_IOERR: disk I/O error") ∧
    (Sqlite.health "2023-11-14T22:13:20.000Z" (JsNum.fin 12)
        (some "SQLITE_CANTOPEN: unable to open database file")).error
      = some "SQLITE_CANTOPEN: unable to open database file" ∧
    Mongo.health "2023-11-14T22:13:20.000Z" (JsNum.fin 12)
        (some "connect ECONNREFUSED 127.0.0.1:27017")
      ≠ Mongo.health "2023-11-14T22:13:20.000Z" (JsNum.fin 12)
          (some "Server selection timed out after 30000 ms") ∧
    (Mongo.health "2023-11-14T22:13:20.000Z" (JsNum.fin 12)
        (some "connect ECONNREFUSED 127.0.0.1:27017")).error
      = some "connect ECONNREFUSED 127.0.0.1:27017" := by
  refine ⟨?_, rfl, ?_, rfl⟩
  · intro h
    have := congrArg HealthResponse.error h
    revert this
    decide
  · intro h
    have := congrArg HealthResponse.error h
    revert this
    decide

/-- C16 (amended): for two storage failures with the messages `m₁` and `m₂`,
the submit, list, statistics, export and region handlers of the SQLite and
MongoDB variants give the same answer, a 500 with a fixed text (`Database
error`, `Internal server error` or `Export error`). The health handlers are
the exception: they answer `unhealthy` and put the message of the failure
into the field `error`. -/
theorem storage_failure_answer_fixed (m₁ m₂ : String) :
    (∀ round numberToString data (run₁ run₂ : List JsVal → Except String Nat),
      run₁ (Sqlite.insertParams round numberToString data) = Except.error m₁ →
      run₂ (Sqlite.insertParams round numberToString data) = Except.error m₂ →
      Sqlite.submitData round numberToString run₁ data
        = Sqlite.submitData round numberToString run₂ data ∧
      ((∀ k ∈ requiredFields, absentOrFalsy data k = false) → Sqlite.binds data = true →
        Sqlite.submitData round numberToString run₁ data = serverErrorResponse "Database error" ∧
        Sqlite.submitData round numberToString run₂ data = serverErrorResponse "Database error")) ∧
    (Sqlite.listSubmissions (Except.error m₁) = Sqlite.ListResponse.failure "Database error" ∧
      Sqlite.listSubmissions (Except.error m₂) = Sqlite.ListResponse.failure "Database error") ∧
    (∀ round numberToString,
      Sqlite.statistics round numberToString (Except.error m₁)
        = StatisticsResponse.failure "Database error" ∧
      Sqlite.statistics round numberToString (Except.error m₂)
        = StatisticsResponse.failure "Database error") ∧
    (∀ numberToString,
      Sqlite.exportCsv numberToString (Except.error m₁) = ExportResponse.failure "Database error" ∧
      Sqlite.exportCsv numberToString (Except.error m₂)
        = ExportResponse.failure "Database error") ∧
    (∀ round numberToString emailMatches ip userAgent data
        (insert₁ insert₂ : Mongo.Submission → Except String JsVal),
      insert₁ (Mongo.makeSubmission round numberToString ip userAgent data) = Except.error m₁ →
      insert₂ (Mongo.makeSubmission round numberToString ip userAgent data) = Except.error m₂ →
      Mongo.submitData round numberToString emailMatches insert₁ ip userAgent data
        = Mongo.submitData round numberToString emailMatches insert₂ ip userAgent data ∧
      ((∀ k ∈ requiredFields, absentOrFalsy data k = false) →
        Mongo.schemaErrors round emailMatches (Mongo.makeSubmission round numberToString ip userAgent data)
          = [] →
        Mongo.submitData round numberToString emailMatches insert₁ ip userAgent data
          = serverErrorResponse "Internal server error")) ∧
    (∀ round numberToString unusual query sorted,
      Mongo.listSubmissions round numberToString (some m₁) unusual query sorted
        = Mongo.ListResponse.failure "Database error" ∧
      Mongo.listSubmissions round numberToString (some m₂) unusual query sorted
        = Mongo.ListResponse.failure "Database error") ∧
    (∀ numberToString summary regionStats genderStats,
      Mongo.statistics numberToString (Except.error m₁) regionStats genderStats
        = Mongo.StatisticsResponse.failure "Database error" ∧
      Mongo.statistics numberToString (Except.error m₂) regionStats genderStats
        = Mongo.StatisticsResponse.failure "Database error" ∧
      (summary ≠ [] →
        Mongo.statistics numberToString (Except.ok summary) (Except.error m₁) genderStats
          = Mongo.StatisticsResponse.failure "Database error" ∧
        Mongo.statistics numberToString (Except.ok summary) (Except.error m₂) genderStats
          = Mongo.StatisticsResponse.failure "Database error" ∧
        Mongo.statistics numberToString (Except.ok summary) regionStats (Except.error m₁)
          = Mongo.statistics numberToString (Except.ok summary) regionStats (Except.error m₂))) ∧
    (∀ numberToString,
      Mongo.exportCsv numberToString (Except.error m₁) = ExportResponse.failure "Export error" ∧
      Mongo.exportCsv numberToString (Except.error m₂) = ExportResponse.failure "Export error") ∧
    (∀ region,
      Mongo.submissionsByRegion region (Except.error m₁)
        = Mongo.RegionResponse.failure "Database error" ∧
      Mongo.submissionsByRegion region (Except.error m₂)
        = Mongo.RegionResponse.failure "Database error") ∧
    (∀ isoNow uptime,
      (Sqlite.health isoNow uptime (some m₁)).status = "unhealthy" ∧
      (Sqlite.health isoNow uptime (some m₁)).error = some m₁ ∧
      (Mongo.health isoNow uptime (some m₁)).status = "unhealthy" ∧
      (Mongo.health isoNow uptime (some m₁)).error = some m₁) := by
  refine ⟨?_, ⟨rfl, rfl⟩, fun _ _ => ⟨rfl, rfl⟩, fun _ => ⟨rfl, rfl⟩, ?_, ?_,
    ?_, fun _ => ⟨rfl, rfl⟩, fun _ => ⟨rfl, rfl⟩, fun _ _ => ⟨rfl, rfl, rfl, rfl⟩⟩
  · intro round numberToString data run₁ run₂ h1 h2
    constructor
    · simp only [Sqlite.submitData, h1, h2]
    · intro h hbinds
      have hm := (missingFields_eq_nil_iff data).mpr h
      constructor
      · simp [Sqlite.submitData, hm, hbinds, h1]
      · simp [Sqlite.submitData, hm, hbinds, h2]
  · intro round numberToString emailMatches ip userAgent data insert₁ insert₂ h1 h2
    constructor
    · simp only [Mongo.submitData, h1, h2]
    · intro h herr
      by_cases hparses : parses data = true
      · simp [Mongo.submitData, (missingFields_eq_nil_iff data).mpr h, hparses, herr, h1]
      · simp [Mongo.submitData, (missingFields_eq_nil_iff data).mpr h, hparses]
  · intro round numberToString unusual query sorted
    unfold Mongo.listSubmissions
    constructor
    · cases Mongo.pageOf round numberToString query <;>
        cases Mongo.limitOf round numberToString query <;> rfl
    · cases Mongo.pageOf round numberToString query <;>
        cases Mongo.limitOf round numberToString query <;> rfl
  · intro numberToString summary regionStats genderStats
    refine ⟨rfl, rfl, ?_⟩
    intro hne
    cases summary with
    | nil => exact absurd rfl hne
    | cons result rest =>
      refine ⟨rfl, rfl, ?_⟩
      cases regionStats with
      | error e => rfl
      | ok regions => rfl

/-- C16 (amended), at two failures of the SQLite database: the list, the
statistics and the export handler answer both with `Database error`. -/
theorem storage_failure_answer_fixed_witness :
    Sqlite.listSubmissions (Except.error "SQLITE_CANTOPEN: unable to open database file")
      = Sqlite.listSubmissions (Except.error "SQLITE_IOERR: disk I/O error") ∧
    Sqlite.exportCsv noNumberText (Except.error "SQLITE_CANTOPEN: unable to open database file")
      = ExportResponse.failure "Database error" ∧
    Mongo.exportCsv noNumberText (Except.error "SQLITE_IOERR: disk I/O error")
      = ExportResponse.failure "Export error" := by
  have h := storage_failure_answer_fixed "SQLITE_CANTOPEN: unable to open database file"
    "SQLITE_IOERR: disk I/O error"
  exact ⟨h.2.1.1.trans h.2.1.2.symm, (h.2.2.2.1 noNumberText).1,
    (h.2.2.2.2.2.2.2.1 noNumberText).2⟩

/-! ## Reading the CSV text back -/

theorem intercalate_go_data (acc sep : String) (xs : List String) :
    (String.intercalate.go acc sep xs).data
      = acc.data ++ (xs.map (fun x => sep.data ++ x.data)).flatten := by
  induction xs generalizing acc with
  | nil => simp [String.intercalate.go]
  | cons x rest ih =>
    rw [String.intercalate.go, ih]
    simp [List.append_assoc]

theorem joinChars_cons (sep a : List Char) (rest : List (List Char)) :
    joinChars sep (a :: rest) = a ++ (rest.map (fun x => sep ++ x)).flatten := by
  induction rest generalizing a with
  | nil => simp [joinChars]
  | cons b rest ih =>
    rw [joinChars, ih]
    simp [List.append_assoc]

theorem join_data (sep : String) (xs : List String) :
    (join sep xs).data = joinChars sep.data (xs.map String.data) := by
  cases xs with
  | nil => rfl
  | cons a rest =>
    unfold join
    rw [String.intercalate, intercalate_go_data, List.map_cons, joinChars_cons, List.map_map]
    rfl

theorem not_mem_joinChars (c : Char) (sep : List Char) (parts : List (List Char))
    (hsep : c ∉ sep) (hparts : ∀ p ∈ parts, c ∉ p) : c ∉ joinChars sep parts := by
  cases parts with
  | nil => simp [joinChars]
  | cons a rest =>
    rw [joinChars_cons]
    intro h
    rcases List.mem_append.mp h with h | h
    · exact hparts a (List.mem_cons_self _ _) h
    · rw [List.mem_flatten] at h
      obtain ⟨l, hl, hc⟩ := h
      rw [List.mem_map] at hl
      obtain ⟨x, hx, rfl⟩ := hl
      rcases List.mem_append.mp hc with hc | hc
      · exact hsep hc
      · exact hparts x (List.mem_cons_of_mem _ hx) hc

theorem splitAtChar_append (a : Char) (part rest current : List Char) (h : a ∉ part) :
    splitAtChar a (part ++ rest) current = splitAtChar a rest (current ++ part) := by
  induction part generalizing current with
  | nil => simp
  | cons c part ih =>
    have hc : ¬ c = a := fun hc => h (hc ▸ List.mem_cons_self _ _)
    have hpart : a ∉ part := fun hp => h (List.mem_cons_of_mem _ hp)
    rw [List.cons_append, splitAtChar, if_neg hc, ih _ hpart]
    simp

theorem splitAtChar_joinChars (a : Char) (first : List Char) (rest : List (List Char))
    (h : ∀ p ∈ first :: rest, a ∉ p) :
    splitAtChar a (joinChars [a] (first :: rest)) [] = first :: rest := by
  induction rest generalizing first with
  | nil =>
    have := splitAtChar_append a first [] [] (h first (List.mem_cons_self _ _))
    simpa [joinChars, splitAtChar] using this
  | cons b rest ih =>
    have hfirst := h first (List.mem_cons_self _ _)
    have hrest : ∀ p ∈ b :: rest, a ∉ p := fun p hp => h p (List.mem_cons_of_mem _ hp)
    rw [joinChars, List.append_assoc, splitAtChar_append a first _ [] hfirst]
    simp [splitAtChar, ih b hrest]

theorem splitCells_plain (part rest current : List Char) (h1 : '"' ∉ part) (h2 : ',' ∉ part) :
    splitCells (part ++ rest) false current = splitCells rest false (current ++ part) := by
  induction part generalizing current with
  | nil => simp
  | cons c part ih =>
    have hc1 : ¬ c = '"' := fun hc => h1 (hc ▸ List.mem_cons_self _ _)
    have hc2 : ¬ c = ',' := fun hc => h2 (hc ▸ List.mem_cons_self _ _)
    rw [List.cons_append, splitCells, if_neg hc1, if_neg (fun h => hc2 h.1),
      ih _ (fun hp => h1 (List.mem_cons_of_mem _ hp)) (fun hp => h2 (List.mem_cons_of_mem _ hp))]
    simp

theorem splitCells_inside (part rest current : List Char) (h1 : '"' ∉ part) :
    splitCells (part ++ rest) true current = splitCells rest true (current ++ part) := by
  induction part generalizing current with
  | nil => simp
  | cons c part ih =>
    have hc1 : ¬ c = '"' := fun hc => h1 (hc ▸ List.mem_cons_self _ _)
    rw [List.cons_append, splitCells, if_neg hc1, if_neg (fun h => Bool.noConfusion h.2),
      ih _ (fun hp => h1 (List.mem_cons_of_mem _ hp))]
    simp

theorem splitCells_quoted (content rest current : List Char) (h1 : '"' ∉ content) :
    splitCells ('"' :: content ++ '"' :: rest) false current
      = splitCells rest false (current ++ '"' :: content ++ ['"']) := by
  rw [List.cons_append, splitCells, if_pos rfl]
  simp only [Bool.not_false]
  rw [splitCells_inside content _ _ h1, splitCells, if_pos rfl]
  simp

theorem splitCells_cell (cell orig rest current : List Char)
    (h : (cell = orig ∧ '"' ∉ orig ∧ ',' ∉ orig) ∨ (cell = '"' :: orig ++ ['"'] ∧ '"' ∉ orig)) :
    splitCells (cell ++ rest) false current = splitCells rest false (current ++ cell) := by
  rcases h with ⟨rfl, h1, h2⟩ | ⟨rfl, h1⟩
  · exact splitCells_plain cell rest current h1 h2
  · have := splitCells_quoted orig rest current h1
    simpa [List.append_assoc] using this

theorem splitCells_joinChars (first : List Char) (rest : List (List Char))
    (h : ∀ cell ∈ first :: rest, ∃ orig,
      (cell = orig ∧ '"' ∉ orig ∧ ',' ∉ orig) ∨ (cell = '"' :: orig ++ ['"'] ∧ '"' ∉ orig)) :
    splitCells (joinChars [','] (first :: rest)) false [] = first :: rest := by
  induction rest generalizing first with
  | nil =>
    obtain ⟨orig, ho⟩ := h first (List.mem_cons_self _ _)
    have := splitCells_cell first orig [] [] ho
    simpa [joinChars, splitCells] using this
  | cons b rest ih =>
    obtain ⟨orig, ho⟩ := h first (List.mem_cons_self _ _)
    have hrest : ∀ cell ∈ b :: rest, ∃ orig,
        (cell = orig ∧ '"' ∉ orig ∧ ',' ∉ orig) ∨ (cell = '"' :: orig ++ ['"'] ∧ '"' ∉ orig) :=
      fun p hp => h p (List.mem_cons_of_mem _ hp)
    rw [joinChars, List.append_assoc, splitCells_cell first orig _ [] ho]
    have hcomma : ¬ (',' : Char) = '"' := by decide
    simp [splitCells, hcomma, ih b hrest]

theorem unquoteCell_cell (cell orig : List Char)
    (h : (cell = orig ∧ '"' ∉ orig ∧ ',' ∉ orig) ∨ (cell = '"' :: orig ++ ['"'] ∧ '"' ∉ orig)) :
    unquoteCell cell = orig := by
  rcases h with ⟨rfl, h1, _⟩ | ⟨rfl, _⟩
  · unfold unquoteCell
    split
    · rename_i rest
      exact absurd (List.mem_cons_self _ _) h1
    · rfl
  · simp [unquoteCell]

theorem cell_of_plainValue (numberToString : ℚ → String) (v : JsVal)
    (h : PlainValue numberToString v) :
    ((joinText numberToString (csvCell v)).data = (joinText numberToString v).data ∧
        '"' ∉ (joinText numberToString v).data ∧ ',' ∉ (joinText numberToString v).data) ∨
      ((joinText numberToString (csvCell v)).data
          = '"' :: (joinText numberToString v).data ++ ['"'] ∧
        '"' ∉ (joinText numberToString v).data) := by
  obtain ⟨⟨hq, _⟩, hcomma⟩ := h
  cases v with
  | str s =>
    by_cases hc : includesComma s = true
    · right
      refine ⟨?_, hq⟩
      simp [csvCell, hc, joinText, toStr]
    · left
      refine ⟨?_, hq, ?_⟩
      · simp [csvCell, hc]
      · intro hmem
        exact hc ((includesComma_iff s).mpr hmem)
  | undefined => exact Or.inl ⟨rfl, hq, hcomma (fun s h => JsVal.noConfusion h)⟩
  | null => exact Or.inl ⟨rfl, hq, hcomma (fun s h => JsVal.noConfusion h)⟩
  | bool b => exact Or.inl ⟨rfl, hq, hcomma (fun s h => JsVal.noConfusion h)⟩
  | num n => exact Or.inl ⟨rfl, hq, hcomma (fun s h => JsVal.noConfusion h)⟩
  | object text => exact Or.inl ⟨rfl, hq, hcomma (fun s h => JsVal.noConfusion h)⟩
  | noPrimitive => exact Or.inl ⟨rfl, hq, hcomma (fun s h => JsVal.noConfusion h)⟩

theorem csvLine_data (numberToString : ℚ → String) (record : JsObj) :
    (csvLine numberToString record).data
      = joinChars [',']
          ((objectValues record).map (fun v => (joinText numberToString (csvCell v)).data)) := by
  unfold csvLine joinValues
  rw [join_data, List.map_map, List.map_map]
  rfl

/-- The line of a record with at least one value, all of them plain, reads
back as the string forms of the values. -/
theorem readLine_csvLine (numberToString : ℚ → String) (record : JsObj)
    (hne : objectValues record ≠ [])
    (hplain : ∀ v ∈ objectValues record, PlainValue numberToString v) :
    readLine (csvLine numberToString record) = valueTexts numberToString record := by
  unfold readLine valueTexts
  rw [csvLine_data]
  cases hvals : objectValues record with
  | nil => exact absurd hvals hne
  | cons v rest =>
    rw [hvals] at hplain
    have hgood : ∀ cell ∈ ((v :: rest).map (fun v => (joinText numberToString (csvCell v)).data)),
        ∃ orig, (cell = orig ∧ '"' ∉ orig ∧ ',' ∉ orig)
          ∨ (cell = '"' :: orig ++ ['"'] ∧ '"' ∉ orig) := by
      intro cell hcell
      rw [List.mem_map] at hcell
      obtain ⟨w, hw, rfl⟩ := hcell
      exact ⟨_, cell_of_plainValue numberToString w (hplain w hw)⟩
    rw [List.map_cons] at hgood
    rw [List.map_cons, splitCells_joinChars _ _ hgood,
      show (joinText numberToString (csvCell v)).data
          :: List.map (fun v => (joinText numberToString (csvCell v)).data) rest
        = List.map (fun v => (joinText numberToString (csvCell v)).data) (v :: rest) from rfl,
      List.map_map]
    apply List.map_congr_left
    intro w hw
    simp only [Function.comp_apply]
    rw [unquoteCell_cell _ _ (cell_of_plainValue numberToString w (hplain w hw))]

theorem csvLine_no_lineFeed (numberToString : ℚ → String) (record : JsObj)
    (hplain : ∀ v ∈ objectValues record, PlainValue numberToString v) :
    '\n' ∉ (csvLine numberToString record).data := by
  rw [csvLine_data]
  apply not_mem_joinChars
  · decide
  · intro p hp
    rw [List.mem_map] at hp
    obtain ⟨w, hw, rfl⟩ := hp
    have hn : '\n' ∉ (joinText numberToString w).data := (hplain w hw).1.2
    rcases cell_of_plainValue numberToString w (hplain w hw) with ⟨h, _, _⟩ | ⟨h, _⟩
    · rw [h]
      exact hn
    · rw [h]
      intro hmem
      have hq : ¬ ('\n' : Char) = '"' := by decide
      simp [hq] at hmem
      exact hn hmem

/-- The CSV text of a non-empty list of records, whose header holds no line
feed and whose records have plain values and at least one value each, reads
back as the string forms of the values of each record, in order. -/
theorem readCsv_csvText (numberToString : ℚ → String) (records : List JsObj)
    (hne : records ≠ [])
    (hheader : '\n' ∉ (csvHeaders records).data)
    (hvalues : ∀ r ∈ records, objectValues r ≠ [])
    (hplain : ∀ r ∈ records, ∀ v ∈ objectValues r, PlainValue numberToString v) :
    readCsv (csvText numberToString records) = records.map (valueTexts numberToString) := by
  cases records with
  | nil => exact absurd rfl hne
  | cons first rest =>
    have hdata : (csvText numberToString (first :: rest)).data
        = joinChars ['\n'] ((csvHeaders (first :: rest)).data
            :: (first :: rest).map (fun r => (csvLine numberToString r).data)) := by
      unfold csvText
      rw [String.data_append, String.data_append, join_data, List.map_map, joinChars_cons,
        List.map_cons, List.map_cons, joinChars_cons]
      simp [List.append_assoc, Function.comp_def]
    have hparts : ∀ p ∈ (csvHeaders (first :: rest)).data
          :: (first :: rest).map (fun r => (csvLine numberToString r).data), '\n' ∉ p := by
      intro p hp
      rcases List.mem_cons.mp hp with rfl | hp
      · exact hheader
      · rw [List.mem_map] at hp
        obtain ⟨r, hr, rfl⟩ := hp
        exact csvLine_no_lineFeed numberToString r (hplain r hr)
    unfold readCsv
    rw [hdata, splitAtChar_joinChars '\n' _ _ hparts, List.tail_cons, List.map_map]
    apply List.map_congr_left
    intro r hr
    simp only [Function.comp_apply]
    exact readLine_csvLine numberToString r (hvalues r hr) (hplain r hr)

theorem plainValue_str (numberToString : ℚ → String) (s : String) (h : PlainText s) :
    PlainValue numberToString (JsVal.str s) :=
  ⟨h, fun hne => absurd rfl (hne s)⟩

theorem plainValue_num (numberToString : ℚ → String) (q : ℚ)
    (h : PlainText (numberToString q) ∧ ',' ∉ (numberToString q).data) :
    PlainValue numberToString (JsVal.num (JsNum.fin q)) :=
  ⟨h.1, fun _ => h.2⟩

/-- The rows of a table of the SQLite variant, as the export handler gets
them, meet the conditions of the reading back: they have eleven columns whose
names hold no line feed, and their values are plain when the text columns are
and when the engine's text of a Number holds no double quote, line feed or
comma. -/
theorem Sqlite.rows_readable (numberToString : ℚ → String) (table : List Sqlite.Row)
    (hnum : ∀ q, PlainText (numberToString q) ∧ ',' ∉ (numberToString q).data)
    (htext : ∀ r ∈ table, PlainText r.region ∧ PlainText r.firstborn_gender ∧
      PlainText r.age_range ∧ PlainText r.notes ∧ PlainText r.contact_email ∧
      PlainText r.timestamp) :
    '\n' ∉ (csvHeaders (Sqlite.selectAllOrdered table)).data ∧
    (∀ o ∈ Sqlite.selectAllOrdered table, objectValues o ≠ []) ∧
    (∀ o ∈ Sqlite.selectAllOrdered table, ∀ v ∈ objectValues o, PlainValue numberToString v) := by
  have hmem : ∀ o ∈ Sqlite.selectAllOrdered table, ∃ r ∈ table, o = Sqlite.rowObject r := by
    intro o ho
    unfold Sqlite.selectAllOrdered at ho
    rw [List.mem_map] at ho
    obtain ⟨r, hr, rfl⟩ := ho
    exact ⟨r, (List.perm_insertionSort _ _).mem_iff.mp hr, rfl⟩
  refine ⟨?_, ?_, ?_⟩
  · unfold Sqlite.selectAllOrdered
    cases table.insertionSort Sqlite.timestampDescending with
    | nil => decide
    | cons r rest =>
      have hkeys : csvHeaders (List.map Sqlite.rowObject (r :: rest))
          = join "," ["id", "region", "family_size", "firstborn_gender", "attitude_score",
              "firstborn_education", "laterborn_education", "age_range", "notes",
              "contact_email", "timestamp"] := rfl
      rw [hkeys]
      decide
  · intro o ho
    obtain ⟨r, _, rfl⟩ := hmem o ho
    simp [objectValues, Sqlite.rowObject]
  · intro o ho v hv
    obtain ⟨r, hr, rfl⟩ := hmem o ho
    obtain ⟨h1, h2, h3, h4, h5, h6⟩ := htext r hr
    simp only [objectValues, Sqlite.rowObject, List.map_cons, List.map_nil, List.mem_cons,
      List.mem_singleton, List.not_mem_nil, or_false] at hv
    rcases hv with rfl | rfl | rfl | rfl | rfl | rfl | rfl | rfl | rfl | rfl | rfl
    · exact plainValue_num numberToString _ (hnum _)
    · exact plainValue_str numberToString _ h1
    · exact plainValue_num numberToString _ (hnum _)
    · exact plainValue_str numberToString _ h2
    · exact plainValue_num numberToString _ (hnum _)
    · exact plainValue_num numberToString _ (hnum _)
    · exact plainValue_num numberToString _ (hnum _)
    · exact plainValue_str numberToString _ h3
    · exact plainValue_str numberToString _ h4
    · exact plainValue_str numberToString _ h5
    · exact plainValue_str numberToString _ h6

/-- C19: for a non-empty list of records with the keys of the first record (at
least one, none with a line feed), whose values are plain (no double quote and
no line feed in their string form, a comma only inside a string), the CSV text
can be read back: every data line, split at the commas outside double quotes
and freed of the wrapping quotes, gives the string forms of the values of its
record in key order, and so does the whole text, line by line; hence two such
lists with the same CSV text have the same value strings. For the rows that
the SQLite export reads, the conditions on the records hold as soon as the
text columns are plain. -/
theorem csv_read_back (numberToString : ℚ → String) (records : List JsObj)
    (hne : records ≠ [])
    (hkeys : ∀ r ∈ records, objectKeys r = objectKeys (records.headD []))
    (hcolumns : objectKeys (records.headD []) ≠ [])
    (hheader : '\n' ∉ (csvHeaders records).data)
    (hplain : ∀ r ∈ records, ∀ v ∈ objectValues r, PlainValue numberToString v) :
    (∀ r ∈ records, readLine (csvLine numberToString r) = valueTexts numberToString r) ∧
    readCsv (csvText numberToString records) = records.map (valueTexts numberToString) ∧
    (∀ others : List JsObj, others ≠ [] →
      (∀ r ∈ others, objectKeys r = objectKeys (others.headD [])) →
      objectKeys (others.headD []) ≠ [] →
      '\n' ∉ (csvHeaders others).data →
      (∀ r ∈ others, ∀ v ∈ objectValues r, PlainValue numberToString v) →
      csvText numberToString others = csvText numberToString records →
      others.map (valueTexts numberToString) = records.map (valueTexts numberToString)) ∧
    (∀ table : List Sqlite.Row, table ≠ [] →
      (∀ q, PlainText (numberToString q) ∧ ',' ∉ (numberToString q).data) →
      (∀ r ∈ table, PlainText r.region ∧ PlainText r.firstborn_gender ∧
        PlainText r.age_range ∧ PlainText r.notes ∧ PlainText r.contact_email ∧
        PlainText r.timestamp) →
      readCsv (csvText numberToString (Sqlite.selectAllOrdered table))
        = (Sqlite.selectAllOrdered table).map (valueTexts numberToString)) := by
  have hvals : ∀ (rs : List JsObj), (∀ r ∈ rs, objectKeys r = objectKeys (rs.headD [])) →
      objectKeys (rs.headD []) ≠ [] → ∀ r ∈ rs, objectValues r ≠ [] := by
    intro rs hk hc r hr
    have h1 : objectKeys r ≠ [] := by
      rw [hk r hr]
      exact hc
    intro h2
    apply h1
    unfold objectValues at h2
    unfold objectKeys
    rw [List.map_eq_nil_iff] at h2 ⊢
    exact h2
  have hrecords := hvals records hkeys hcolumns
  refine ⟨?_, readCsv_csvText numberToString records hne hheader hrecords hplain, ?_, ?_⟩
  · intro r hr
    exact readLine_csvLine numberToString r (hrecords r hr) (hplain r hr)
  · intro others hne' hkeys' hcolumns' hheader' hplain' heq
    rw [← readCsv_csvText numberToString others hne' hheader' (hvals others hkeys' hcolumns')
      hplain', ← readCsv_csvText numberToString records hne hheader hrecords hplain, heq]
  · intro table hne' hnum htext
    obtain ⟨h1, h2, h3⟩ := Sqlite.rows_readable numberToString table hnum htext
    have hne'' : Sqlite.selectAllOrdered table ≠ [] := by
      unfold Sqlite.selectAllOrdered
      intro h
      rw [List.map_eq_nil_iff] at h
      have := List.length_insertionSort Sqlite.timestampDescending table
      rw [h] at this
      exact hne' (List.length_eq_zero.mp this.symm)
    exact readCsv_csvText numberToString _ hne'' h1 h2 h3

/-- C19, at two records of which one holds a value with commas and one an
empty value: the text reads back as the six value strings. -/
theorem csv_read_back_witness :
    csvText noNumberText plainRecords
      = "region,notes,age_range\nBritish,\"twins, both girls, born 2010\",26-30\nOther,,35+" ∧
    readCsv (csvText noNumberText plainRecords)
      = [["British", "twins, both girls, born 2010", "26-30"], ["Other", "", "35+"]] := by
  have hplain : ∀ r ∈ plainRecords, ∀ v ∈ objectValues r, PlainValue noNumberText v := by
    intro r hr v hv
    simp only [plainRecords, List.mem_cons, List.mem_singleton, List.not_mem_nil, or_false] at hr
    rcases hr with rfl | rfl
    · simp only [objectValues, List.map_cons, List.map_nil, List.mem_cons, List.mem_singleton,
        List.not_mem_nil, or_false] at hv
      rcases hv with rfl | rfl | rfl
      · exact plainValue_str _ _ (by unfold PlainText; decide)
      · exact plainValue_str _ _ (by unfold PlainText; decide)
      · exact plainValue_str _ _ (by unfold PlainText; decide)
    · simp only [objectValues, List.map_cons, List.map_nil, List.mem_cons, List.mem_singleton,
        List.not_mem_nil, or_false] at hv
      rcases hv with rfl | rfl | rfl
      · exact plainValue_str _ _ (by unfold PlainText; decide)
      · exact plainValue_str _ _ (by unfold PlainText; decide)
      · exact plainValue_str _ _ (by unfold PlainText; decide)
  have h := (csv_read_back noNumberText plainRecords (by decide) (by decide) (by decide)
    (by decide) hplain).2.1
  refine ⟨by decide, ?_⟩
  rw [h]
  decide

end BirthOrder
